import Mathlib

/-!
# jsBoard: a verification development of the aircraft boarding simulator

This file gives a shallow embedding of `src/board.js` (the simulation core:
grid construction, boarding-order strategies, the passenger state machine and
the tick loop) and proves properties stated in the specification.

Modelling conventions:
* JS objects linked by references become records indexed by a `Nat` id into a
  `List Cell`; id = position in the aircraft's `grid` array (cells are pushed
  in creation order, so the id of a cell is the length of the array at the
  moment it is created).
* The single-character JS column names `String.fromCharCode(65 + seatIndex)`
  are modelled by their character code `65 + seatIndex : Nat`; JS compares
  such one-character strings by code-unit order, which is `Nat` order.
  Seat-id strings `row + col` are modelled by the pair `(row, colCode)`
  (this encoding is injective because the column name is a single character).
* A JS `Set` of agents becomes a duplicate-free `List Nat` of passenger ids
  (insertion appends when absent, deletion erases).
* Rendering, canvas scaling and DOM access are outside the embedding (the
  spec marks them out of scope); no field of the model depends on them.
-/

namespace JsBoard

/-- Polymorphic in-place update of one position of a list (JS array element
assignment `a[i] = f(a[i])`). -/
def setAt {α : Type} : List α → Nat → (α → α) → List α
  | [], _, _ => []
  | a :: rest, 0, f => f a :: rest
  | a :: rest, n + 1, f => a :: setAt rest n f

/-- Lifecycle states of a passenger (the JS `State` enum; the JS `null`
pre-state is modelled by `Option.none` at use sites). -/
inductive PState where
  | seated
  | searching
  | loadingUp
  | loadingDown
deriving DecidableEq, Repr

/-- A grid cell (JS `Cell` / `Seat`).  `row`/`col` are `some` exactly for
seats (`Seat` carries `row` and `col`; plain cells leave them `undefined`).
`col` is the character code of the one-letter column name. -/
structure Cell where
  x : Int
  y : Int
  row : Option Nat := none
  col : Option Nat := none
  up : Option Nat := none
  down : Option Nat := none
  left : Option Nat := none
  right : Option Nat := none
  contents : List Nat := []
deriving DecidableEq, Repr

instance : Inhabited Cell := ⟨{ x := 0, y := 0 }⟩

/-- Read a cell by id (JS dereference of a cell object). -/
def cellAt (cells : List Cell) (n : Nat) : Cell := (cells[n]?).getD default

/-- `Cell.isEmpty`: the contents set is empty. -/
def Cell.isEmpty (c : Cell) : Bool := c.contents = []

/-- JS `Set.add`: append if not already present. -/
def addContent (l : List Nat) (i : Nat) : List Nat := if i ∈ l then l else l ++ [i]

/-- The aircraft: the cell store (`grid`, id 0 is the starting cell), the
seat id list in creation order, and the distinct row numbers / column codes
observed among added cells (JS `Set`s, modelled as duplicate-free lists). -/
structure Aircraft where
  cells : List Cell := []
  seats : List Nat := []
  rows : List Nat := []
  cols : List Nat := []
deriving DecidableEq, Repr

/-- JS `Set.add` on the row/column registries. -/
def insertSet (l : List Nat) (v : Nat) : List Nat := if v ∈ l then l else l ++ [v]

/-- `Aircraft.addCell`: push the cell onto the grid and record its row number
and column code when present (the JS truthiness test on `newCell.row` also
rejects the number 0; row indices start at 1 so this never fires, but the
test is kept faithful). -/
def addCell (a : Aircraft) (c : Cell) : Aircraft :=
  { a with
    cells := a.cells ++ [c]
    rows := match c.row with
      | some r => if r ≠ 0 then insertSet a.rows r else a.rows
      | none => a.rows
    cols := match c.col with
      | some k => insertSet a.cols k
      | none => a.cols }

/-- `rowCount`: size of the distinct-row set. -/
def Aircraft.rowCount (a : Aircraft) : Nat := a.rows.length

/-- `colCount`: size of the distinct-column set. -/
def Aircraft.colCount (a : Aircraft) : Nat := a.cols.length

/-- One row-group of a seat layout (`{repeat, layout}`). -/
structure RowSpec where
  rep : Nat
  layout : List Char
deriving DecidableEq, Repr

/-- The running state of `generateAircraft`'s outer loops: the aircraft so
far, the id of the most recent aisle cell (`prevAisle`, initially the
starting cell), the along-fuselage coordinate `x` and the next row number. -/
structure BState where
  ac : Aircraft
  prevAisle : Nat
  x : Int
  rowIndex : Nat
deriving DecidableEq, Repr

/-- `prevCell.down = newCell` (link to the cell just created). -/
def cellUpdDown (n : Nat) (c : Cell) : Cell := { c with down := some n }

/-- `prevAisle.right = newCell; prevAisle.y = newCell.y`. -/
def cellUpdRight (n : Nat) (y : Int) (c : Cell) : Cell := { c with right := some n, y := y }

/-- One character of a pattern, inside one repetition of a row-group.
`pc` is the previous cell created in this repetition (`prevCell`), `si` the
seat-letter counter (`seatIndex`), `j` the character position.  Mirrors the
body of the innermost loop of `generateAircraft`. -/
def stepChar (b : BState) (pc : Option Nat) (si : Nat) (j : Nat) (ch : Char) :
    BState × Option Nat × Nat :=
  let y : Int := (j : Int) * 64
  if ch = 'S' then
    -- a seat: new Seat(x, y, rowIndex, String.fromCharCode(65 + seatIndex))
    let n := b.ac.cells.length
    let newCell : Cell := { x := b.x, y := y, row := some b.rowIndex, col := some (65 + si), up := pc }
    let ac1 := { b.ac with seats := b.ac.seats ++ [n] }
    let ac2 := match pc with
      | some p => { ac1 with cells := setAt ac1.cells p (cellUpdDown n) }
      | none => ac1
    ({ b with ac := addCell ac2 newCell }, some n, si + 1)
  else if ch = 'A' then
    -- an aisle: link into the aisle spine, adjust the previous aisle's y
    let n := b.ac.cells.length
    let newCell : Cell := { x := b.x, y := y, left := some b.prevAisle, up := pc }
    let ac1 := { b.ac with
      cells := setAt b.ac.cells b.prevAisle (cellUpdRight n y) }
    let ac2 := match pc with
      | some p => { ac1 with cells := setAt ac1.cells p (cellUpdDown n) }
      | none => ac1
    ({ b with ac := addCell ac2 newCell, prevAisle := n }, some n, si)
  else if ch = '+' then
    -- advance the seat letter but create no cell
    (b, pc, si + 1)
  else
    -- any other character: skip
    (b, pc, si)

/-- The innermost loop: all characters of a pattern, threading `prevCell`,
`seatIndex` and the character position. -/
def stepChars : BState → Option Nat → Nat → Nat → List Char → BState
  | b, _, _, _, [] => b
  | b, pc, si, j, ch :: rest =>
    let s := stepChar b pc si j ch
    stepChars s.1 s.2.1 s.2.2 (j + 1) rest

/-- One repetition of a row-group: advance `x` by one cell width, run the
pattern with fresh `prevCell`/`seatIndex`, then advance the row number. -/
def stepRep (b : BState) (pattern : List Char) : BState :=
  let b1 := { b with x := b.x + 64 }
  let b2 := stepChars b1 none 0 0 pattern
  { b2 with rowIndex := b2.rowIndex + 1 }

/-- `repeat`-fold of `stepRep`. -/
def repIter : BState → Nat → List Char → BState
  | b, 0, _ => b
  | b, k + 1, p => repIter (stepRep b p) k p

/-- `generateAircraft`: build the grid from a layout.  The constructor adds
the starting cell (id 0) to the grid; the canvas-scaling tail of the JS
function is rendering-only and outside the embedding. -/
def generateAircraft (layout : List RowSpec) : Aircraft :=
  let startingCell : Cell := { x := 0, y := 0 }
  let ac0 := addCell {} startingCell
  let b0 : BState := { ac := ac0, prevAisle := 0, x := 0, rowIndex := 1 }
  (layout.foldl (fun b rs => repIter b rs.rep rs.layout) b0).ac

/-! ## Passengers and the simulation state -/

/-- A passenger (JS `Passenger`): the target seat's cell id, the lifecycle
state (`none` is the JS `null` pre-state), the transition countdown and the
current cell id (`none` before boarding).  The luggage-duration supplier is a
parameter of the step functions, drawn from a call-indexed stream. -/
structure Pax where
  target : Nat
  state : Option PState := none
  ttt : Int := 0
  cell : Option Nat := none
deriving DecidableEq, Repr

instance : Inhabited Pax := ⟨{ target := 0 }⟩

/-- The mutable state of one simulation run: the grid's cells (occupancy is
inside the cells), the passenger store (id = index), the pending queue (next
to admit is the list's end), the active list in admission order, the
iteration counter, the number of luggage-supplier calls made so far, and two
defect flags: `boardError` (the `throw` branch of `Aircraft.board`) and
`crashed` (a loading-state move through an absent neighbor, which in JS would
dereference `null` and kill the run). -/
structure SimSt where
  cells : List Cell
  pax : List Pax
  pending : List Nat
  active : List Nat
  iter : Nat := 0
  luggageCalls : Nat := 0
  boardError : Bool := false
  crashed : Bool := false
deriving DecidableEq, Repr

/-- Read a passenger by id. -/
def paxAt (st : SimSt) (i : Nat) : Pax := (st.pax[i]?).getD default

/-- `Agent.move`: delete from the old cell's contents, add to the new cell's
contents, update the agent's cell reference. -/
def movePax (st : SimSt) (i : Nat) (fromC toC : Nat) : SimSt :=
  let cells1 := setAt st.cells fromC (fun c => { c with contents := c.contents.erase i })
  let cells2 := setAt cells1 toC (fun c => { c with contents := addContent c.contents i })
  { st with cells := cells2, pax := setAt st.pax i (fun p => { p with cell := some toC }) }

/-- JS `a >= b` on column values: false whenever either side is undefined. -/
def colGe (a b : Option Nat) : Bool :=
  match a, b with
  | some x, some y => y ≤ x
  | _, _ => false

/-- JS `a <= b` on column values: false whenever either side is undefined. -/
def colLe (a b : Option Nat) : Bool :=
  match a, b with
  | some x, some y => x ≤ y
  | _, _ => false

/-- `Passenger.simulate(deltaT)` for passenger `i` (the per-tick state
machine).  `luggage` is the call-indexed stream of luggage durations. -/
def paxSimulate (luggage : Nat → Int) (deltaT : Int) (st : SimSt) (i : Nat) : SimSt :=
  let p := paxAt st i
  match p.state with
  | none => st
  | some .seated => st
  | some .searching =>
    let c := cellAt st.cells (p.cell.getD 0)
    let t := cellAt st.cells p.target
    let upHit : Bool := match c.up with
      | some u => ((cellAt st.cells u).row == t.row) && colGe (cellAt st.cells u).col t.col
      | none => false
    let downHit : Bool := match c.down with
      | some d => ((cellAt st.cells d).row == t.row) && colLe (cellAt st.cells d).col t.col
      | none => false
    if upHit then
      { st with
        pax := setAt st.pax i (fun q => { q with state := some .loadingUp, ttt := luggage st.luggageCalls })
        luggageCalls := st.luggageCalls + 1 }
    else if downHit then
      { st with
        pax := setAt st.pax i (fun q => { q with state := some .loadingDown, ttt := luggage st.luggageCalls })
        luggageCalls := st.luggageCalls + 1 }
    else
      match c.right with
      | some r =>
        if (cellAt st.cells r).isEmpty then movePax st i (p.cell.getD 0) r else st
      | none => st  -- console.error('Passenger failed to find seat'); stays put
  | some .loadingUp =>
    let ttt1 := p.ttt - deltaT
    let st1 := { st with pax := setAt st.pax i (fun q => { q with ttt := ttt1 }) }
    if ttt1 ≤ 0 then
      let c := cellAt st.cells (p.cell.getD 0)
      match c.up with
      | some u =>
        let st2 := movePax st1 i (p.cell.getD 0) u
        if u = p.target then
          { st2 with pax := setAt st2.pax i (fun q => { q with state := some .seated }) }
        else st2
      | none => { st1 with crashed := true }  -- JS: move(null) throws
    else st1
  | some .loadingDown =>
    let ttt1 := p.ttt - deltaT
    let st1 := { st with pax := setAt st.pax i (fun q => { q with ttt := ttt1 }) }
    if ttt1 ≤ 0 then
      let c := cellAt st.cells (p.cell.getD 0)
      match c.down with
      | some d =>
        let st2 := movePax st1 i (p.cell.getD 0) d
        if d = p.target then
          { st2 with pax := setAt st2.pax i (fun q => { q with state := some .seated }) }
        else st2
      | none => { st1 with crashed := true }  -- JS: move(null) throws
    else st1

/-- `Aircraft.board(passenger)`: place the passenger at the starting cell in
state `Searching` if that cell is empty, otherwise take the `throw` branch
(recorded in the `boardError` flag). -/
def board (st : SimSt) (i : Nat) : SimSt :=
  if (cellAt st.cells 0).isEmpty then
    { st with
      cells := setAt st.cells 0 (fun c => { c with contents := addContent c.contents i })
      pax := setAt st.pax i (fun p => { p with cell := some (0 : Nat), state := some .searching }) }
  else
    { st with boardError := true }

/-- The admission step at the top of each loop iteration: if the pending
queue is non-empty and the starting cell is empty, pop the queue's end, board
that passenger and append it to the active list.  (If `board` threw, the JS
push to `activePax` would not run.) -/
def admitStep (st : SimSt) : SimSt :=
  if st.pending.length > 0 ∧ (cellAt st.cells 0).isEmpty then
    let i := st.pending.getLast?.getD 0
    let st1 := { st with pending := st.pending.dropLast }
    let st2 := board st1 i
    if st2.boardError then st2 else { st2 with active := st2.active ++ [i] }
  else st

/-- The completion test: no active passenger is outside state `Seated`. -/
def allSeated (st : SimSt) : Bool :=
  (st.active.filter (fun i => (paxAt st i).state ≠ some .seated)).length = 0

/-- Advance every active passenger, in admission order.  A JS exception from
a move through an absent neighbor aborts the rest of the pass, which the
`crashed` guard mirrors. -/
def simAll (luggage : Nat → Int) (deltaT : Int) (st : SimSt) : SimSt :=
  st.active.foldl (fun s i => if s.crashed then s else paxSimulate luggage deltaT s i) st

/-- One full body of the `while` loop, as executed when the loop keeps
running: admission, then either the completion break (state frozen) or a
simulation pass plus the iteration-counter increment. -/
def tickBody (luggage : Nat → Int) (deltaT : Int) (st : SimSt) : SimSt :=
  let st1 := admitStep st
  if st1.boardError then st1
  else if allSeated st1 then st1
  else
    let st2 := simAll luggage deltaT st1
    { st2 with iter := st2.iter + 1 }

/-- How one run ends.  `completed`/`aborted` are the JS status messages;
`stalled` is the spec's name for the implicit outcome of reaching the
iteration ceiling (the JS loop just falls out of the `while`); `boardFailed`
and `crashed` stand for the two uncaught JS exceptions. -/
inductive Outcome where
  | completed
  | aborted
  | stalled
  | boardFailed
  | crashed
deriving DecidableEq, Repr

/-- The simulation loop.  `running i` is the value of `simStatus.run` the
loop observes at the top of the iteration with counter `i` (cancellation is
polled once per tick); `fuel` is `maxIterations - iterCount`, so fuel 0 is
exactly the ceiling `iterCount < maxIterations` failing. -/
def runLoop (luggage : Nat → Int) (deltaT : Int) (running : Nat → Bool) :
    Nat → SimSt → SimSt × Outcome
  | fuel, st =>
    if ¬ running st.iter then (st, .aborted)
    else
      match fuel with
      | 0 => (st, .stalled)
      | fuel + 1 =>
        let st1 := admitStep st
        if st1.boardError then (st1, .boardFailed)
        else if allSeated st1 then (st1, .completed)
        else
          let st2 := simAll luggage deltaT st1
          let st3 := { st2 with iter := st2.iter + 1 }
          if st3.crashed then (st3, .crashed)
          else runLoop luggage deltaT running fuel st3

/-! ## Boarding-order strategies -/

/-- `arrangeBackFront`: the identity transform. -/
def arrangeBackFront {α : Type} (passengers : List α) : List α := passengers

/-- `arrangeFrontBack`: reverse the queue. -/
def arrangeFrontBack {α : Type} (passengers : List α) : List α := passengers.reverse

/-- The swap body of `shuffleArray` (`tmp = a[i]; a[i] = a[j]; a[j] = tmp`). -/
def swapAt {α : Type} (l : List α) (i j : Nat) : List α :=
  match l[i]?, l[j]? with
  | some a, some b => (l.set i b).set j a
  | _, _ => l

/-- The descending loop of `shuffleArray`, from index `i` down to 1.
`rand i` stands for the random draw at index `i`: `Math.floor(Math.random()
* (i + 1))` is an arbitrary value in `[0, i]`, modelled as `rand i % (i+1)`. -/
def shuffleGo {α : Type} (rand : Nat → Nat) : Nat → List α → List α
  | 0, l => l
  | i + 1, l => shuffleGo rand i (swapAt l (i + 1) (rand (i + 1) % (i + 2)))

/-- `shuffleArray`: Fisher–Yates from the last index down. -/
def shuffleArray {α : Type} (rand : Nat → Nat) (l : List α) : List α :=
  shuffleGo rand (l.length - 1) l

/-- `arrangeRandom`: shuffle in place and return the array. -/
def arrangeRandom {α : Type} (rand : Nat → Nat) (passengers : List α) : List α :=
  shuffleArray rand passengers

/-- The `seatMap` of `arrangeSteffen`: a JS object keyed by seat-id string,
modelled as `(row, colCode)` keys with last-write-wins lookup (realised by
prepending and taking the first hit). -/
def buildSeatMap {α : Type} (tkey : α → Nat × Nat) (passengers : List α) :
    List ((Nat × Nat) × α) :=
  passengers.foldl (fun m p => (tkey p, p) :: m) []

/-- Lookup in the seat map. -/
def seatMapFind {α : Type} (m : List ((Nat × Nat) × α)) (k : Nat × Nat) : Option α :=
  (m.find? (fun e => e.1 = k)).map (·.2)

/-- The descending row list `row = n, n-2, …` while `row > 0`. -/
def rowsDesc : Nat → List Nat
  | 0 => []
  | 1 => [1]
  | n + 2 => (n + 2) :: rowsDesc n

/-- One inner `for` loop of `arrangeSteffen` over a row list: push the
right-column passenger, then (when the two columns differ) the left-column
passenger, skipping seats with no assigned passenger.  `acc` is the shared
`sortedPassengers` array. -/
def sweepRows {α : Type} (m : List ((Nat × Nat) × α)) (rcCode lcCode : Nat)
    (emitLeft : Bool) (acc : List α) : List Nat → List α
  | [] => acc
  | row :: rest =>
    let acc1 := match seatMapFind m (row, rcCode) with
      | some p => acc ++ [p]
      | none => acc
    let acc2 := if emitLeft then
        match seatMapFind m (row, lcCode) with
        | some p => acc1 ++ [p]
        | none => acc1
      else acc1
    sweepRows m rcCode lcCode emitLeft acc2 rest

/-- The `while (leftCol >= rightCol)` loop of `arrangeSteffen`: both row
sweeps at the current column pair, then move the cursors inward.  `rc` is a
`Nat` (it only grows), `lc` an `Int` (it can pass below zero). -/
def steffenLoop {α : Type} (m : List ((Nat × Nat) × α)) (rowCount : Nat) :
    Nat → Int → List α → List α
  | rc, lc, acc =>
    if h : (rc : Int) ≤ lc then
      let rcCode := 65 + rc
      let lcCode := 65 + lc.toNat
      let emitLeft := (rc : Int) ≠ lc
      let acc1 := sweepRows m rcCode lcCode emitLeft acc (rowsDesc rowCount)
      let acc2 := sweepRows m rcCode lcCode emitLeft acc1 (rowsDesc (rowCount - 1))
      steffenLoop m rowCount (rc + 1) (lc - 1) acc2
    else acc
  termination_by rc lc _ => (lc + 1 - rc).toNat
  decreasing_by omega

/-- `arrangeSteffen`: build the seat map, run the outside-in column loop and
reverse the built sequence as a whole.  `tkey` extracts the `(row, colCode)`
key of a passenger's target seat (the JS `targetSeat.toString()`). -/
def arrangeSteffen {α : Type} (tkey : α → Nat × Nat) (passengers : List α)
    (rowCount colCount : Nat) : List α :=
  (steffenLoop (buildSeatMap tkey passengers) rowCount 0 ((colCount : Int) - 1) []).reverse

/-! ## The top-level `simulate` function -/

/-- The boarding methods of the radio control. -/
inductive Method where
  | random
  | btf
  | ftb
  | steffen
  | unknown
deriving DecidableEq, Repr

/-- The iteration ceiling of the loop. -/
def maxIterations : Nat := 10000

/-- The `(row, colCode)` key of passenger `i`'s target seat, read off the
grid (the JS `p.targetSeat.toString()`). -/
def paxKey (cells : List Cell) (pax : List Pax) (i : Nat) : Nat × Nat :=
  let t := cellAt cells (((pax[i]?).getD default).target)
  (t.row.getD 0, t.col.getD 0)

/-- Everything `simulate` does before the loop: build the aircraft, create
one passenger per seat (in seat order), apply the chosen boarding method to
the pending queue (an unrecognised method reports and leaves the order
unchanged, i.e. back-to-front). -/
def simInit (layout : List RowSpec) (method : Method) (rand : Nat → Nat) : SimSt :=
  let ac := generateAircraft layout
  let pax := ac.seats.map (fun sid => ({ target := sid } : Pax))
  let pending0 := List.range pax.length
  let pending := match method with
    | .random => arrangeRandom rand pending0
    | .btf => arrangeBackFront pending0
    | .ftb => arrangeFrontBack pending0
    | .steffen => arrangeSteffen (paxKey ac.cells pax) pending0 ac.rowCount ac.colCount
    | .unknown => pending0  -- console.error('Unknown boarding method…; using BTF')
  { cells := ac.cells, pax := pax, pending := pending, active := [] }

/-- The whole of `simulate`: initialise, then run the loop with the full
iteration budget.  `tickLen` is the simulated tick length passed to every
`Passenger.simulate` call. -/
def simulateModel (layout : List RowSpec) (method : Method) (tickLen : Int)
    (luggage : Nat → Int) (running : Nat → Bool) (rand : Nat → Nat) :
    SimSt × Outcome :=
  runLoop luggage tickLen running maxIterations (simInit layout method rand)

/-! ## `Aircraft.findSeat` -/

/-- `[0-9]` character class. -/
def isDigitCh (c : Char) : Bool := 48 ≤ c.toNat && c.toNat ≤ 57

/-- `[A-Z]` character class. -/
def isUpperCh (c : Char) : Bool := 65 ≤ c.toNat && c.toNat ≤ 90

/-- Try the regex `([0-9]+)([A-Z]+)` at the start of `s`: a (greedy, maximal)
non-empty digit run followed by a non-empty capital-letter run.  Shortening
the digit run by backtracking can never help because the shortened run would
end on a digit, which `[A-Z]+` rejects, so the maximal runs are the only
candidates. -/
def reMatchAt (s : List Char) : Option (List Char × List Char) :=
  let digits := s.takeWhile isDigitCh
  if digits = [] then none
  else
    let letters := (s.dropWhile isDigitCh).takeWhile isUpperCh
    if letters = [] then none else some (digits, letters)

/-- `String.match` with the unanchored regex: the match at the leftmost
start position that succeeds. -/
def reFind : List Char → Option (List Char × List Char)
  | [] => none
  | c :: rest =>
    match reMatchAt (c :: rest) with
    | some m => some m
    | none => reFind rest

/-- Numeric value of a digit string (the JS `==` comparison of a digit
string against a number compares their numeric values). -/
def digitsVal (l : List Char) : Nat := l.foldl (fun a c => 10 * a + (c.toNat - 48)) 0

/-- JS `seat.col == targetCol`: the seat's one-character column name equals
the captured letter string. -/
def colStrEq (code : Option Nat) (letters : List Char) : Bool :=
  match code, letters with
  | some k, [c] => c.toNat = k
  | _, _ => false

/-- `seat.row == targetRow && seat.col == targetCol` for the captured
groups: the row numbers agree (JS loose equality of a number against a digit
string compares numeric values) and the one-letter column name equals the
letter group. -/
def seatIdMatches (cells : List Cell) (digits letters : List Char) (n : Nat) : Bool :=
  ((cellAt cells n).row == some (digitsVal digits)) && colStrEq (cellAt cells n).col letters

/-- `Aircraft.findSeat(seatId)`: parse with the regex, then linearly scan the
seat list for the first seat with that row and column; `none` on a parse
failure or a miss. -/
def Aircraft.findSeat (a : Aircraft) (seatId : List Char) : Option Nat :=
  match reFind seatId with
  | none => none
  | some (digits, letters) =>
    a.seats.find? (seatIdMatches a.cells digits letters)

/-! ## Spec-side restatements

The following definitions transcribe the specification's own wording of two
algorithms, to be compared against the source-derived definitions above. -/

/-- Modelled from the spec: the column pairs `(rightCol, leftCol)` the
Steffen loop visits, outside-in while `leftCol >= rightCol`. -/
def steffenColPairs : Nat → Int → List (Nat × Int)
  | rc, lc =>
    if h : (rc : Int) ≤ lc then (rc, lc) :: steffenColPairs (rc + 1) (lc - 1) else []
  termination_by rc lc => (lc + 1 - rc).toNat
  decreasing_by omega

/-- Modelled from the spec: for one column pair, sweep the rows
`rowCount, rowCount-2, …` then `rowCount-1, rowCount-3, …`, emitting the
right-column passenger then—when the two columns differ—the left-column
passenger, skipping seats with no assigned passenger. -/
def steffenSpecSweep {α : Type} (m : List ((Nat × Nat) × α)) (rowCount : Nat)
    (rc : Nat) (lc : Int) : List α :=
  (rowsDesc rowCount ++ rowsDesc (rowCount - 1)).flatMap (fun row =>
    (seatMapFind m (row, 65 + rc)).toList ++
      (if (rc : Int) ≠ lc then (seatMapFind m (row, 65 + lc.toNat)).toList else []))

/-- Modelled from the spec: the fully built Steffen sequence—the column-pair
sweeps concatenated—reversed as a whole. -/
def steffenSpecRule {α : Type} (tkey : α → Nat × Nat) (passengers : List α)
    (rowCount colCount : Nat) : List α :=
  (((steffenColPairs 0 ((colCount : Int) - 1)).flatMap (fun p =>
    steffenSpecSweep (buildSeatMap tkey passengers) rowCount p.1 p.2))).reverse

/-- All seat keys of one column: `(r, 65 + c)` for `r ∈ [1..rowCount]`. -/
def colBlockKeys (rowCount c : Nat) : List (Nat × Nat) :=
  (List.range' 1 rowCount).map (fun r => (r, 65 + c))

/-- The full key grid `[1..rowCount] × [65..65+colCount-1]` that a
well-formed passenger list covers one-to-one (enumerated column by column). -/
def keyGrid (rowCount colCount : Nat) : List (Nat × Nat) :=
  (List.range colCount).flatMap (colBlockKeys rowCount)

/-- The `(row, colCode)` keys one column pair of the Steffen loop visits, in
visit order. -/
def pairKeys (rowCount : Nat) (rc : Nat) (lc : Int) : List (Nat × Nat) :=
  (rowsDesc rowCount ++ rowsDesc (rowCount - 1)).flatMap (fun row =>
    (row, 65 + rc) :: (if (rc : Int) ≠ lc then [(row, 65 + lc.toNat)] else []))

/-- Number of `S`/`+` symbols strictly before position `j` of a pattern
(the spec's seat-letter counter). -/
def countSP (p : List Char) (j : Nat) : Nat :=
  ((p.take j).filter (fun c => c = 'S' || c = '+')).length

/-- Modelled from the spec: the column codes of the seats a pattern creates,
in order—one per `S`, lettered by the count of `S`/`+` before it. -/
def rowSeatColsSpec (p : List Char) : List Nat :=
  (List.range p.length).filterMap (fun j =>
    if p[j]? = some 'S' then some (65 + countSP p j) else none)

/-- Same, with the letter counter started at `si` (needed to state the
loop invariant of the character fold). -/
def rowSeatColsSpecFrom (si : Nat) (p : List Char) : List Nat :=
  (List.range p.length).filterMap (fun j =>
    if p[j]? = some 'S' then some (65 + si + countSP p j) else none)

/-! ## Concrete scenarios -/

/-- Constant-zero luggage-duration supplier. -/
def lug0 : Nat → Int := fun _ => 0

/-- A run that is never cancelled. -/
def alwaysRun : Nat → Bool := fun _ => true

/-- The spec's completion scenario: one `SSASS` row. -/
def c3Layout : List RowSpec := [⟨1, ['S', 'S', 'A', 'S', 'S']⟩]

/-- A one-row `SSA` layout (two seats, aisle at the row's end). -/
def ssaLayout : List RowSpec := [⟨1, ['S', 'S', 'A']⟩]

/-- A layout whose single seat is lettered `B` by a leading `+`. -/
def plusLayout : List RowSpec := [⟨1, ['+', 'S']⟩]

/-- The per-tick trajectory of a run: the state at the `n`-th tick boundary,
obtained by iterating the loop body from the initial state. -/
def simTrace (layout : List RowSpec) (method : Method) (tickLen : Int)
    (luggage : Nat → Int) (rand : Nat → Nat) : Nat → SimSt
  | 0 => simInit layout method rand
  | n + 1 => tickBody luggage tickLen (simTrace layout method tickLen luggage rand n)

/-- A layout pattern drives at most one aisle cell per row. -/
def singleAisle (layout : List RowSpec) : Bool :=
  layout.all (fun rs => (rs.layout.filter (fun c => c = 'A')).length ≤ 1)

/-! ### Tick-by-tick states of the two concrete runs

The following state literals are the successive tick-boundary states of the
`SSASS` back-to-front run (tick length 100, constant luggage duration 0) and
of the same run on the `SSA` layout; each equals `simTrace … n`, proved
below one tick at a time. -/

def c3St0 : SimSt :=
{ cells := [{ x := 0, y := 128, row := none, col := none, up := none, down := none, left := none, right := some 3, contents := [] },
    { x := 64, y := 0, row := some 1, col := some 65, up := none, down := some 2, left := none, right := none, contents := [] },
    { x := 64, y := 64, row := some 1, col := some 66, up := some 1, down := some 3, left := none, right := none, contents := [] },
    { x := 64, y := 128, row := none, col := none, up := some 2, down := some 4, left := some 0, right := none, contents := [] },
    { x := 64, y := 192, row := some 1, col := some 67, up := some 3, down := some 5, left := none, right := none, contents := [] },
    { x := 64, y := 256, row := some 1, col := some 68, up := some 4, down := none, left := none, right := none, contents := [] }],
  pax := [{ target := 1, state := none, ttt := 0, cell := none },
    { target := 2, state := none, ttt := 0, cell := none },
    { target := 4, state := none, ttt := 0, cell := none },
    { target := 5, state := none, ttt := 0, cell := none }],
  pending := [0, 1, 2, 3], active := [], iter := 0, luggageCalls := 0, boardError := false, crashed := false }

def c3St1 : SimSt :=
{ cells := [{ x := 0, y := 128, row := none, col := none, up := none, down := none, left := none, right := some 3, contents := [] },
    { x := 64, y := 0, row := some 1, col := some 65, up := none, down := some 2, left := none, right := none, contents := [] },
    { x := 64, y := 64, row := some 1, col := some 66, up := some 1, down := some 3, left := none, right := none, contents := [] },
    { x := 64, y := 128, row := none, col := none, up := some 2, down := some 4, left := some 0, right := none, contents := [3] },
    { x := 64, y := 192, row := some 1, col := some 67, up := some 3, down := some 5, left := none, right := none, contents := [] },
    { x := 64, y := 256, row := some 1, col := some 68, up := some 4, down := none, left := none, right := none, contents := [] }],
  pax := [{ target := 1, state := none, ttt := 0, cell := none },
    { target := 2, state := none, ttt := 0, cell := none },
    { target := 4, state := none, ttt := 0, cell := none },
    { target := 5, state := some .searching, ttt := 0, cell := some 3 }],
  pending := [0, 1, 2], active := [3], iter := 1, luggageCalls := 0, boardError := false, crashed := false }

def c3St2 : SimSt :=
{ cells := [{ x := 0, y := 128, row := none, col := none, up := none, down := none, left := none, right := some 3, contents := [2] },
    { x := 64, y := 0, row := some 1, col := some 65, up := none, down := some 2, left := none, right := none, contents := [] },
    { x := 64, y := 64, row := some 1, col := some 66, up := some 1, down := some 3, left := none, right := none, contents := [] },
    { x := 64, y := 128, row := none, col := none, up := some 2, down := some 4, left := some 0, right := none, contents := [3] },
    { x := 64, y := 192, row := some 1, col := some 67, up := some 3, down := some 5, left := none, right := none, contents := [] },
    { x := 64, y := 256, row := some 1, col := some 68, up := some 4, down := none, left := none, right := none, contents := [] }],
  pax := [{ target := 1, state := none, ttt := 0, cell := none },
    { target := 2, state := none, ttt := 0, cell := none },
    { target := 4, state := some .searching, ttt := 0, cell := some 0 },
    { target := 5, state := some .loadingDown, ttt := 0, cell := some 3 }],
  pending := [0, 1], active := [3, 2], iter := 2, luggageCalls := 1, boardError := false, crashed := false }

def c3St3 : SimSt :=
{ cells := [{ x := 0, y := 128, row := none, col := none, up := none, down := none, left := none, right := some 3, contents := [] },
    { x := 64, y := 0, row := some 1, col := some 65, up := none, down := some 2, left := none, right := none, contents := [] },
    { x := 64, y := 64, row := some 1, col := some 66, up := some 1, down := some 3, left := none, right := none, contents := [] },
    { x := 64, y := 128, row := none, col := none, up := some 2, down := some 4, left := some 0, right := none, contents := [2] },
    { x := 64, y := 192, row := some 1, col := some 67, up := some 3, down := some 5, left := none, right := none, contents := [3] },
    { x := 64, y := 256, row := some 1, col := some 68, up := some 4, down := none, left := none, right := none, contents := [] }],
  pax := [{ target := 1, state := none, ttt := 0, cell := none },
    { target := 2, state := none, ttt := 0, cell := none },
    { target := 4, state := some .searching, ttt := 0, cell := some 3 },
    { target := 5, state := some .loadingDown, ttt := -100, cell := some 4 }],
  pending := [0, 1], active := [3, 2], iter := 3, luggageCalls := 1, boardError := false, crashed := false }

def c3St4 : SimSt :=
{ cells := [{ x := 0, y := 128, row := none, col := none, up := none, down := none, left := none, right := some 3, contents := [1] },
    { x := 64, y := 0, row := some 1, col := some 65, up := none, down := some 2, left := none, right := none, contents := [] },
    { x := 64, y := 64, row := some 1, col := some 66, up := some 1, down := some 3, left := none, right := none, contents := [] },
    { x := 64, y := 128, row := none, col := none, up := some 2, down := some 4, left := some 0, right := none, contents := [2] },
    { x := 64, y := 192, row := some 1, col := some 67, up := some 3, down := some 5, left := none, right := none, contents := [] },
    { x := 64, y := 256, row := some 1, col := some 68, up := some 4, down := none, left := none, right := none, contents := [3] }],
  pax := [{ target := 1, state := none, ttt := 0, cell := none },
    { target := 2, state := some .searching, ttt := 0, cell := some 0 },
    { target := 4, state := some .loadingDown, ttt := 0, cell := some 3 },
    { target := 5, state := some .seated, ttt := -200, cell := some 5 }],
  pending := [0], active := [3, 2, 1], iter := 4, luggageCalls := 2, boardError := false, crashed := false }

def c3St5 : SimSt :=
{ cells := [{ x := 0, y := 128, row := none, col := none, up := none, down := none, left := none, right := some 3, contents := [] },
    { x := 64, y := 0, row := some 1, col := some 65, up := none, down := some 2, left := none, right := none, contents := [] },
    { x := 64, y := 64, row := some 1, col := some 66, up := some 1, down := some 3, left := none, right := none, contents := [] },
    { x := 64, y := 128, row := none, col := none, up := some 2, down := some 4, left := some 0, right := none, contents := [1] },
    { x := 64, y := 192, row := some 1, col := some 67, up := some 3, down := some 5, left := none, right := none, contents := [2] },
    { x := 64, y := 256, row := some 1, col := some 68, up := some 4, down := none, left := none, right := none, contents := [3] }],
  pax := [{ target := 1, state := none, ttt := 0, cell := none },
    { target := 2, state := some .searching, ttt := 0, cell := some 3 },
    { target := 4, state := some .seated, ttt := -100, cell := some 4 },
    { target := 5, state := some .seated, ttt := -200, cell := some 5 }],
  pending := [0], active := [3, 2, 1], iter := 5, luggageCalls := 2, boardError := false, crashed := false }

def c3St6 : SimSt :=
{ cells := [{ x := 0, y := 128, row := none, col := none, up := none, down := none, left := none, right := some 3, contents := [0] },
    { x := 64, y := 0, row := some 1, col := some 65, up := none, down := some 2, left := none, right := none, contents := [] },
    { x := 64, y := 64, row := some 1, col := some 66, up := some 1, down := some 3, left := none, right := none, contents := [] },
    { x := 64, y := 128, row := none, col := none, up := some 2, down := some 4, left := some 0, right := none, contents := [1] },
    { x := 64, y := 192, row := some 1, col := some 67, up := some 3, down := some 5, left := none, right := none, contents := [2] },
    { x := 64, y := 256, row := some 1, col := some 68, up := some 4, down := none, left := none, right := none, contents := [3] }],
  pax := [{ target := 1, state := some .searching, ttt := 0, cell := some 0 },
    { target := 2, state := some .loadingUp, ttt := 0, cell := some 3 },
    { target := 4, state := some .seated, ttt := -100, cell := some 4 },
    { target := 5, state := some .seated, ttt := -200, cell := some 5 }],
  pending := [], active := [3, 2, 1, 0], iter := 6, luggageCalls := 3, boardError := false, crashed := false }

def c3St7 : SimSt :=
{ cells := [{ x := 0, y := 128, row := none, col := none, up := none, down := none, left := none, right := some 3, contents := [] },
    { x := 64, y := 0, row := some 1, col := some 65, up := none, down := some 2, left := none, right := none, contents := [] },
    { x := 64, y := 64, row := some 1, col := some 66, up := some 1, down := some 3, left := none, right := none, contents := [1] },
    { x := 64, y := 128, row := none, col := none, up := some 2, down := some 4, left := some 0, right := none, contents := [0] },
    { x := 64, y := 192, row := some 1, col := some 67, up := some 3, down := some 5, left := none, right := none, contents := [2] },
    { x := 64, y := 256, row := some 1, col := some 68, up := some 4, down := none, left := none, right := none, contents := [3] }],
  pax := [{ target := 1, state := some .searching, ttt := 0, cell := some 3 },
    { target := 2, state := some .seated, ttt := -100, cell := some 2 },
    { target := 4, state := some .seated, ttt := -100, cell := some 4 },
    { target := 5, state := some .seated, ttt := -200, cell := some 5 }],
  pending := [], active := [3, 2, 1, 0], iter := 7, luggageCalls := 3, boardError := false, crashed := false }

def c3St8 : SimSt :=
{ cells := [{ x := 0, y := 128, row := none, col := none, up := none, down := none, left := none, right := some 3, contents := [] },
    { x := 64, y := 0, row := some 1, col := some 65, up := none, down := some 2, left := none, right := none, contents := [] },
    { x := 64, y := 64, row := some 1, col := some 66, up := some 1, down := some 3, left := none, right := none, contents := [1] },
    { x := 64, y := 128, row := none, col := none, up := some 2, down := some 4, left := some 0, right := none, contents := [0] },
    { x := 64, y := 192, row := some 1, col := some 67, up := some 3, down := some 5, left := none, right := none, contents := [2] },
    { x := 64, y := 256, row := some 1, col := some 68, up := some 4, down := none, left := none, right := none, contents := [3] }],
  pax := [{ target := 1, state := some .loadingUp, ttt := 0, cell := some 3 },
    { target := 2, state := some .seated, ttt := -100, cell := some 2 },
    { target := 4, state := some .seated, ttt := -100, cell := some 4 },
    { target := 5, state := some .seated, ttt := -200, cell := some 5 }],
  pending := [], active := [3, 2, 1, 0], iter := 8, luggageCalls := 4, boardError := false, crashed := false }

def c3St9 : SimSt :=
{ cells := [{ x := 0, y := 128, row := none, col := none, up := none, down := none, left := none, right := some 3, contents := [] },
    { x := 64, y := 0, row := some 1, col := some 65, up := none, down := some 2, left := none, right := none, contents := [] },
    { x := 64, y := 64, row := some 1, col := some 66, up := some 1, down := some 3, left := none, right := none, contents := [1, 0] },
    { x := 64, y := 128, row := none, col := none, up := some 2, down := some 4, left := some 0, right := none, contents := [] },
    { x := 64, y := 192, row := some 1, col := some 67, up := some 3, down := some 5, left := none, right := none, contents := [2] },
    { x := 64, y := 256, row := some 1, col := some 68, up := some 4, down := none, left := none, right := none, contents := [3] }],
  pax := [{ target := 1, state := some .loadingUp, ttt := -100, cell := some 2 },
    { target := 2, state := some .seated, ttt := -100, cell := some 2 },
    { target := 4, state := some .seated, ttt := -100, cell := some 4 },
    { target := 5, state := some .seated, ttt := -200, cell := some 5 }],
  pending := [], active := [3, 2, 1, 0], iter := 9, luggageCalls := 4, boardError := false, crashed := false }

def c3St10 : SimSt :=
{ cells := [{ x := 0, y := 128, row := none, col := none, up := none, down := none, left := none, right := some 3, contents := [] },
    { x := 64, y := 0, row := some 1, col := some 65, up := none, down := some 2, left := none, right := none, contents := [0] },
    { x := 64, y := 64, row := some 1, col := some 66, up := some 1, down := some 3, left := none, right := none, contents := [1] },
    { x := 64, y := 128, row := none, col := none, up := some 2, down := some 4, left := some 0, right := none, contents := [] },
    { x := 64, y := 192, row := some 1, col := some 67, up := some 3, down := some 5, left := none, right := none, contents := [2] },
    { x := 64, y := 256, row := some 1, col := some 68, up := some 4, down := none, left := none, right := none, contents := [3] }],
  pax := [{ target := 1, state := some .seated, ttt := -200, cell := some 1 },
    { target := 2, state := some .seated, ttt := -100, cell := some 2 },
    { target := 4, state := some .seated, ttt := -100, cell := some 4 },
    { target := 5, state := some .seated, ttt := -200, cell := some 5 }],
  pending := [], active := [3, 2, 1, 0], iter := 10, luggageCalls := 4, boardError := false, crashed := false }

def ssaSt0 : SimSt :=
{ cells := [{ x := 0, y := 128, row := none, col := none, up := none, down := none, left := none, right := some 3, contents := [] },
    { x := 64, y := 0, row := some 1, col := some 65, up := none, down := some 2, left := none, right := none, contents := [] },
    { x := 64, y := 64, row := some 1, col := some 66, up := some 1, down := some 3, left := none, right := none, contents := [] },
    { x := 64, y := 128, row := none, col := none, up := some 2, down := none, left := some 0, right := none, contents := [] }],
  pax := [{ target := 1, state := none, ttt := 0, cell := none },
    { target := 2, state := none, ttt := 0, cell := none }],
  pending := [0, 1], active := [], iter := 0, luggageCalls := 0, boardError := false, crashed := false }

def ssaSt1 : SimSt :=
{ cells := [{ x := 0, y := 128, row := none, col := none, up := none, down := none, left := none, right := some 3, contents := [] },
    { x := 64, y := 0, row := some 1, col := some 65, up := none, down := some 2, left := none, right := none, contents := [] },
    { x := 64, y := 64, row := some 1, col := some 66, up := some 1, down := some 3, left := none, right := none, contents := [] },
    { x := 64, y := 128, row := none, col := none, up := some 2, down := none, left := some 0, right := none, contents := [1] }],
  pax := [{ target := 1, state := none, ttt := 0, cell := none },
    { target := 2, state := some .searching, ttt := 0, cell := some 3 }],
  pending := [0], active := [1], iter := 1, luggageCalls := 0, boardError := false, crashed := false }

def ssaSt2 : SimSt :=
{ cells := [{ x := 0, y := 128, row := none, col := none, up := none, down := none, left := none, right := some 3, contents := [0] },
    { x := 64, y := 0, row := some 1, col := some 65, up := none, down := some 2, left := none, right := none, contents := [] },
    { x := 64, y := 64, row := some 1, col := some 66, up := some 1, down := some 3, left := none, right := none, contents := [] },
    { x := 64, y := 128, row := none, col := none, up := some 2, down := none, left := some 0, right := none, contents := [1] }],
  pax := [{ target := 1, state := some .searching, ttt := 0, cell := some 0 },
    { target := 2, state := some .loadingUp, ttt := 0, cell := some 3 }],
  pending := [], active := [1, 0], iter := 2, luggageCalls := 1, boardError := false, crashed := false }

def ssaSt3 : SimSt :=
{ cells := [{ x := 0, y := 128, row := none, col := none, up := none, down := none, left := none, right := some 3, contents := [] },
    { x := 64, y := 0, row := some 1, col := some 65, up := none, down := some 2, left := none, right := none, contents := [] },
    { x := 64, y := 64, row := some 1, col := some 66, up := some 1, down := some 3, left := none, right := none, contents := [1] },
    { x := 64, y := 128, row := none, col := none, up := some 2, down := none, left := some 0, right := none, contents := [0] }],
  pax := [{ target := 1, state := some .searching, ttt := 0, cell := some 3 },
    { target := 2, state := some .seated, ttt := -100, cell := some 2 }],
  pending := [], active := [1, 0], iter := 3, luggageCalls := 1, boardError := false, crashed := false }

def ssaSt4 : SimSt :=
{ cells := [{ x := 0, y := 128, row := none, col := none, up := none, down := none, left := none, right := some 3, contents := [] },
    { x := 64, y := 0, row := some 1, col := some 65, up := none, down := some 2, left := none, right := none, contents := [] },
    { x := 64, y := 64, row := some 1, col := some 66, up := some 1, down := some 3, left := none, right := none, contents := [1] },
    { x := 64, y := 128, row := none, col := none, up := some 2, down := none, left := some 0, right := none, contents := [0] }],
  pax := [{ target := 1, state := some .loadingUp, ttt := 0, cell := some 3 },
    { target := 2, state := some .seated, ttt := -100, cell := some 2 }],
  pending := [], active := [1, 0], iter := 4, luggageCalls := 2, boardError := false, crashed := false }

def ssaSt5 : SimSt :=
{ cells := [{ x := 0, y := 128, row := none, col := none, up := none, down := none, left := none, right := some 3, contents := [] },
    { x := 64, y := 0, row := some 1, col := some 65, up := none, down := some 2, left := none, right := none, contents := [] },
    { x := 64, y := 64, row := some 1, col := some 66, up := some 1, down := some 3, left := none, right := none, contents := [1, 0] },
    { x := 64, y := 128, row := none, col := none, up := some 2, down := none, left := some 0, right := none, contents := [] }],
  pax := [{ target := 1, state := some .loadingUp, ttt := -100, cell := some 2 },
    { target := 2, state := some .seated, ttt := -100, cell := some 2 }],
  pending := [], active := [1, 0], iter := 5, luggageCalls := 2, boardError := false, crashed := false }

/-- The two-strip layout `ASASS` / `SSASS` used to exhibit an aisle-cell
collision (its first strip has two aisle cells). -/
def twoStripLayout : List RowSpec := [⟨1, ['A','S','A','S','S']⟩, ⟨1, ['S','S','A','S','S']⟩]

/-- A luggage-duration stream whose third draw is long and the rest zero. -/
def aisleLug : Nat → Int := fun n => if n = 2 then 2000 else 0

def aSt0 : SimSt :=
{ cells := [{ x := 0, y := 0, row := none, col := none, up := none, down := none, left := none, right := some 1, contents := [] },
    { x := 64, y := 128, row := none, col := none, up := none, down := some 2, left := some 0, right := some 3, contents := [] },
    { x := 64, y := 64, row := some 1, col := some 65, up := some 1, down := some 3, left := none, right := none, contents := [] },
    { x := 64, y := 128, row := none, col := none, up := some 2, down := some 4, left := some 1, right := some 8, contents := [] },
    { x := 64, y := 192, row := some 1, col := some 66, up := some 3, down := some 5, left := none, right := none, contents := [] },
    { x := 64, y := 256, row := some 1, col := some 67, up := some 4, down := none, left := none, right := none, contents := [] },
    { x := 128, y := 0, row := some 2, col := some 65, up := none, down := some 7, left := none, right := none, contents := [] },
    { x := 128, y := 64, row := some 2, col := some 66, up := some 6, down := some 8, left := none, right := none, contents := [] },
    { x := 128, y := 128, row := none, col := none, up := some 7, down := some 9, left := some 3, right := none, contents := [] },
    { x := 128, y := 192, row := some 2, col := some 67, up := some 8, down := some 10, left := none, right := none, contents := [] },
    { x := 128, y := 256, row := some 2, col := some 68, up := some 9, down := none, left := none, right := none, contents := [] }],
  pax := [{ target := 2, state := none, ttt := 0, cell := none },
    { target := 4, state := none, ttt := 0, cell := none },
    { target := 5, state := none, ttt := 0, cell := none },
    { target := 6, state := none, ttt := 0, cell := none },
    { target := 7, state := none, ttt := 0, cell := none },
    { target := 9, state := none, ttt := 0, cell := none },
    { target := 10, state := none, ttt := 0, cell := none }],
  pending := [0, 1, 2, 3, 4, 5, 6], active := [], iter := 0, luggageCalls := 0, boardError := false, crashed := false }

def aSt1 : SimSt :=
{ cells := [{ x := 0, y := 0, row := none, col := none, up := none, down := none, left := none, right := some 1, contents := [] },
    { x := 64, y := 128, row := none, col := none, up := none, down := some 2, left := some 0, right := some 3, contents := [6] },
    { x := 64, y := 64, row := some 1, col := some 65, up := some 1, down := some 3, left := none, right := none, contents := [] },
    { x := 64, y := 128, row := none, col := none, up := some 2, down := some 4, left := some 1, right := some 8, contents := [] },
    { x := 64, y := 192, row := some 1, col := some 66, up := some 3, down := some 5, left := none, right := none, contents := [] },
    { x := 64, y := 256, row := some 1, col := some 67, up := some 4, down := none, left := none, right := none, contents := [] },
    { x := 128, y := 0, row := some 2, col := some 65, up := none, down := some 7, left := none, right := none, contents := [] },
    { x := 128, y := 64, row := some 2, col := some 66, up := some 6, down := some 8, left := none, right := none, contents := [] },
    { x := 128, y := 128, row := none, col := none, up := some 7, down := some 9, left := some 3, right := none, contents := [] },
    { x := 128, y := 192, row := some 2, col := some 67, up := some 8, down := some 10, left := none, right := none, contents := [] },
    { x := 128, y := 256, row := some 2, col := some 68, up := some 9, down := none, left := none, right := none, contents := [] }],
  pax := [{ target := 2, state := none, ttt := 0, cell := none },
    { target := 4, state := none, ttt := 0, cell := none },
    { target := 5, state := none, ttt := 0, cell := none },
    { target := 6, state := none, ttt := 0, cell := none },
    { target := 7, state := none, ttt := 0, cell := none },
    { target := 9, state := none, ttt := 0, cell := none },
    { target := 10, state := some .searching, ttt := 0, cell := some 1 }],
  pending := [0, 1, 2, 3, 4, 5], active := [6], iter := 1, luggageCalls := 0, boardError := false, crashed := false }

def aSt2 : SimSt :=
{ cells := [{ x := 0, y := 0, row := none, col := none, up := none, down := none, left := none, right := some 1, contents := [] },
    { x := 64, y := 128, row := none, col := none, up := none, down := some 2, left := some 0, right := some 3, contents := [5] },
    { x := 64, y := 64, row := some 1, col := some 65, up := some 1, down := some 3, left := none, right := none, contents := [] },
    { x := 64, y := 128, row := none, col := none, up := some 2, down := some 4, left := some 1, right := some 8, contents := [6] },
    { x := 64, y := 192, row := some 1, col := some 66, up := some 3, down := some 5, left := none, right := none, contents := [] },
    { x := 64, y := 256, row := some 1, col := some 67, up := some 4, down := none, left := none, right := none, contents := [] },
    { x := 128, y := 0, row := some 2, col := some 65, up := none, down := some 7, left := none, right := none, contents := [] },
    { x := 128, y := 64, row := some 2, col := some 66, up := some 6, down := some 8, left := none, right := none, contents := [] },
    { x := 128, y := 128, row := none, col := none, up := some 7, down := some 9, left := some 3, right := none, contents := [] },
    { x := 128, y := 192, row := some 2, col := some 67, up := some 8, down := some 10, left := none, right := none, contents := [] },
    { x := 128, y := 256, row := some 2, col := some 68, up := some 9, down := none, left := none, right := none, contents := [] }],
  pax := [{ target := 2, state := none, ttt := 0, cell := none },
    { target := 4, state := none, ttt := 0, cell := none },
    { target := 5, state := none, ttt := 0, cell := none },
    { target := 6, state := none, ttt := 0, cell := none },
    { target := 7, state := none, ttt := 0, cell := none },
    { target := 9, state := some .searching, ttt := 0, cell := some 1 },
    { target := 10, state := some .searching, ttt := 0, cell := some 3 }],
  pending := [0, 1, 2, 3, 4], active := [6, 5], iter := 2, luggageCalls := 0, boardError := false, crashed := false }

def aSt3 : SimSt :=
{ cells := [{ x := 0, y := 0, row := none, col := none, up := none, down := none, left := none, right := some 1, contents := [] },
    { x := 64, y := 128, row := none, col := none, up := none, down := some 2, left := some 0, right := some 3, contents := [4] },
    { x := 64, y := 64, row := some 1, col := some 65, up := some 1, down := some 3, left := none, right := none, contents := [] },
    { x := 64, y := 128, row := none, col := none, up := some 2, down := some 4, left := some 1, right := some 8, contents := [5] },
    { x := 64, y := 192, row := some 1, col := some 66, up := some 3, down := some 5, left := none, right := none, contents := [] },
    { x := 64, y := 256, row := some 1, col := some 67, up := some 4, down := none, left := none, right := none, contents := [] },
    { x := 128, y := 0, row := some 2, col := some 65, up := none, down := some 7, left := none, right := none, contents := [] },
    { x := 128, y := 64, row := some 2, col := some 66, up := some 6, down := some 8, left := none, right := none, contents := [] },
    { x := 128, y := 128, row := none, col := none, up := some 7, down := some 9, left := some 3, right := none, contents := [6] },
    { x := 128, y := 192, row := some 2, col := some 67, up := some 8, down := some 10, left := none, right := none, contents := [] },
    { x := 128, y := 256, row := some 2, col := some 68, up := some 9, down := none, left := none, right := none, contents := [] }],
  pax := [{ target := 2, state := none, ttt := 0, cell := none },
    { target := 4, state := none, ttt := 0, cell := none },
    { target := 5, state := none, ttt := 0, cell := none },
    { target := 6, state := none, ttt := 0, cell := none },
    { target := 7, state := some .searching, ttt := 0, cell := some 1 },
    { target := 9, state := some .searching, ttt := 0, cell := some 3 },
    { target := 10, state := some .searching, ttt := 0, cell := some 8 }],
  pending := [0, 1, 2, 3], active := [6, 5, 4], iter := 3, luggageCalls := 0, boardError := false, crashed := false }

def aSt4 : SimSt :=
{ cells := [{ x := 0, y := 0, row := none, col := none, up := none, down := none, left := none, right := some 1, contents := [3] },
    { x := 64, y := 128, row := none, col := none, up := none, down := some 2, left := some 0, right := some 3, contents := [4] },
    { x := 64, y := 64, row := some 1, col := some 65, up := some 1, down := some 3, left := none, right := none, contents := [] },
    { x := 64, y := 128, row := none, col := none, up := some 2, down := some 4, left := some 1, right := some 8, contents := [5] },
    { x := 64, y := 192, row := some 1, col := some 66, up := some 3, down := some 5, left := none, right := none, contents := [] },
    { x := 64, y := 256, row := some 1, col := some 67, up := some 4, down := none, left := none, right := none, contents := [] },
    { x := 128, y := 0, row := some 2, col := some 65, up := none, down := some 7, left := none, right := none, contents := [] },
    { x := 128, y := 64, row := some 2, col := some 66, up := some 6, down := some 8, left := none, right := none, contents := [] },
    { x := 128, y := 128, row := none, col := none, up := some 7, down := some 9, left := some 3, right := none, contents := [6] },
    { x := 128, y := 192, row := some 2, col := some 67, up := some 8, down := some 10, left := none, right := none, contents := [] },
    { x := 128, y := 256, row := some 2, col := some 68, up := some 9, down := none, left := none, right := none, contents := [] }],
  pax := [{ target := 2, state := none, ttt := 0, cell := none },
    { target := 4, state := none, ttt := 0, cell := none },
    { target := 5, state := none, ttt := 0, cell := none },
    { target := 6, state := some .searching, ttt := 0, cell := some 0 },
    { target := 7, state := some .searching, ttt := 0, cell := some 1 },
    { target := 9, state := some .searching, ttt := 0, cell := some 3 },
    { target := 10, state := some .loadingDown, ttt := 0, cell := some 8 }],
  pending := [0, 1, 2], active := [6, 5, 4, 3], iter := 4, luggageCalls := 1, boardError := false, crashed := false }

def aSt5 : SimSt :=
{ cells := [{ x := 0, y := 0, row := none, col := none, up := none, down := none, left := none, right := some 1, contents := [] },
    { x := 64, y := 128, row := none, col := none, up := none, down := some 2, left := some 0, right := some 3, contents := [3] },
    { x := 64, y := 64, row := some 1, col := some 65, up := some 1, down := some 3, left := none, right := none, contents := [] },
    { x := 64, y := 128, row := none, col := none, up := some 2, down := some 4, left := some 1, right := some 8, contents := [4] },
    { x := 64, y := 192, row := some 1, col := some 66, up := some 3, down := some 5, left := none, right := none, contents := [] },
    { x := 64, y := 256, row := some 1, col := some 67, up := some 4, down := none, left := none, right := none, contents := [] },
    { x := 128, y := 0, row := some 2, col := some 65, up := none, down := some 7, left := none, right := none, contents := [] },
    { x := 128, y := 64, row := some 2, col := some 66, up := some 6, down := some 8, left := none, right := none, contents := [] },
    { x := 128, y := 128, row := none, col := none, up := some 7, down := some 9, left := some 3, right := none, contents := [5] },
    { x := 128, y := 192, row := some 2, col := some 67, up := some 8, down := some 10, left := none, right := none, contents := [6] },
    { x := 128, y := 256, row := some 2, col := some 68, up := some 9, down := none, left := none, right := none, contents := [] }],
  pax := [{ target := 2, state := none, ttt := 0, cell := none },
    { target := 4, state := none, ttt := 0, cell := none },
    { target := 5, state := none, ttt := 0, cell := none },
    { target := 6, state := some .searching, ttt := 0, cell := some 1 },
    { target := 7, state := some .searching, ttt := 0, cell := some 3 },
    { target := 9, state := some .searching, ttt := 0, cell := some 8 },
    { target := 10, state := some .loadingDown, ttt := -100, cell := some 9 }],
  pending := [0, 1, 2], active := [6, 5, 4, 3], iter := 5, luggageCalls := 1, boardError := false, crashed := false }

def aSt6 : SimSt :=
{ cells := [{ x := 0, y := 0, row := none, col := none, up := none, down := none, left := none, right := some 1, contents := [2] },
    { x := 64, y := 128, row := none, col := none, up := none, down := some 2, left := some 0, right := some 3, contents := [3] },
    { x := 64, y := 64, row := some 1, col := some 65, up := some 1, down := some 3, left := none, right := none, contents := [] },
    { x := 64, y := 128, row := none, col := none, up := some 2, down := some 4, left := some 1, right := some 8, contents := [4] },
    { x := 64, y := 192, row := some 1, col := some 66, up := some 3, down := some 5, left := none, right := none, contents := [] },
    { x := 64, y := 256, row := some 1, col := some 67, up := some 4, down := none, left := none, right := none, contents := [] },
    { x := 128, y := 0, row := some 2, col := some 65, up := none, down := some 7, left := none, right := none, contents := [] },
    { x := 128, y := 64, row := some 2, col := some 66, up := some 6, down := some 8, left := none, right := none, contents := [] },
    { x := 128, y := 128, row := none, col := none, up := some 7, down := some 9, left := some 3, right := none, contents := [5] },
    { x := 128, y := 192, row := some 2, col := some 67, up := some 8, down := some 10, left := none, right := none, contents := [] },
    { x := 128, y := 256, row := some 2, col := some 68, up := some 9, down := none, left := none, right := none, contents := [6] }],
  pax := [{ target := 2, state := none, ttt := 0, cell := none },
    { target := 4, state := none, ttt := 0, cell := none },
    { target := 5, state := some .searching, ttt := 0, cell := some 0 },
    { target := 6, state := some .searching, ttt := 0, cell := some 1 },
    { target := 7, state := some .searching, ttt := 0, cell := some 3 },
    { target := 9, state := some .loadingDown, ttt := 0, cell := some 8 },
    { target := 10, state := some .seated, ttt := -200, cell := some 10 }],
  pending := [0, 1], active := [6, 5, 4, 3, 2], iter := 6, luggageCalls := 2, boardError := false, crashed := false }

def aSt7 : SimSt :=
{ cells := [{ x := 0, y := 0, row := none, col := none, up := none, down := none, left := none, right := some 1, contents := [] },
    { x := 64, y := 128, row := none, col := none, up := none, down := some 2, left := some 0, right := some 3, contents := [2] },
    { x := 64, y := 64, row := some 1, col := some 65, up := some 1, down := some 3, left := none, right := none, contents := [] },
    { x := 64, y := 128, row := none, col := none, up := some 2, down := some 4, left := some 1, right := some 8, contents := [3] },
    { x := 64, y := 192, row := some 1, col := some 66, up := some 3, down := some 5, left := none, right := none, contents := [] },
    { x := 64, y := 256, row := some 1, col := some 67, up := some 4, down := none, left := none, right := none, contents := [] },
    { x := 128, y := 0, row := some 2, col := some 65, up := none, down := some 7, left := none, right := none, contents := [] },
    { x := 128, y := 64, row := some 2, col := some 66, up := some 6, down := some 8, left := none, right := none, contents := [] },
    { x := 128, y := 128, row := none, col := none, up := some 7, down := some 9, left := some 3, right := none, contents := [4] },
    { x := 128, y := 192, row := some 2, col := some 67, up := some 8, down := some 10, left := none, right := none, contents := [5] },
    { x := 128, y := 256, row := some 2, col := some 68, up := some 9, down := none, left := none, right := none, contents := [6] }],
  pax := [{ target := 2, state := none, ttt := 0, cell := none },
    { target := 4, state := none, ttt := 0, cell := none },
    { target := 5, state := some .searching, ttt := 0, cell := some 1 },
    { target := 6, state := some .searching, ttt := 0, cell := some 3 },
    { target := 7, state := some .searching, ttt := 0, cell := some 8 },
    { target := 9, state := some .seated, ttt := -100, cell := some 9 },
    { target := 10, state := some .seated, ttt := -200, cell := some 10 }],
  pending := [0, 1], active := [6, 5, 4, 3, 2], iter := 7, luggageCalls := 2, boardError := false, crashed := false }

def aSt8 : SimSt :=
{ cells := [{ x := 0, y := 0, row := none, col := none, up := none, down := none, left := none, right := some 1, contents := [1] },
    { x := 64, y := 128, row := none, col := none, up := none, down := some 2, left := some 0, right := some 3, contents := [2] },
    { x := 64, y := 64, row := some 1, col := some 65, up := some 1, down := some 3, left := none, right := none, contents := [] },
    { x := 64, y := 128, row := none, col := none, up := some 2, down := some 4, left := some 1, right := some 8, contents := [3] },
    { x := 64, y := 192, row := some 1, col := some 66, up := some 3, down := some 5, left := none, right := none, contents := [] },
    { x := 64, y := 256, row := some 1, col := some 67, up := some 4, down := none, left := none, right := none, contents := [] },
    { x := 128, y := 0, row := some 2, col := some 65, up := none, down := some 7, left := none, right := none, contents := [] },
    { x := 128, y := 64, row := some 2, col := some 66, up := some 6, down := some 8, left := none, right := none, contents := [] },
    { x := 128, y := 128, row := none, col := none, up := some 7, down := some 9, left := some 3, right := none, contents := [4] },
    { x := 128, y := 192, row := some 2, col := some 67, up := some 8, down := some 10, left := none, right := none, contents := [5] },
    { x := 128, y := 256, row := some 2, col := some 68, up := some 9, down := none, left := none, right := none, contents := [6] }],
  pax := [{ target := 2, state := none, ttt := 0, cell := none },
    { target := 4, state := some .searching, ttt := 0, cell := some 0 },
    { target := 5, state := some .loadingDown, ttt := 0, cell := some 1 },
    { target := 6, state := some .searching, ttt := 0, cell := some 3 },
    { target := 7, state := some .loadingUp, ttt := 2000, cell := some 8 },
    { target := 9, state := some .seated, ttt := -100, cell := some 9 },
    { target := 10, state := some .seated, ttt := -200, cell := some 10 }],
  pending := [0], active := [6, 5, 4, 3, 2, 1], iter := 8, luggageCalls := 4, boardError := false, crashed := false }

def aSt9 : SimSt :=
{ cells := [{ x := 0, y := 0, row := none, col := none, up := none, down := none, left := none, right := some 1, contents := [] },
    { x := 64, y := 128, row := none, col := none, up := none, down := some 2, left := some 0, right := some 3, contents := [1] },
    { x := 64, y := 64, row := some 1, col := some 65, up := some 1, down := some 3, left := none, right := none, contents := [2] },
    { x := 64, y := 128, row := none, col := none, up := some 2, down := some 4, left := some 1, right := some 8, contents := [3] },
    { x := 64, y := 192, row := some 1, col := some 66, up := some 3, down := some 5, left := none, right := none, contents := [] },
    { x := 64, y := 256, row := some 1, col := some 67, up := some 4, down := none, left := none, right := none, contents := [] },
    { x := 128, y := 0, row := some 2, col := some 65, up := none, down := some 7, left := none, right := none, contents := [] },
    { x := 128, y := 64, row := some 2, col := some 66, up := some 6, down := some 8, left := none, right := none, contents := [] },
    { x := 128, y := 128, row := none, col := none, up := some 7, down := some 9, left := some 3, right := none, contents := [4] },
    { x := 128, y := 192, row := some 2, col := some 67, up := some 8, down := some 10, left := none, right := none, contents := [5] },
    { x := 128, y := 256, row := some 2, col := some 68, up := some 9, down := none, left := none, right := none, contents := [6] }],
  pax := [{ target := 2, state := none, ttt := 0, cell := none },
    { target := 4, state := some .searching, ttt := 0, cell := some 1 },
    { target := 5, state := some .loadingDown, ttt := -100, cell := some 2 },
    { target := 6, state := some .searching, ttt := 0, cell := some 3 },
    { target := 7, state := some .loadingUp, ttt := 1900, cell := some 8 },
    { target := 9, state := some .seated, ttt := -100, cell := some 9 },
    { target := 10, state := some .seated, ttt := -200, cell := some 10 }],
  pending := [0], active := [6, 5, 4, 3, 2, 1], iter := 9, luggageCalls := 4, boardError := false, crashed := false }

def aSt10 : SimSt :=
{ cells := [{ x := 0, y := 0, row := none, col := none, up := none, down := none, left := none, right := some 1, contents := [0] },
    { x := 64, y := 128, row := none, col := none, up := none, down := some 2, left := some 0, right := some 3, contents := [1] },
    { x := 64, y := 64, row := some 1, col := some 65, up := some 1, down := some 3, left := none, right := none, contents := [] },
    { x := 64, y := 128, row := none, col := none, up := some 2, down := some 4, left := some 1, right := some 8, contents := [3, 2] },
    { x := 64, y := 192, row := some 1, col := some 66, up := some 3, down := some 5, left := none, right := none, contents := [] },
    { x := 64, y := 256, row := some 1, col := some 67, up := some 4, down := none, left := none, right := none, contents := [] },
    { x := 128, y := 0, row := some 2, col := some 65, up := none, down := some 7, left := none, right := none, contents := [] },
    { x := 128, y := 64, row := some 2, col := some 66, up := some 6, down := some 8, left := none, right := none, contents := [] },
    { x := 128, y := 128, row := none, col := none, up := some 7, down := some 9, left := some 3, right := none, contents := [4] },
    { x := 128, y := 192, row := some 2, col := some 67, up := some 8, down := some 10, left := none, right := none, contents := [5] },
    { x := 128, y := 256, row := some 2, col := some 68, up := some 9, down := none, left := none, right := none, contents := [6] }],
  pax := [{ target := 2, state := some .searching, ttt := 0, cell := some 0 },
    { target := 4, state := some .loadingDown, ttt := 0, cell := some 1 },
    { target := 5, state := some .loadingDown, ttt := -200, cell := some 3 },
    { target := 6, state := some .searching, ttt := 0, cell := some 3 },
    { target := 7, state := some .loadingUp, ttt := 1800, cell := some 8 },
    { target := 9, state := some .seated, ttt := -100, cell := some 9 },
    { target := 10, state := some .seated, ttt := -200, cell := some 10 }],
  pending := [], active := [6, 5, 4, 3, 2, 1, 0], iter := 10, luggageCalls := 5, boardError := false, crashed := false }

/-! ## Structural predicates over a compiled grid -/

/-- Follow the `up` pointer. -/
def nextUp (cells : List Cell) (c : Nat) : Option Nat := (cellAt cells c).up

/-- Follow the `down` pointer. -/
def nextDown (cells : List Cell) (c : Nat) : Option Nat := (cellAt cells c).down

/-- `Reach next c t`: from `c`, following `next` one or more steps arrives at
`t` with every intermediate pointer present. -/
inductive Reach (next : Nat → Option Nat) : Nat → Nat → Prop where
  | single {c t : Nat} : next c = some t → Reach next c t
  | step {c u t : Nat} : next c = some u → Reach next u t → Reach next c t

/-- Neighbor links are pairwise symmetric. -/
def SymLinks (cells : List Cell) : Prop := ∀ i j : Nat,
  ((cellAt cells i).right = some j → (cellAt cells j).left = some i) ∧
  ((cellAt cells i).left = some j → (cellAt cells j).right = some i) ∧
  ((cellAt cells i).down = some j → (cellAt cells j).up = some i) ∧
  ((cellAt cells i).up = some j → (cellAt cells j).down = some i)

/-- Every link targets a cell of the grid. -/
def LinksBounded (cells : List Cell) : Prop := ∀ i j : Nat,
  ((cellAt cells i).right = some j ∨ (cellAt cells i).left = some j ∨
   (cellAt cells i).down = some j ∨ (cellAt cells i).up = some j) → j < cells.length

/-- No `right`/`down`/`up` link targets the starting cell (id 0), so no move
of the simulation ever enters it. -/
def NoLinksToEntry (cells : List Cell) : Prop := ∀ i : Nat,
  (cellAt cells i).right ≠ some 0 ∧ (cellAt cells i).down ≠ some 0 ∧
  (cellAt cells i).up ≠ some 0

/-- Links point forward (`down`, `right`) or backward (`up`, `left`) in
creation order. -/
def LinkOrder (cells : List Cell) : Prop := ∀ i j : Nat,
  ((cellAt cells i).down = some j → i < j) ∧ ((cellAt cells i).up = some j → j < i) ∧
  ((cellAt cells i).right = some j → i < j) ∧ ((cellAt cells i).left = some j → j < i)

/-- The state-machine trigger is sound on the `up` side: whenever a cell's
`up` neighbor is a seat of row `r` with column code at least that of a seat
`t` of the same row, `t` is reachable by repeated `up` moves. -/
def UpEntry (cells : List Cell) : Prop := ∀ c u t r cu ct : Nat,
  (cellAt cells c).up = some u → (cellAt cells u).row = some r →
  (cellAt cells t).row = some r → (cellAt cells u).col = some cu →
  (cellAt cells t).col = some ct → ct ≤ cu →
  Reach (nextUp cells) c t

/-- The `down`-side counterpart of `UpEntry`. -/
def DownEntry (cells : List Cell) : Prop := ∀ c d t r cd ct : Nat,
  (cellAt cells c).down = some d → (cellAt cells d).row = some r →
  (cellAt cells t).row = some r → (cellAt cells d).col = some cd →
  (cellAt cells t).col = some ct → cd ≤ ct →
  Reach (nextDown cells) c t

/-- The inductive invariant of `generateAircraft`'s loops.  `s0` is the id
threshold of the current repetition (exactly the cells with ids `≥ s0`
belong to it), `si` the current seat-letter counter and `pc` the previous
cell created in this repetition; `b.prevAisle` is the live end of the aisle
spine. -/
structure BuildInv (b : BState) (pc : Option Nat) (s0 si : Nat) : Prop where
  s0_pos : 1 ≤ s0
  s0_le : s0 ≤ b.ac.cells.length
  sym : SymLinks b.ac.cells
  bound : LinksBounded b.ac.cells
  order : LinkOrder b.ac.cells
  noEntry : NoLinksToEntry b.ac.cells
  empty : ∀ i, (cellAt b.ac.cells i).contents = []
  seatsOk : ∀ n ∈ b.ac.seats, n < b.ac.cells.length ∧
    (cellAt b.ac.cells n).row.isSome = true ∧ (cellAt b.ac.cells n).col.isSome = true
  rowColIff : ∀ i, (cellAt b.ac.cells i).row.isSome = (cellAt b.ac.cells i).col.isSome
  rowLe : ∀ i r, (cellAt b.ac.cells i).row = some r → r ≤ b.rowIndex
  rowStrip : ∀ i, s0 ≤ i → i < b.ac.cells.length →
    (cellAt b.ac.cells i).row = none ∨ (cellAt b.ac.cells i).row = some b.rowIndex
  rowOld : ∀ i r, i < s0 → (cellAt b.ac.cells i).row = some r → r < b.rowIndex
  colStrip : ∀ i k, s0 ≤ i → (cellAt b.ac.cells i).col = some k → k < 65 + si
  vertStrip : ∀ c d, ((cellAt b.ac.cells c).down = some d ∨ (cellAt b.ac.cells c).up = some d) →
    (s0 ≤ c ↔ s0 ≤ d)
  upEntry : UpEntry b.ac.cells
  downEntry : DownEntry b.ac.cells
  paLt : b.prevAisle < b.ac.cells.length
  paRight : (cellAt b.ac.cells b.prevAisle).right = none
  pcNone : pc = none → b.ac.cells.length = s0
  pcLast : ∀ p, pc = some p → p + 1 = b.ac.cells.length ∧ s0 ≤ p ∧
    (cellAt b.ac.cells p).down = none
  pcUp : ∀ p, pc = some p → ∀ c, s0 ≤ c → c < b.ac.cells.length →
    c = p ∨ Reach (nextUp b.ac.cells) p c
  pcDown : ∀ p, pc = some p → ∀ c, s0 ≤ c → c < b.ac.cells.length →
    c = p ∨ Reach (nextDown b.ac.cells) c p

/-- Two cell stores agree on all structural fields (`up`, `down`, `row`,
`col`); the simulation only ever rewrites `contents`, so its cell store
stays `LinksEq` to the compiled grid. -/
def LinksEq (c1 c2 : List Cell) : Prop := ∀ k,
  (cellAt c1 k).up = (cellAt c2 k).up ∧ (cellAt c1 k).down = (cellAt c2 k).down ∧
  (cellAt c1 k).row = (cellAt c2 k).row ∧ (cellAt c1 k).col = (cellAt c2 k).col

/-- `row` and `col` are assigned together (seats have both, plain cells
neither). -/
def RowColSome (cells : List Cell) : Prop := ∀ i,
  (cellAt cells i).row.isSome = (cellAt cells i).col.isSome

/-- The run-time safety invariant of one simulation state, relative to the
compiled cell store `cells0`: the links are untouched, no crash has
happened, and every passenger in a loading state can reach its target seat
by repeated `up` (resp. `down`) pointers from its current cell — so the
pointer the next expiry dereferences is present. -/
structure SimInv (cells0 : List Cell) (st : SimSt) : Prop where
  links : LinksEq st.cells cells0
  crash : st.crashed = false
  loadUp : ∀ i, (paxAt st i).state = some PState.loadingUp →
    Reach (nextUp cells0) ((paxAt st i).cell.getD 0) (paxAt st i).target
  loadDown : ∀ i, (paxAt st i).state = some PState.loadingDown →
    Reach (nextDown cells0) ((paxAt st i).cell.getD 0) (paxAt st i).target

/-- Two cell stores agree on all `right` pointers. -/
def RightsEq (c1 c2 : List Cell) : Prop := ∀ k,
  (cellAt c1 k).right = (cellAt c2 k).right

/-- The entry-cell occupancy invariant of one simulation state, relative to
the compiled cell store `cells0`: `right` and the vertical links are
untouched and the starting cell holds at most one occupant. -/
structure EntryInv (cells0 : List Cell) (st : SimSt) : Prop where
  links : LinksEq st.cells cells0
  rights : RightsEq st.cells cells0
  entry : (cellAt st.cells 0).contents.length ≤ 1

/-! ## Theorems

### Infrastructure: `setAt` and field-invariance of the step functions -/

theorem setAt_length {α : Type} (l : List α) (n : Nat) (f : α → α) :
    (setAt l n f).length = l.length := by
  induction l generalizing n with
  | nil => rfl
  | cons a rest ih =>
    cases n with
    | zero => rfl
    | succ m => simpa [setAt] using ih m

theorem getElem?_setAt_self {α : Type} (l : List α) (n : Nat) (f : α → α) :
    (setAt l n f)[n]? = (l[n]?).map f := by
  induction l generalizing n with
  | nil => rfl
  | cons a rest ih =>
    cases n with
    | zero => simp [setAt]
    | succ m => simpa [setAt] using ih m

theorem getElem?_setAt_ne {α : Type} (l : List α) (n m : Nat) (f : α → α)
    (h : m ≠ n) : (setAt l n f)[m]? = l[m]? := by
  induction l generalizing n m with
  | nil => rfl
  | cons a rest ih =>
    cases n with
    | zero => cases m with
      | zero => exact absurd rfl h
      | succ k => simp [setAt]
    | succ n' => cases m with
      | zero => simp [setAt]
      | succ k => simpa [setAt] using ih n' k (by omega)

theorem movePax_meta (st : SimSt) (i a b : Nat) :
    (movePax st i a b).pending = st.pending ∧ (movePax st i a b).active = st.active ∧
    (movePax st i a b).iter = st.iter ∧ (movePax st i a b).boardError = st.boardError ∧
    (movePax st i a b).crashed = st.crashed ∧
    (movePax st i a b).luggageCalls = st.luggageCalls := by
  simp [movePax]

theorem paxSimulate_meta (lug : Nat → Int) (d : Int) (st : SimSt) (i : Nat) :
    (paxSimulate lug d st i).pending = st.pending ∧
    (paxSimulate lug d st i).active = st.active ∧
    (paxSimulate lug d st i).iter = st.iter ∧
    (paxSimulate lug d st i).boardError = st.boardError := by
  unfold paxSimulate
  rcases h : (paxAt st i).state with _ | s
  · simp [h]
  · cases s <;> simp only [h] <;> (repeat' split) <;> simp [movePax]

theorem paxSimulate_crashed_mono (lug : Nat → Int) (d : Int) (st : SimSt) (i : Nat)
    (h : st.crashed = true) : (paxSimulate lug d st i).crashed = true := by
  unfold paxSimulate
  rcases hs : (paxAt st i).state with _ | s
  · simpa [hs]
  · cases s <;> simp only [hs] <;> (repeat' split) <;> simp [movePax, h]

theorem foldlSim_meta (lug : Nat → Int) (d : Int) : ∀ (l : List Nat) (st : SimSt),
    (List.foldl (fun s i => if s.crashed = true then s else paxSimulate lug d s i) st l).pending
        = st.pending ∧
    (List.foldl (fun s i => if s.crashed = true then s else paxSimulate lug d s i) st l).active
        = st.active ∧
    (List.foldl (fun s i => if s.crashed = true then s else paxSimulate lug d s i) st l).iter
        = st.iter ∧
    (List.foldl (fun s i => if s.crashed = true then s else paxSimulate lug d s i) st l).boardError
        = st.boardError := by
  intro l
  induction l with
  | nil => intro st; simp
  | cons j rest ih =>
    intro st
    simp only [List.foldl_cons]
    by_cases hc : st.crashed = true
    · simpa [hc] using ih st
    · have h1 := ih (paxSimulate lug d st j)
      have h2 := paxSimulate_meta lug d st j
      rw [if_neg hc]
      exact ⟨h1.1.trans h2.1, h1.2.1.trans h2.2.1, h1.2.2.1.trans h2.2.2.1,
        h1.2.2.2.trans h2.2.2.2⟩

theorem simAll_meta (lug : Nat → Int) (d : Int) (st : SimSt) :
    (simAll lug d st).pending = st.pending ∧ (simAll lug d st).active = st.active ∧
    (simAll lug d st).iter = st.iter ∧ (simAll lug d st).boardError = st.boardError := by
  unfold simAll
  exact foldlSim_meta lug d st.active st

theorem simAll_crashed_mono (lug : Nat → Int) (d : Int) (st : SimSt)
    (h : st.crashed = true) : (simAll lug d st).crashed = true := by
  unfold simAll
  generalize st.active = l
  induction l generalizing st with
  | nil => simpa
  | cons j rest ih =>
    simp only [List.foldl_cons, if_pos h]
    exact ih st h

theorem admitStep_meta (st : SimSt) :
    (admitStep st).iter = st.iter ∧ (admitStep st).crashed = st.crashed ∧
    (admitStep st).boardError = st.boardError := by
  unfold admitStep board
  dsimp only
  by_cases h1 : 0 < st.pending.length ∧ (cellAt st.cells 0).isEmpty = true
  · rw [if_pos h1, if_pos h1.2]
    by_cases h2 : st.boardError = true
    · simp [h2]
    · simp [h2]
  · rw [if_neg h1]
    simp

theorem admitStep_cells_or (st : SimSt) :
    (admitStep st).active = st.active ∨
      ((cellAt st.cells 0).isEmpty = true ∧
        (admitStep st).active = st.active ++ [st.pending.getLast?.getD 0]) := by
  unfold admitStep board
  dsimp only
  by_cases h1 : 0 < st.pending.length ∧ (cellAt st.cells 0).isEmpty = true
  · rw [if_pos h1, if_pos h1.2]
    by_cases h2 : st.boardError = true
    · simp [h2]
    · simp [h2, h1.2]
  · rw [if_neg h1]
    simp

theorem tickBody_active (lug : Nat → Int) (d : Int) (st : SimSt) :
    (tickBody lug d st).active = (admitStep st).active := by
  unfold tickBody
  dsimp only
  by_cases h1 : (admitStep st).boardError = true
  · rw [if_pos h1]
  · rw [if_neg h1]
    by_cases h2 : allSeated (admitStep st) = true
    · rw [if_pos h2]
    · rw [if_neg h2]
      exact (simAll_meta lug d (admitStep st)).2.1

theorem tickBody_crashed_mono (lug : Nat → Int) (d : Int) (st : SimSt)
    (h : st.crashed = true) : (tickBody lug d st).crashed = true := by
  unfold tickBody
  dsimp only
  have ha : (admitStep st).crashed = true := (admitStep_meta st).2.1.trans h
  by_cases h1 : (admitStep st).boardError = true
  · rw [if_pos h1]
    exact ha
  · rw [if_neg h1]
    by_cases h2 : allSeated (admitStep st) = true
    · rw [if_pos h2]
      exact ha
    · rw [if_neg h2]
      exact simAll_crashed_mono lug d (admitStep st) ha

theorem tickBody_iter_boardOk (lug : Nat → Int) (d : Int) (st : SimSt)
    (hb : (admitStep st).boardError = false) (hs : allSeated (admitStep st) = false) :
    (tickBody lug d st).iter = st.iter + 1 ∧
    (tickBody lug d st).boardError = st.boardError := by
  unfold tickBody
  dsimp only
  rw [if_neg (by simp [hb]), if_neg (by simp [hs])]
  have h1 := simAll_meta lug d (admitStep st)
  have h2 := (admitStep_meta st).1
  have h3 := (admitStep_meta st).2.2
  constructor
  · dsimp only
    omega
  · dsimp only
    rw [h1.2.2.2, h3]

theorem runLoop_abort (lug : Nat → Int) (d : Int) (r : Nat → Bool) (fuel : Nat)
    (st : SimSt) (h : r st.iter = false) :
    runLoop lug d r fuel st = (st, .aborted) := by
  rw [runLoop.eq_def]
  dsimp only
  rw [if_pos (by simp [h])]

theorem runLoop_zero (lug : Nat → Int) (d : Int) (r : Nat → Bool)
    (st : SimSt) (h : r st.iter = true) :
    runLoop lug d r 0 st = (st, .stalled) := by
  rw [runLoop.eq_def]
  dsimp only
  rw [if_neg (by simp [h])]

theorem runLoop_boardFailed_eq (lug : Nat → Int) (d : Int) (r : Nat → Bool) (fuel : Nat)
    (st : SimSt) (h1 : r st.iter = true) (h2 : (admitStep st).boardError = true) :
    runLoop lug d r (fuel + 1) st = (admitStep st, .boardFailed) := by
  rw [runLoop.eq_def]
  dsimp only
  rw [if_neg (by simp [h1])]
  rw [if_pos h2]

theorem runLoop_complete_eq (lug : Nat → Int) (d : Int) (r : Nat → Bool) (fuel : Nat)
    (st : SimSt) (h1 : r st.iter = true) (h2 : (admitStep st).boardError = false)
    (h3 : allSeated (admitStep st) = true) :
    runLoop lug d r (fuel + 1) st = (admitStep st, .completed) := by
  rw [runLoop.eq_def]
  dsimp only
  rw [if_neg (by simp [h1])]
  rw [if_neg (by simp [h2]), if_pos h3]

theorem runLoop_crash_eq (lug : Nat → Int) (d : Int) (r : Nat → Bool) (fuel : Nat)
    (st : SimSt) (h1 : r st.iter = true) (h2 : (admitStep st).boardError = false)
    (h3 : allSeated (admitStep st) = false) (h4 : (tickBody lug d st).crashed = true) :
    runLoop lug d r (fuel + 1) st = (tickBody lug d st, .crashed) := by
  unfold tickBody at h4 ⊢
  dsimp only at h4 ⊢
  rw [if_neg (by simp [h2]), if_neg (by simp [h3])] at h4 ⊢
  dsimp only at h4
  rw [runLoop.eq_def]
  dsimp only
  rw [if_neg (by simp [h1])]
  rw [if_neg (by simp [h2]), if_neg (by simp [h3]), if_pos (by simpa using h4)]

theorem runLoop_step_live (lug : Nat → Int) (d : Int) (r : Nat → Bool) (fuel : Nat)
    (st : SimSt) (h1 : r st.iter = true) (h2 : (admitStep st).boardError = false)
    (h3 : allSeated (admitStep st) = false) (h4 : (tickBody lug d st).crashed = false) :
    runLoop lug d r (fuel + 1) st = runLoop lug d r fuel (tickBody lug d st) := by
  unfold tickBody at h4 ⊢
  dsimp only at h4 ⊢
  rw [if_neg (by simp [h2]), if_neg (by simp [h3])] at h4 ⊢
  dsimp only at h4
  conv_lhs => rw [runLoop.eq_def]
  dsimp only
  rw [if_neg (by simp [h1])]
  rw [if_neg (by simp [h2]), if_neg (by simp [h3]), if_neg (by simp [h4])]

theorem runLoop_main (lug : Nat → Int) (d : Int) (r : Nat → Bool) : ∀ (fuel : Nat) (st : SimSt),
    st.crashed = false → st.boardError = false →
    (runLoop lug d r fuel st).1.iter ≤ st.iter + fuel ∧
    ((runLoop lug d r fuel st).2 = .stalled ↔
      ((runLoop lug d r fuel st).1.iter = st.iter + fuel ∧ r (st.iter + fuel) = true ∧
       (runLoop lug d r fuel st).1.crashed = false ∧
       (runLoop lug d r fuel st).1.boardError = false)) := by
  intro fuel
  induction fuel with
  | zero =>
    intro st hc hb
    by_cases hr : r st.iter = true
    · rw [runLoop_zero lug d r st hr]
      simp [hr, hc, hb]
    · rw [runLoop_abort lug d r 0 st (by simpa using hr)]
      simp only [Bool.not_eq_true] at hr
      simp [hr]
  | succ fuel ih =>
    intro st hc hb
    by_cases hr : r st.iter = true
    case neg =>
      rw [runLoop_abort lug d r (fuel + 1) st (by simpa using hr)]
      constructor
      · simp
      · constructor
        · intro h; simp at h
        · rintro ⟨h1, -, -⟩
          have h1' : st.iter = st.iter + (fuel + 1) := h1
          omega
    case pos =>
    have hbe : (admitStep st).boardError = false := (admitStep_meta st).2.2.trans hb
    by_cases hall : allSeated (admitStep st) = true
    · rw [runLoop_complete_eq lug d r fuel st hr hbe hall]
      have hi := (admitStep_meta st).1
      constructor
      · dsimp only
        omega
      · constructor
        · intro h; simp at h
        · rintro ⟨h1, -, -⟩
          have h1' : (admitStep st).iter = st.iter + (fuel + 1) := h1
          omega
    · simp only [Bool.not_eq_true] at hall
      have hit := tickBody_iter_boardOk lug d st hbe hall
      by_cases hcr : (tickBody lug d st).crashed = true
      · rw [runLoop_crash_eq lug d r fuel st hr hbe hall hcr]
        constructor
        · dsimp only
          omega
        · constructor
          · intro h; simp at h
          · rintro ⟨-, -, h3, -⟩
            have h3' : (tickBody lug d st).crashed = false := h3
            rw [hcr] at h3'
            simp at h3'
      · simp only [Bool.not_eq_true] at hcr
        rw [runLoop_step_live lug d r fuel st hr hbe hall hcr]
        have hb3 : (tickBody lug d st).boardError = false := hit.2.trans hb
        have hmain := ih (tickBody lug d st) hcr hb3
        have heq : (tickBody lug d st).iter + fuel = st.iter + (fuel + 1) := by
          have := hit.1
          omega
        rw [heq] at hmain
        exact hmain


/-- The loop can never reach the `throw` branch of `Aircraft.board`: the
admission guard re-checks exactly the condition `board` tests. -/
theorem runLoop_boardOk (lug : Nat → Int) (d : Int) (r : Nat → Bool) :
    ∀ (fuel : Nat) (st : SimSt), st.boardError = false →
    (runLoop lug d r fuel st).1.boardError = false ∧
    (runLoop lug d r fuel st).2 ≠ .boardFailed := by
  intro fuel
  induction fuel with
  | zero =>
    intro st hb
    by_cases hr : r st.iter = true
    · rw [runLoop_zero lug d r st hr]
      exact ⟨hb, by simp⟩
    · rw [runLoop_abort lug d r 0 st (by simpa using hr)]
      exact ⟨hb, by simp⟩
  | succ fuel ih =>
    intro st hb
    by_cases hr : r st.iter = true
    case neg =>
      rw [runLoop_abort lug d r (fuel + 1) st (by simpa using hr)]
      exact ⟨hb, by simp⟩
    case pos =>
    have hbe : (admitStep st).boardError = false := (admitStep_meta st).2.2.trans hb
    by_cases hall : allSeated (admitStep st) = true
    · rw [runLoop_complete_eq lug d r fuel st hr hbe hall]
      exact ⟨hbe, by simp⟩
    · simp only [Bool.not_eq_true] at hall
      have hit := tickBody_iter_boardOk lug d st hbe hall
      by_cases hcr : (tickBody lug d st).crashed = true
      · rw [runLoop_crash_eq lug d r fuel st hr hbe hall hcr]
        exact ⟨hit.2.trans hb, by simp⟩
      · simp only [Bool.not_eq_true] at hcr
        rw [runLoop_step_live lug d r fuel st hr hbe hall hcr]
        exact ih (tickBody lug d st) (hit.2.trans hb)

/-- **C8**: the simulation loop runs at most `maxIterations = 10000`
iterations; it ends `Stalled` precisely when it spends the whole budget with
the run still live and free of the two exception defects—in particular a run
that reaches the ceiling without every passenger seated is marked `Stalled`,
an outcome distinct from `Completed` and from `Aborted`, and such a run is
never reported completed. -/
theorem iteration_ceiling_stalled (layout : List RowSpec) (method : Method)
    (tickLen : Int) (luggage : Nat → Int) (running : Nat → Bool) (rand : Nat → Nat) :
    (simulateModel layout method tickLen luggage running rand).1.iter ≤ maxIterations ∧
    ((simulateModel layout method tickLen luggage running rand).2 = .stalled ↔
      ((simulateModel layout method tickLen luggage running rand).1.iter = maxIterations ∧
       running maxIterations = true ∧
       (simulateModel layout method tickLen luggage running rand).1.crashed = false ∧
       (simulateModel layout method tickLen luggage running rand).1.boardError = false)) ∧
    Outcome.stalled ≠ Outcome.completed ∧ Outcome.stalled ≠ Outcome.aborted := by
  have h := runLoop_main luggage tickLen running maxIterations (simInit layout method rand)
    (by simp [simInit]) (by simp [simInit])
  have hi : (simInit layout method rand).iter = 0 := by simp [simInit]
  rw [hi] at h
  simp only [Nat.zero_add] at h
  unfold simulateModel
  exact ⟨h.1, h.2, by simp, by simp⟩

/-- **C5**: in any tick of the loop at most one passenger is admitted, and
an admission happens only if the entry cell was empty at the start of that
tick; consequently the exception branch of `Aircraft.board` is unreachable
from the loop. -/
theorem admission_throttling (luggage : Nat → Int) (tickLen : Int) (st : SimSt) :
    ((tickBody luggage tickLen st).active.length ≤ st.active.length + 1) ∧
    ((tickBody luggage tickLen st).active ≠ st.active →
      ((cellAt st.cells 0).isEmpty = true ∧
       (tickBody luggage tickLen st).active = st.active ++ [st.pending.getLast?.getD 0])) ∧
    (∀ (running : Nat → Bool) (fuel : Nat), st.boardError = false →
      ((runLoop luggage tickLen running fuel st).1.boardError = false ∧
       (runLoop luggage tickLen running fuel st).2 ≠ .boardFailed)) := by
  have ha := tickBody_active luggage tickLen st
  have hc := admitStep_cells_or st
  refine ⟨?_, ?_, ?_⟩
  · rw [ha]
    rcases hc with h | ⟨-, h⟩
    · simp [h]
    · simp [h]
  · intro hne
    rw [ha] at hne ⊢
    rcases hc with h | ⟨he, h⟩
    · exact absurd h hne
    · exact ⟨he, h⟩
  · intro running fuel hb
    exact runLoop_boardOk luggage tickLen running fuel st hb


theorem runLoop_step_live2 (lug : Nat → Int) (d : Int) (r : Nat → Bool)
    (fuel fuel' : Nat) (st st' : SimSt) (hf : fuel = fuel' + 1)
    (h1 : r st.iter = true) (h2 : (admitStep st).boardError = false)
    (h3 : allSeated (admitStep st) = false) (ht : tickBody lug d st = st')
    (h4 : st'.crashed = false) :
    runLoop lug d r fuel st = runLoop lug d r fuel' st' := by
  subst hf
  subst ht
  exact runLoop_step_live lug d r fuel' st h1 h2 h3 h4

theorem runLoop_complete2 (lug : Nat → Int) (d : Int) (r : Nat → Bool)
    (fuel fuel' : Nat) (st st' : SimSt) (hf : fuel = fuel' + 1)
    (h1 : r st.iter = true) (ha : admitStep st = st')
    (h2 : st'.boardError = false) (h3 : allSeated st' = true) :
    runLoop lug d r fuel st = (st', .completed) := by
  subst hf
  rw [runLoop_complete_eq lug d r fuel' st h1 (ha ▸ h2) (ha ▸ h3), ha]

theorem c3_simInit : simInit c3Layout .btf (fun _ => 0) = c3St0 := by decide

theorem c3_chain (fuel : Nat) :
    runLoop lug0 100 alwaysRun (fuel + 11) c3St0 = (c3St10, .completed) := by
  calc runLoop lug0 100 alwaysRun (fuel + 11) c3St0
    _ = runLoop lug0 100 alwaysRun (fuel + 10) c3St1 :=
      runLoop_step_live2 lug0 100 alwaysRun (fuel + 11) (fuel + 10) c3St0 c3St1
        (by omega) rfl (by decide) (by decide) (by decide) (by decide)
    _ = runLoop lug0 100 alwaysRun (fuel + 9) c3St2 :=
      runLoop_step_live2 lug0 100 alwaysRun (fuel + 10) (fuel + 9) c3St1 c3St2
        (by omega) rfl (by decide) (by decide) (by decide) (by decide)
    _ = runLoop lug0 100 alwaysRun (fuel + 8) c3St3 :=
      runLoop_step_live2 lug0 100 alwaysRun (fuel + 9) (fuel + 8) c3St2 c3St3
        (by omega) rfl (by decide) (by decide) (by decide) (by decide)
    _ = runLoop lug0 100 alwaysRun (fuel + 7) c3St4 :=
      runLoop_step_live2 lug0 100 alwaysRun (fuel + 8) (fuel + 7) c3St3 c3St4
        (by omega) rfl (by decide) (by decide) (by decide) (by decide)
    _ = runLoop lug0 100 alwaysRun (fuel + 6) c3St5 :=
      runLoop_step_live2 lug0 100 alwaysRun (fuel + 7) (fuel + 6) c3St4 c3St5
        (by omega) rfl (by decide) (by decide) (by decide) (by decide)
    _ = runLoop lug0 100 alwaysRun (fuel + 5) c3St6 :=
      runLoop_step_live2 lug0 100 alwaysRun (fuel + 6) (fuel + 5) c3St5 c3St6
        (by omega) rfl (by decide) (by decide) (by decide) (by decide)
    _ = runLoop lug0 100 alwaysRun (fuel + 4) c3St7 :=
      runLoop_step_live2 lug0 100 alwaysRun (fuel + 5) (fuel + 4) c3St6 c3St7
        (by omega) rfl (by decide) (by decide) (by decide) (by decide)
    _ = runLoop lug0 100 alwaysRun (fuel + 3) c3St8 :=
      runLoop_step_live2 lug0 100 alwaysRun (fuel + 4) (fuel + 3) c3St7 c3St8
        (by omega) rfl (by decide) (by decide) (by decide) (by decide)
    _ = runLoop lug0 100 alwaysRun (fuel + 2) c3St9 :=
      runLoop_step_live2 lug0 100 alwaysRun (fuel + 3) (fuel + 2) c3St8 c3St9
        (by omega) rfl (by decide) (by decide) (by decide) (by decide)
    _ = runLoop lug0 100 alwaysRun (fuel + 1) c3St10 :=
      runLoop_step_live2 lug0 100 alwaysRun (fuel + 2) (fuel + 1) c3St9 c3St10
        (by omega) rfl (by decide) (by decide) (by decide) (by decide)
    _ = (c3St10, .completed) :=
      runLoop_complete2 lug0 100 alwaysRun (fuel + 1) fuel c3St10 c3St10
        (by omega) rfl (by decide) (by decide) (by decide)

theorem ssa_simInit : simInit ssaLayout .btf (fun _ => 0) = ssaSt0 := by decide

theorem ssa_chain (fuel : Nat) :
    runLoop lug0 100 alwaysRun (fuel + 5) ssaSt0 = runLoop lug0 100 alwaysRun fuel ssaSt5 := by
  calc runLoop lug0 100 alwaysRun (fuel + 5) ssaSt0
    _ = runLoop lug0 100 alwaysRun (fuel + 4) ssaSt1 :=
      runLoop_step_live2 lug0 100 alwaysRun (fuel + 5) (fuel + 4) ssaSt0 ssaSt1
        (by omega) rfl (by decide) (by decide) (by decide) (by decide)
    _ = runLoop lug0 100 alwaysRun (fuel + 3) ssaSt2 :=
      runLoop_step_live2 lug0 100 alwaysRun (fuel + 4) (fuel + 3) ssaSt1 ssaSt2
        (by omega) rfl (by decide) (by decide) (by decide) (by decide)
    _ = runLoop lug0 100 alwaysRun (fuel + 2) ssaSt3 :=
      runLoop_step_live2 lug0 100 alwaysRun (fuel + 3) (fuel + 2) ssaSt2 ssaSt3
        (by omega) rfl (by decide) (by decide) (by decide) (by decide)
    _ = runLoop lug0 100 alwaysRun (fuel + 1) ssaSt4 :=
      runLoop_step_live2 lug0 100 alwaysRun (fuel + 2) (fuel + 1) ssaSt3 ssaSt4
        (by omega) rfl (by decide) (by decide) (by decide) (by decide)
    _ = runLoop lug0 100 alwaysRun fuel ssaSt5 :=
      runLoop_step_live2 lug0 100 alwaysRun (fuel + 1) fuel ssaSt4 ssaSt5
        (by omega) rfl (by decide) (by decide) (by decide) (by decide)


/-- The whole completion-scenario run: aircraft `SSASS`, back-to-front,
tick length 100, constant luggage duration 0. -/
theorem c3_run_eq :
    simulateModel c3Layout .btf 100 lug0 alwaysRun (fun _ => 0) = (c3St10, .completed) := by
  unfold simulateModel
  rw [c3_simInit]
  have h := c3_chain 9989
  simpa [maxIterations] using h

/-- **C3** (counterexample): the completion scenario—grid compiled from the
single row-group `SSASS`, `back_to_front`, tick length 100, constant luggage
duration 0—does complete, but the loop reports 10 iterations while the grid
has 4 seats, so the run does not finish in a number of ticks equal to the
number of seats. -/
theorem completion_scenario_cex :
    (simulateModel c3Layout .btf 100 lug0 alwaysRun (fun _ => 0)).2 = .completed ∧
    (simulateModel c3Layout .btf 100 lug0 alwaysRun (fun _ => 0)).1.iter = 10 ∧
    (generateAircraft c3Layout).seats.length = 4 ∧ (10 : Nat) ≠ 4 := by
  refine ⟨by rw [c3_run_eq], by rw [c3_run_eq]; decide, by decide, by decide⟩

/-- **C3** (amended): the completion scenario completes—every admitted
passenger ends `Seated`—with the loop's completion message reporting 10
iterations (2·seats + 2 for this grid), not the seat count. -/
theorem completion_scenario_amended :
    (simulateModel c3Layout .btf 100 lug0 alwaysRun (fun _ => 0)).2 = .completed ∧
    (simulateModel c3Layout .btf 100 lug0 alwaysRun (fun _ => 0)).1.iter = 10 ∧
    allSeated (simulateModel c3Layout .btf 100 lug0 alwaysRun (fun _ => 0)).1 = true ∧
    (simulateModel c3Layout .btf 100 lug0 alwaysRun (fun _ => 0)).1.pending = [] := by
  refine ⟨by rw [c3_run_eq], by rw [c3_run_eq]; decide, by rw [c3_run_eq]; decide,
    by rw [c3_run_eq]; decide⟩

/-- The `SSA` run passes through `ssaSt5`: with the full iteration budget it
equals the loop restarted there with 5 fewer units of fuel. -/
theorem c2_run_reaches :
    runLoop lug0 100 alwaysRun maxIterations ssaSt0 = runLoop lug0 100 alwaysRun 9995 ssaSt5 := by
  have h := ssa_chain 9995
  simpa [maxIterations] using h

theorem aisle_simInit : simInit twoStripLayout .btf (fun _ => 0) = aSt0 := by decide

theorem aisle_chain (fuel : Nat) :
    runLoop aisleLug 100 alwaysRun (fuel + 10) aSt0 = runLoop aisleLug 100 alwaysRun fuel aSt10 := by
  calc runLoop aisleLug 100 alwaysRun (fuel + 10) aSt0
    _ = runLoop aisleLug 100 alwaysRun (fuel + 9) aSt1 :=
      runLoop_step_live2 aisleLug 100 alwaysRun (fuel + 10) (fuel + 9) aSt0 aSt1
        (by omega) rfl (by decide) (by decide) (by decide) (by decide)
    _ = runLoop aisleLug 100 alwaysRun (fuel + 8) aSt2 :=
      runLoop_step_live2 aisleLug 100 alwaysRun (fuel + 9) (fuel + 8) aSt1 aSt2
        (by omega) rfl (by decide) (by decide) (by decide) (by decide)
    _ = runLoop aisleLug 100 alwaysRun (fuel + 7) aSt3 :=
      runLoop_step_live2 aisleLug 100 alwaysRun (fuel + 8) (fuel + 7) aSt2 aSt3
        (by omega) rfl (by decide) (by decide) (by decide) (by decide)
    _ = runLoop aisleLug 100 alwaysRun (fuel + 6) aSt4 :=
      runLoop_step_live2 aisleLug 100 alwaysRun (fuel + 7) (fuel + 6) aSt3 aSt4
        (by omega) rfl (by decide) (by decide) (by decide) (by decide)
    _ = runLoop aisleLug 100 alwaysRun (fuel + 5) aSt5 :=
      runLoop_step_live2 aisleLug 100 alwaysRun (fuel + 6) (fuel + 5) aSt4 aSt5
        (by omega) rfl (by decide) (by decide) (by decide) (by decide)
    _ = runLoop aisleLug 100 alwaysRun (fuel + 4) aSt6 :=
      runLoop_step_live2 aisleLug 100 alwaysRun (fuel + 5) (fuel + 4) aSt5 aSt6
        (by omega) rfl (by decide) (by decide) (by decide) (by decide)
    _ = runLoop aisleLug 100 alwaysRun (fuel + 3) aSt7 :=
      runLoop_step_live2 aisleLug 100 alwaysRun (fuel + 4) (fuel + 3) aSt6 aSt7
        (by omega) rfl (by decide) (by decide) (by decide) (by decide)
    _ = runLoop aisleLug 100 alwaysRun (fuel + 2) aSt8 :=
      runLoop_step_live2 aisleLug 100 alwaysRun (fuel + 3) (fuel + 2) aSt7 aSt8
        (by omega) rfl (by decide) (by decide) (by decide) (by decide)
    _ = runLoop aisleLug 100 alwaysRun (fuel + 1) aSt9 :=
      runLoop_step_live2 aisleLug 100 alwaysRun (fuel + 2) (fuel + 1) aSt8 aSt9
        (by omega) rfl (by decide) (by decide) (by decide) (by decide)
    _ = runLoop aisleLug 100 alwaysRun fuel aSt10 :=
      runLoop_step_live2 aisleLug 100 alwaysRun (fuel + 1) fuel aSt9 aSt10
        (by omega) rfl (by decide) (by decide) (by decide) (by decide)

/-- The two-strip run passes through `aSt10`. -/
theorem c2_aisle_reaches :
    runLoop aisleLug 100 alwaysRun maxIterations aSt0 = runLoop aisleLug 100 alwaysRun 9990 aSt10 := by
  have h := aisle_chain 9990
  simpa [maxIterations] using h

/-- **C2** (counterexample): two runs violate the one-occupant invariant at a
tick boundary.  On the `SSA` back-to-front run, the boundary after iteration
5 has two occupants in cell 2—the seat `1B` cell, which passenger 0 traverses
on the way to its window seat `1A` while passenger 1 is already seated there.
On the two-strip `ASASS`/`SSASS` run, the boundary after iteration 10 has two
occupants in cell 3—an aisle cell (row `none`), crossed by a loading
passenger descending through it while a searching passenger queues there.
Both seat cells and aisle cells can therefore hold two occupants. -/
theorem occupancy_invariant_cex :
    (simInit ssaLayout .btf (fun _ => 0) = ssaSt0 ∧
     runLoop lug0 100 alwaysRun maxIterations ssaSt0 = runLoop lug0 100 alwaysRun 9995 ssaSt5 ∧
     ssaSt5.iter = 5 ∧
     (cellAt ssaSt5.cells 2).row = some 1 ∧
     (paxAt ssaSt5 0).target = 1 ∧ (paxAt ssaSt5 0).cell = some 2 ∧
     (paxAt ssaSt5 1).cell = some 2 ∧ (paxAt ssaSt5 1).state = some .seated ∧
     (cellAt ssaSt5.cells 2).contents = [1, 0]) ∧
    (simInit twoStripLayout .btf (fun _ => 0) = aSt0 ∧
     runLoop aisleLug 100 alwaysRun maxIterations aSt0 = runLoop aisleLug 100 alwaysRun 9990 aSt10 ∧
     aSt10.iter = 10 ∧
     (cellAt aSt10.cells 3).row = none ∧ (3 : Nat) ≠ 0 ∧
     (cellAt aSt10.cells 3).contents = [3, 2]) := by
  refine ⟨⟨ssa_simInit, c2_run_reaches, by decide, by decide, by decide, by decide,
    by decide, by decide, by decide⟩,
    ⟨aisle_simInit, c2_aisle_reaches, by decide, by decide, by decide, by decide⟩⟩

/-- Witness for the admission-throttling theorem at the initial `SSA` state:
its entry cell is empty, the first tick admits exactly the queue's last
passenger, and the loop never reaches the `board` exception branch. -/
theorem admission_throttling_witness :
    (cellAt ssaSt0.cells 0).isEmpty = true ∧
    (tickBody lug0 100 ssaSt0).active = ssaSt0.active ++ [ssaSt0.pending.getLast?.getD 0] ∧
    (runLoop lug0 100 alwaysRun 5 ssaSt0).1.boardError = false ∧
    (runLoop lug0 100 alwaysRun 5 ssaSt0).2 ≠ .boardFailed := by
  have h := admission_throttling lug0 100 ssaSt0
  have h2 := h.2.1 (by decide)
  have h3 := h.2.2 alwaysRun 5 (by decide)
  exact ⟨h2.1, h2.2, h3.1, h3.2⟩

/-- Witness instantiating the iteration-ceiling theorem on the completion
scenario. -/
theorem iteration_ceiling_stalled_witness :
    (simulateModel c3Layout .btf 100 lug0 alwaysRun (fun _ => 0)).1.iter ≤ maxIterations ∧
    Outcome.stalled ≠ Outcome.completed :=
  ⟨(iteration_ceiling_stalled c3Layout .btf 100 lug0 alwaysRun (fun _ => 0)).1,
   (iteration_ceiling_stalled c3Layout .btf 100 lug0 alwaysRun (fun _ => 0)).2.2.1⟩


theorem sweepRows_eq {α : Type} (m : List ((Nat × Nat) × α)) (rcCode lcCode : Nat)
    (el : Bool) (rows : List Nat) : ∀ acc,
    sweepRows m rcCode lcCode el acc rows =
      acc ++ rows.flatMap (fun row =>
        (seatMapFind m (row, rcCode)).toList ++
          (if el then (seatMapFind m (row, lcCode)).toList else [])) := by
  induction rows with
  | nil => intro acc; simp [sweepRows]
  | cons row rest ih =>
    intro acc
    simp only [sweepRows, List.flatMap_cons]
    rcases hr : seatMapFind m (row, rcCode) with _ | p <;> rcases el <;>
      rcases hl : seatMapFind m (row, lcCode) with _ | q <;>
      simp [hr, hl, ih, List.append_assoc]

theorem steffenLoop_eq {α : Type} (m : List ((Nat × Nat) × α)) (rowCount : Nat)
    (rc : Nat) (lc : Int) (acc : List α) :
    steffenLoop m rowCount rc lc acc =
      acc ++ (steffenColPairs rc lc).flatMap (fun p => steffenSpecSweep m rowCount p.1 p.2) := by
  have H : ∀ (n : Nat) (rc : Nat) (lc : Int) (acc : List α), (lc + 1 - rc).toNat ≤ n →
      steffenLoop m rowCount rc lc acc =
        acc ++ (steffenColPairs rc lc).flatMap (fun p => steffenSpecSweep m rowCount p.1 p.2) := by
    intro n
    induction n with
    | zero =>
      intro rc lc acc hn
      have hle : ¬ (rc : Int) ≤ lc := by omega
      rw [steffenLoop, dif_neg hle, steffenColPairs, dif_neg hle]
      simp
    | succ n ih =>
      intro rc lc acc hn
      by_cases hle : (rc : Int) ≤ lc
      · rw [steffenLoop, dif_pos hle, steffenColPairs, dif_pos hle]
        rw [ih (rc + 1) (lc - 1) _ (by omega)]
        rw [sweepRows_eq, sweepRows_eq]
        simp only [List.flatMap_cons, steffenSpecSweep, List.flatMap_append, List.append_assoc,
          decide_eq_true_eq]
      · rw [steffenLoop, dif_neg hle, steffenColPairs, dif_neg hle]
        simp
  exact H (lc + 1 - rc).toNat rc lc acc le_rfl

/-- **C1**: `arrangeSteffen` orders passengers exactly by the spec's Steffen
rule: with `rightCol` at 0 and `leftCol` at the last column index, while
`leftCol >= rightCol` it emits, for the rows `rowCount, rowCount-2, …` then
`rowCount-1, rowCount-3, …`, the right-column seat's passenger then (when the
two columns differ) the left-column seat's passenger, then moves both column
cursors inward; the fully built sequence is reversed as a whole—so the
passengers popped first from the returned sequence's end are the
outermost-column, back-half alternate-row group, right column always emitted
before left within a (row, side) pair.  `steffenSpecRule` is that rule
transcribed from the spec's words. -/
theorem steffen_matches_spec {α : Type} (tkey : α → Nat × Nat) (ps : List α)
    (rowCount colCount : Nat) :
    arrangeSteffen tkey ps rowCount colCount = steffenSpecRule tkey ps rowCount colCount := by
  unfold arrangeSteffen steffenSpecRule
  rw [steffenLoop_eq]
  simp

theorem cons_set_perm {α : Type} : ∀ (xs : List α) (k : Nat) (b x : α),
    xs[k]? = some b → (b :: xs.set k x).Perm (x :: xs) := by
  intro xs
  induction xs with
  | nil => intro k b x h; simp at h
  | cons y t ih =>
    intro k b x h
    cases k with
    | zero =>
      simp at h
      subst h
      exact List.Perm.swap _ _ _
    | succ k =>
      simp at h
      have h1 := ih k b x h
      simp only [List.set_cons_succ]
      exact ((List.Perm.swap y b (t.set k x)).trans (h1.cons y)).trans (List.Perm.swap x y t)

theorem set_set_perm {α : Type} : ∀ (l : List α) (i j : Nat) (a b : α),
    l[i]? = some a → l[j]? = some b → ((l.set i b).set j a).Perm l := by
  intro l
  induction l with
  | nil => intro i j a b hi hj; simp at hi
  | cons x xs ih =>
    intro i j a b hi hj
    cases i with
    | zero =>
      simp at hi
      subst hi
      cases j with
      | zero =>
        simp at hj
        subst hj
        simp
      | succ j =>
        simp only [List.set_cons_zero, List.set_cons_succ]
        simp at hj
        exact cons_set_perm _ _ _ _ hj
    | succ i =>
      simp at hi
      cases j with
      | zero =>
        simp at hj
        subst hj
        simp only [List.set_cons_succ, List.set_cons_zero]
        exact cons_set_perm _ _ _ _ hi
      | succ j =>
        simp at hj
        simp only [List.set_cons_succ]
        exact (ih i j a b hi hj).cons x

theorem swapAt_perm {α : Type} (l : List α) (i j : Nat) : (swapAt l i j).Perm l := by
  unfold swapAt
  rcases hi : l[i]? with _ | a
  · exact List.Perm.refl l
  · rcases hj : l[j]? with _ | b
    · exact List.Perm.refl l
    · exact set_set_perm l i j a b hi hj

theorem shuffleGo_perm {α : Type} (rand : Nat → Nat) : ∀ (n : Nat) (l : List α),
    (shuffleGo rand n l).Perm l := by
  intro n
  induction n with
  | zero => intro l; exact List.Perm.refl l
  | succ n ih =>
    intro l
    exact (ih _).trans (swapAt_perm l (n + 1) (rand (n + 1) % (n + 2)))

theorem arrangeRandom_perm {α : Type} (rand : Nat → Nat) (ps : List α) :
    (arrangeRandom rand ps).Perm ps :=
  shuffleGo_perm rand (ps.length - 1) ps

theorem rowsDesc_pair_perm : ∀ (k : Nat),
    (rowsDesc (k + 1) ++ rowsDesc k).Perm (List.range' 1 (k + 1)) := by
  intro k
  induction k with
  | zero => simp [rowsDesc]
  | succ k ih =>
    have h1 : rowsDesc (k + 2) = (k + 2) :: rowsDesc k := rfl
    have h2 : List.range' 1 (k + 2) = List.range' 1 (k + 1) ++ [k + 2] := by
      have h := @List.range'_concat 1 1 (k + 1)
      simpa [show 1 + (k + 1) = k + 2 from by omega] using h
    rw [h1, h2]
    refine List.Perm.trans ?_ (List.perm_append_singleton (k + 2) (List.range' 1 (k + 1))).symm
    simp only [List.cons_append]
    exact (List.perm_append_comm.trans ih).cons (k + 2)

theorem rowsAll_perm : ∀ (n : Nat),
    (rowsDesc n ++ rowsDesc (n - 1)).Perm (List.range' 1 n) := by
  intro n
  cases n with
  | zero => simp [rowsDesc]
  | succ k => simpa using rowsDesc_pair_perm k

theorem sweep_keys {α : Type} (m : List ((Nat × Nat) × α)) (rowCount : Nat)
    (rc : Nat) (lc : Int) :
    steffenSpecSweep m rowCount rc lc =
      (pairKeys rowCount rc lc).flatMap (fun k => (seatMapFind m k).toList) := by
  unfold steffenSpecSweep pairKeys
  rw [List.flatMap_assoc]
  congr 1
  funext row
  by_cases h : (rc : Int) ≠ lc <;> simp [h]

theorem pairKeys_perm (rowCount : Nat) (rc : Nat) (lc : Int) :
    (pairKeys rowCount rc lc).Perm
      (colBlockKeys rowCount rc ++
        (if (rc : Int) ≠ lc then colBlockKeys rowCount lc.toNat else [])) := by
  unfold pairKeys colBlockKeys
  have step1 := (List.flatMap_append_perm (rowsDesc rowCount ++ rowsDesc (rowCount - 1))
    (fun row => [(row, 65 + rc)])
    (fun row => if (rc : Int) ≠ lc then [(row, 65 + lc.toNat)] else [])).symm
  simp only [List.singleton_append] at step1
  refine step1.trans ?_
  refine List.Perm.append ?_ ?_
  · rw [← List.map_eq_flatMap]
    exact (rowsAll_perm rowCount).map _
  · by_cases h : (rc : Int) ≠ lc
    · simp only [if_pos h]
      rw [← List.map_eq_flatMap]
      exact (rowsAll_perm rowCount).map _
    · simp [h]

theorem steffenColPairs_idx_perm :
    ∀ (n : Nat) (rc : Nat) (lc : Int), (lc + 1 - rc).toNat ≤ n →
    ((steffenColPairs rc lc).flatMap
        (fun p => p.1 :: (if (p.1 : Int) ≠ p.2 then [p.2.toNat] else []))).Perm
      (List.range' rc (lc + 1 - rc).toNat) := by
  intro n
  induction n with
  | zero =>
    intro rc lc hn
    have hle : ¬ (rc : Int) ≤ lc := by omega
    rw [steffenColPairs, dif_neg hle]
    have h0 : (lc + 1 - rc).toNat = 0 := by omega
    simp [h0]
  | succ n ih =>
    intro rc lc hn
    by_cases hle : (rc : Int) ≤ lc
    · rw [steffenColPairs, dif_pos hle]
      simp only [List.flatMap_cons]
      by_cases heq : (rc : Int) = lc
      · have hif : ¬ ((rc : Int) ≠ lc) := by omega
        have hrest : ¬ ((rc : Int) + 1 ≤ lc - 1) := by omega
        rw [steffenColPairs]
        rw [dif_neg (by push_cast; omega)]
        have h1 : (lc + 1 - rc).toNat = 1 := by omega
        simp [hif, h1]
      · have hif : (rc : Int) ≠ lc := heq
        have hrec := ih (rc + 1) (lc - 1) (by omega)
        rw [if_pos hif]
        have hN : (lc + 1 - rc).toNat = (lc - 1 + 1 - (rc + 1)).toNat + 2 := by omega
        rw [hN]
        have hr1 : List.range' rc ((lc - 1 + 1 - (rc + 1)).toNat + 2)
            = rc :: List.range' (rc + 1) ((lc - 1 + 1 - (rc + 1)).toNat + 1) := by
          rw [List.range'_succ]
        have hr2 : List.range' (rc + 1) ((lc - 1 + 1 - (rc + 1)).toNat + 1)
            = List.range' (rc + 1) ((lc - 1 + 1 - (rc + 1)).toNat) ++ [lc.toNat] := by
          have h := @List.range'_concat 1 (rc + 1) ((lc - 1 + 1 - (rc + 1)).toNat)
          rw [h]
          congr 2
          omega
        rw [hr1, hr2]
        simp only [List.cons_append, List.singleton_append]
        refine List.Perm.cons rc ?_
        refine List.Perm.trans ?_ (List.perm_append_singleton lc.toNat _).symm
        exact hrec.cons lc.toNat
    · rw [steffenColPairs, dif_neg hle]
      have h0 : (lc + 1 - rc).toNat = 0 := by omega
      simp [h0]

theorem keysVisited_perm (rowCount colCount : Nat) :
    (((steffenColPairs 0 ((colCount : Int) - 1)).flatMap
        (fun p => pairKeys rowCount p.1 p.2))).Perm (keyGrid rowCount colCount) := by
  have step1 : (((steffenColPairs 0 ((colCount : Int) - 1)).flatMap
      (fun p => pairKeys rowCount p.1 p.2))).Perm
      ((steffenColPairs 0 ((colCount : Int) - 1)).flatMap
        (fun p => (p.1 :: (if (p.1 : Int) ≠ p.2 then [p.2.toNat] else [])).flatMap
          (colBlockKeys rowCount))) := by
    refine List.Perm.flatMap_left _ ?_
    intro p hp
    refine (pairKeys_perm rowCount p.1 p.2).trans ?_
    by_cases h : (p.1 : Int) ≠ p.2 <;> simp [h]
  refine step1.trans ?_
  rw [← List.flatMap_assoc]
  have step2 := steffenColPairs_idx_perm ((((colCount : Int) - 1) + 1 - 0).toNat)
    0 ((colCount : Int) - 1) le_rfl
  have step3 := step2.flatMap_right (colBlockKeys rowCount)
  refine step3.trans ?_
  unfold keyGrid
  have hr : List.range' 0 (((colCount : Int) - 1) + 1 - ((0 : Nat) : Int)).toNat = List.range colCount := by
    rw [List.range_eq_range']
    congr 1
    omega
  rw [hr]

theorem buildSeatMap_eq {α : Type} (tkey : α → Nat × Nat) (ps : List α) :
    buildSeatMap tkey ps = (ps.map (fun p => (tkey p, p))).reverse := by
  unfold buildSeatMap
  suffices h : ∀ (acc : List ((Nat × Nat) × α)),
      ps.foldl (fun m p => (tkey p, p) :: m) acc = (ps.map (fun p => (tkey p, p))).reverse ++ acc by
    simpa using h []
  induction ps with
  | nil => intro acc; simp
  | cons q rest ih =>
    intro acc
    simp only [List.foldl_cons, List.map_cons, List.reverse_cons, ih]
    simp

theorem seatMapFind_mem {α : Type} (tkey : α → Nat × Nat) : ∀ (ps : List α) (p : α),
    (ps.map tkey).Nodup → p ∈ ps →
    seatMapFind (buildSeatMap tkey ps) (tkey p) = some p := by
  intro ps
  induction ps with
  | nil => intro p _ hp; simp at hp
  | cons q rest ih =>
    intro p hnd hp
    rw [seatMapFind, buildSeatMap_eq]
    simp only [List.map_cons, List.reverse_cons, List.find?_append]
    simp only [List.map_cons, List.nodup_cons] at hnd
    rcases List.mem_cons.mp hp with hpq | hpr
    · subst hpq
      have hnone : ((rest.map (fun r => (tkey r, r))).reverse.find?
          (fun e => e.1 = tkey p)) = none := by
        rw [List.find?_eq_none]
        intro x hx
        simp only [List.mem_reverse, List.mem_map] at hx
        obtain ⟨r, hr, hxr⟩ := hx
        subst hxr
        simp only [decide_eq_true_eq]
        intro hcontra
        exact hnd.1 (hcontra ▸ List.mem_map_of_mem tkey hr)
      rw [hnone]
      simp
    · have hfind := ih p hnd.2 hpr
      rw [seatMapFind, buildSeatMap_eq] at hfind
      rcases hcase : ((rest.map (fun r => (tkey r, r))).reverse.find?
          (fun e => e.1 = tkey p)) with _ | e
      · rw [hcase] at hfind
        simp at hfind
      · rw [hcase] at hfind
        simp only [Option.map_some'] at hfind
        rw [hcase]
        simpa using hfind

theorem keyList_flatMap_eq {α : Type} (tkey : α → Nat × Nat) (ps : List α)
    (hnd : (ps.map tkey).Nodup) :
    ((ps.map tkey).flatMap
        (fun k => (seatMapFind (buildSeatMap tkey ps) k).toList)) = ps := by
  have h1 : ((ps.map tkey).flatMap
      (fun k => (seatMapFind (buildSeatMap tkey ps) k).toList))
      = ps.flatMap (fun p => (seatMapFind (buildSeatMap tkey ps) (tkey p)).toList) := by
    rw [List.flatMap_map]
  rw [h1]
  have h2 : ps.flatMap (fun p => (seatMapFind (buildSeatMap tkey ps) (tkey p)).toList)
      = ps.flatMap (fun p => [p]) := by
    apply List.flatMap_congr
    intro p hp
    rw [seatMapFind_mem tkey ps p hnd hp]
    rfl
  rw [h2]
  simp

theorem keyGrid_nodup (rowCount colCount : Nat) : (keyGrid rowCount colCount).Nodup := by
  unfold keyGrid
  suffices h : ∀ (cs : List Nat), cs.Nodup → (cs.flatMap (colBlockKeys rowCount)).Nodup by
    exact h (List.range colCount) (List.nodup_range colCount)
  intro cs
  induction cs with
  | nil => intro _; simp
  | cons c rest ih =>
    intro hnd
    simp only [List.nodup_cons] at hnd
    simp only [List.flatMap_cons]
    refine List.Nodup.append ?_ (ih hnd.2) ?_
    · unfold colBlockKeys
      refine List.Nodup.map ?_ (List.nodup_range' 1 rowCount)
      intro a b hab
      simpa using congrArg Prod.fst hab
    · rw [List.disjoint_left]
      intro k hk1 hk2
      simp only [colBlockKeys, List.mem_map] at hk1
      obtain ⟨r, -, hr⟩ := hk1
      simp only [List.mem_flatMap, colBlockKeys, List.mem_map] at hk2
      obtain ⟨c', hc', r', -, hr'⟩ := hk2
      have : 65 + c = 65 + c' := by
        have e1 := congrArg Prod.snd hr
        have e2 := congrArg Prod.snd hr'
        simp at e1 e2
        omega
      exact hnd.1 (by simpa [show c' = c from by omega] using hc')

theorem arrangeSteffen_perm {α : Type} (tkey : α → Nat × Nat) (ps : List α)
    (rowCount colCount : Nat) (hcov : (ps.map tkey).Perm (keyGrid rowCount colCount)) :
    (arrangeSteffen tkey ps rowCount colCount).Perm ps := by
  have hnd : (ps.map tkey).Nodup := hcov.nodup_iff.mpr (keyGrid_nodup rowCount colCount)
  unfold arrangeSteffen
  rw [steffenLoop_eq]
  simp only [List.nil_append]
  refine (List.reverse_perm _).trans ?_
  have hsweep : ∀ p ∈ steffenColPairs 0 ((colCount : Int) - 1),
      steffenSpecSweep (buildSeatMap tkey ps) rowCount p.1 p.2
      = (pairKeys rowCount p.1 p.2).flatMap
          (fun k => (seatMapFind (buildSeatMap tkey ps) k).toList) :=
    fun p _ => sweep_keys _ _ _ _
  rw [List.flatMap_congr hsweep]
  rw [← List.flatMap_assoc]
  refine ((keysVisited_perm rowCount colCount).flatMap_right _).trans ?_
  refine (hcov.symm.flatMap_right _).trans ?_
  rw [keyList_flatMap_eq tkey ps hnd]




/-- **C4** (counterexample): on the grid compiled from `+S`—one seat,
lettered `B` by the leading `+`, so `colCount = 1` but the only column code
is 66—`arrangeSteffen` inside the simulation pipeline returns the empty
queue for the one-passenger list, which is not a permutation of it. -/
theorem strategy_permutation_cex :
    (simInit plusLayout .steffen (fun _ => 0)).pax.length = 1 ∧
    (generateAircraft plusLayout).rowCount = 1 ∧
    (generateAircraft plusLayout).colCount = 1 ∧
    (cellAt (generateAircraft plusLayout).cells 1).row = some 1 ∧
    (cellAt (generateAircraft plusLayout).cells 1).col = some 66 ∧
    (simInit plusLayout .steffen (fun _ => 0)).pending = [] ∧
    ¬ (List.Perm ((simInit plusLayout .steffen (fun _ => 0)).pending)
        (List.range (simInit plusLayout .steffen (fun _ => 0)).pax.length)) := by
  have hpend : (simInit plusLayout .steffen (fun _ => 0)).pending = [] := by
    unfold simInit
    dsimp only
    unfold arrangeSteffen
    rw [steffenLoop, dif_pos (by decide)]
    rw [steffenLoop, dif_neg (by decide)]
    decide
  refine ⟨by decide, by decide, by decide, by decide, by decide, hpend, ?_⟩
  rw [hpend]
  intro h
  have hlen := h.length_eq
  simp [show (simInit plusLayout .steffen (fun _ => 0)).pax.length = 1 from by decide] at hlen

/-- **C4** (amended): `arrangeBackFront`, `arrangeFrontBack` and
`arrangeRandom` always return a permutation of their input—`arrangeFrontBack`
twice restores the original order, and `arrangeRandom` preserves length and
set membership; `arrangeSteffen` returns a permutation provided the
passengers' target keys cover the full `rowCount × colCount` key grid
one-to-one (true of grids whose seat letters and rows are contiguous, but
violated by `+`-shifted letters or seatless row patterns). -/
theorem strategy_permutation_amended {α : Type} :
    (∀ (ps : List α), (arrangeBackFront ps).Perm ps) ∧
    (∀ (ps : List α), (arrangeFrontBack ps).Perm ps) ∧
    (∀ (ps : List α), arrangeFrontBack (arrangeFrontBack ps) = ps) ∧
    (∀ (rand : Nat → Nat) (ps : List α), (arrangeRandom rand ps).Perm ps ∧
      (arrangeRandom rand ps).length = ps.length ∧
      (∀ x, x ∈ arrangeRandom rand ps ↔ x ∈ ps)) ∧
    (∀ (tkey : α → Nat × Nat) (ps : List α) (rowCount colCount : Nat),
      (ps.map tkey).Perm (keyGrid rowCount colCount) →
      (arrangeSteffen tkey ps rowCount colCount).Perm ps) := by
  refine ⟨fun ps => List.Perm.refl ps, fun ps => List.reverse_perm ps,
    fun ps => by simp [arrangeFrontBack], fun rand ps => ?_,
    fun tkey ps rowCount colCount hcov => arrangeSteffen_perm tkey ps rowCount colCount hcov⟩
  have h := arrangeRandom_perm rand ps
  exact ⟨h, h.length_eq, fun x => h.mem_iff⟩

/-- Witness for the amended strategy-permutation theorem: the Steffen part
applied to the one-seat key grid, and the double-reverse part on a concrete
list. -/
theorem strategy_permutation_witness :
    (arrangeSteffen (fun k => k) [((1 : Nat), (65 : Nat))] 1 1).Perm
      [((1 : Nat), (65 : Nat))] ∧
    arrangeFrontBack (arrangeFrontBack [1, 2, 3]) = [1, 2, 3] :=
  ⟨(@strategy_permutation_amended (Nat × Nat)).2.2.2.2 (fun k => k)
      [((1 : Nat), (65 : Nat))] 1 1 (by decide),
   (@strategy_permutation_amended Nat).2.2.1 [1, 2, 3]⟩

theorem find?_first {α : Type} (p : α → Bool) : ∀ (l : List α) (a : α),
    l.find? p = some a ↔
      ∃ l1 l2, l = l1 ++ a :: l2 ∧ p a = true ∧ ∀ x ∈ l1, p x = false := by
  intro l
  induction l with
  | nil =>
    intro a
    simp
  | cons x xs ih =>
    intro a
    rw [List.find?_cons]
    by_cases hx : p x = true
    · rw [hx]
      constructor
      · intro h
        simp at h
        subst h
        exact ⟨[], xs, rfl, hx, by simp⟩
      · rintro ⟨l1, l2, hdec, hpa, hl1⟩
        cases l1 with
        | nil =>
          simp at hdec
          simp [hdec.1]
        | cons y l1' =>
          simp at hdec
          have hpy := hl1 y (by simp)
          rw [← hdec.1] at hpy
          rw [hpy] at hx
          simp at hx
    · simp only [Bool.not_eq_true] at hx
      rw [hx]
      rw [ih a]
      constructor
      · rintro ⟨l1, l2, hdec, hpa, hl1⟩
        refine ⟨x :: l1, l2, by simp [hdec], hpa, ?_⟩
        intro y hy
        rcases List.mem_cons.mp hy with h | h
        · subst h; exact hx
        · exact hl1 y h
      · rintro ⟨l1, l2, hdec, hpa, hl1⟩
        cases l1 with
        | nil =>
          simp at hdec
          rw [← hdec.1] at hpa
          rw [hpa] at hx
          simp at hx
        | cons y l1' =>
          simp at hdec
          exact ⟨l1', l2, hdec.2, hpa, fun z hz => hl1 z (by simp [hz])⟩

/-- **C9**: `Aircraft.findSeat` never raises: it is a total function of the
seat-id string; when the regex finds a digits-then-letters group pair the
result is exactly the first seat in the seat list whose row number equals the
digit group's value and whose column letter equals the letter group, and the
result is `none` both when the identifier does not parse and when no seat
matches. -/
theorem findSeat_characterisation (a : Aircraft) (seatId : List Char) :
    (reFind seatId = none → a.findSeat seatId = none) ∧
    (∀ digits letters, reFind seatId = some (digits, letters) →
      ((a.findSeat seatId = none ↔
          ∀ n ∈ a.seats, seatIdMatches a.cells digits letters n = false) ∧
       (∀ n, a.findSeat seatId = some n ↔
          ∃ l1 l2, a.seats = l1 ++ n :: l2 ∧
            seatIdMatches a.cells digits letters n = true ∧
            ∀ m ∈ l1, seatIdMatches a.cells digits letters m = false))) := by
  constructor
  · intro h
    unfold Aircraft.findSeat
    rw [h]
  · intro digits letters h
    constructor
    · unfold Aircraft.findSeat
      rw [h]
      simp only [List.find?_eq_none, Bool.not_eq_true]
    · intro n
      unfold Aircraft.findSeat
      rw [h]
      exact find?_first (seatIdMatches a.cells digits letters) a.seats n

/-- Witness: on the `SSA` grid, `findSeat "1B"` is seat cell 2, derived from
the characterisation with the explicit first-match decomposition. -/
theorem findSeat_characterisation_witness :
    (generateAircraft ssaLayout).findSeat ['1', 'B'] = some 2 :=
  (((findSeat_characterisation (generateAircraft ssaLayout) ['1', 'B']).2 ['1'] ['B']
    (by decide)).2 2).mpr ⟨[1], [], by decide, by decide, by decide⟩

theorem cellAt_setAt (cells : List Cell) (k : Nat) (f : Cell → Cell) (i : Nat)
    (hk : k < cells.length) :
    cellAt (setAt cells k f) i = if i = k then f (cellAt cells i) else cellAt cells i := by
  unfold cellAt
  by_cases h : i = k
  · subst h
    rw [if_pos rfl, getElem?_setAt_self]
    rcases hg : cells[i]? with _ | c
    · rw [List.getElem?_eq_none_iff] at hg
      omega
    · simp
  · rw [if_neg h, getElem?_setAt_ne cells k i f h]

theorem cellAt_append (cells : List Cell) (c : Cell) (i : Nat) :
    cellAt (cells ++ [c]) i = if i = cells.length then c else cellAt cells i := by
  unfold cellAt
  by_cases h : i = cells.length
  · subst h
    rw [if_pos rfl]
    simp
  · rw [if_neg h]
    by_cases h2 : i < cells.length
    · rw [List.getElem?_append_left h2]
    · have e1 : (cells ++ [c])[i]? = none := by
        rw [List.getElem?_eq_none_iff]
        simp only [List.length_append, List.length_cons, List.length_nil]
        omega
      have e2 : cells[i]? = none := by
        rw [List.getElem?_eq_none_iff]
        omega
      rw [e1, e2]

theorem reach_mono {next next' : Nat → Option Nat}
    (h : ∀ c u, next c = some u → next' c = some u) :
    ∀ {c t : Nat}, Reach next c t → Reach next' c t := by
  intro c t hr
  induction hr with
  | single hs => exact Reach.single (h _ _ hs)
  | step hs _ ih => exact Reach.step (h _ _ hs) ih

theorem reach_trans {next : Nat → Option Nat} :
    ∀ {a b c : Nat}, Reach next a b → Reach next b c → Reach next a c := by
  intro a b c h1 h2
  induction h1 with
  | single hs => exact Reach.step hs h2
  | step hs _ ih => exact Reach.step hs (ih h2)

/-! ### Preservation of the construction invariant by `stepChar` -/

theorem buildInv_seat_none (b : BState) (s0 si j : Nat)
    (inv : BuildInv b none s0 si) :
    BuildInv
      { b with ac := (addCell { b.ac with seats := b.ac.seats ++ [b.ac.cells.length] }
          { x := b.x, y := (j : Int) * 64, row := some b.rowIndex, col := some (65 + si),
            up := none }) }
      (some b.ac.cells.length) s0 (si + 1) := by
  set n := b.ac.cells.length with hn
  set newCell : Cell := { x := b.x, y := (j : Int) * 64, row := some b.rowIndex, col := some (65 + si), up := none } with hnew
  have hs0 : b.ac.cells.length = s0 := inv.pcNone rfl
  have hcell : ∀ i, cellAt (b.ac.cells ++ [newCell]) i
      = if i = n then newCell else cellAt b.ac.cells i := fun i => cellAt_append _ _ _
  have hlen : (b.ac.cells ++ [newCell]).length = n + 1 := by simp
  have hoor : ∀ i, n ≤ i → cellAt b.ac.cells i = default := by
    intro i hi
    unfold cellAt
    rw [List.getElem?_eq_none_iff.mpr (by omega)]
    rfl
  constructor
  case s0_pos => exact inv.s0_pos
  case s0_le => simp only [addCell, hlen]; omega
  case sym =>
    intro i k
    have hi := hcell i
    have hk := hcell k
    have hbi := inv.bound i k
    simp only [addCell]
    refine ⟨?_, ?_, ?_, ?_⟩ <;> intro hlink
    · rw [hk]
      rw [hi] at hlink
      by_cases hin : i = n
      · rw [if_pos hin] at hlink
        simp [hnew] at hlink
      · rw [if_neg hin] at hlink
        have hkn : k ≠ n := by
          intro he
          have := hbi (Or.inl hlink)
          omega
        rw [if_neg hkn]
        exact (inv.sym i k).1 hlink
    · rw [hk]
      rw [hi] at hlink
      by_cases hin : i = n
      · rw [if_pos hin] at hlink
        simp [hnew] at hlink
      · rw [if_neg hin] at hlink
        have hkn : k ≠ n := by
          intro he
          have := hbi (Or.inr (Or.inl hlink))
          omega
        rw [if_neg hkn]
        exact (inv.sym i k).2.1 hlink
    · rw [hk]
      rw [hi] at hlink
      by_cases hin : i = n
      · rw [if_pos hin] at hlink
        simp [hnew] at hlink
      · rw [if_neg hin] at hlink
        have hkn : k ≠ n := by
          intro he
          have := hbi (Or.inr (Or.inr (Or.inl hlink)))
          omega
        rw [if_neg hkn]
        exact (inv.sym i k).2.2.1 hlink
    · rw [hk]
      rw [hi] at hlink
      by_cases hin : i = n
      · rw [if_pos hin] at hlink
        simp [hnew] at hlink
      · rw [if_neg hin] at hlink
        have hkn : k ≠ n := by
          intro he
          have := hbi (Or.inr (Or.inr (Or.inr hlink)))
          omega
        rw [if_neg hkn]
        exact (inv.sym i k).2.2.2 hlink
  case bound =>
    intro i k hlink
    simp only [addCell, hlen]
    simp only [addCell] at hlink
    rw [hcell i] at hlink
    by_cases hin : i = n
    · rw [if_pos hin] at hlink
      simp [hnew] at hlink
    · rw [if_neg hin] at hlink
      have := inv.bound i k hlink
      omega
  case order =>
    intro i k
    have hi := hcell i
    simp only [addCell]
    refine ⟨?_, ?_, ?_, ?_⟩ <;> intro hlink <;> rw [hi] at hlink
    · by_cases hin : i = n
      · rw [if_pos hin] at hlink; simp [hnew] at hlink
      · rw [if_neg hin] at hlink; exact (inv.order i k).1 hlink
    · by_cases hin : i = n
      · rw [if_pos hin] at hlink; simp [hnew] at hlink
      · rw [if_neg hin] at hlink; exact (inv.order i k).2.1 hlink
    · by_cases hin : i = n
      · rw [if_pos hin] at hlink; simp [hnew] at hlink
      · rw [if_neg hin] at hlink; exact (inv.order i k).2.2.1 hlink
    · by_cases hin : i = n
      · rw [if_pos hin] at hlink; simp [hnew] at hlink
      · rw [if_neg hin] at hlink; exact (inv.order i k).2.2.2 hlink
  case noEntry =>
    intro i
    simp only [addCell]
    rw [hcell i]
    by_cases hin : i = n
    · rw [if_pos hin]
      simp [hnew]
    · rw [if_neg hin]
      exact inv.noEntry i
  case empty =>
    intro i
    simp only [addCell]
    rw [hcell i]
    by_cases hin : i = n
    · rw [if_pos hin]
    · rw [if_neg hin]
      exact inv.empty i
  case seatsOk =>
    intro m hm
    simp only [addCell, hlen]
    simp only [addCell] at hm
    rw [hcell m]
    simp only [List.mem_append, List.mem_singleton] at hm
    rcases hm with hm | hm
    · have := inv.seatsOk m hm
      have hmn : m ≠ n := by omega
      rw [if_neg hmn]
      exact ⟨by omega, this.2⟩
    · subst hm
      rw [if_pos rfl]
      simp [hnew]
  case rowColIff =>
    intro i
    simp only [addCell]
    rw [hcell i]
    by_cases hin : i = n
    · rw [if_pos hin]
      simp [hnew]
    · rw [if_neg hin]
      exact inv.rowColIff i
  case rowLe =>
    intro i r
    simp only [addCell]
    rw [hcell i]
    by_cases hin : i = n
    · rw [if_pos hin]
      intro h
      simp [hnew] at h
      omega
    · rw [if_neg hin]
      exact inv.rowLe i r
  case rowStrip =>
    intro i h1 h2
    simp only [addCell]
    rw [hcell i]
    by_cases hin : i = n
    · rw [if_pos hin]
      right
      rfl
    · rw [if_neg hin]
      simp only [addCell, hlen] at h2
      exact inv.rowStrip i h1 (by omega)
  case rowOld =>
    intro i r h1
    simp only [addCell]
    rw [hcell i]
    have hin : i ≠ n := by omega
    rw [if_neg hin]
    exact inv.rowOld i r h1
  case colStrip =>
    intro i k h1
    simp only [addCell]
    rw [hcell i]
    by_cases hin : i = n
    · rw [if_pos hin]
      intro h
      simp [hnew] at h
      omega
    · rw [if_neg hin]
      intro h
      have := inv.colStrip i k h1 h
      omega
  case vertStrip =>
    intro c d hlink
    simp only [addCell] at hlink
    rw [hcell c] at hlink
    by_cases hcn : c = n
    · rw [if_pos hcn] at hlink
      simp [hnew] at hlink
    · rw [if_neg hcn] at hlink
      exact inv.vertStrip c d hlink
  case upEntry =>
    intro c u t r cu ct h1 h2 h3 h4 h5 h6
    simp only [addCell] at h1 h2 h3 h4 h5
    rw [hcell c] at h1
    rw [hcell t] at h3
    rw [hcell t] at h5
    by_cases hcn : c = n
    · rw [if_pos hcn] at h1
      simp [hnew] at h1
    · rw [if_neg hcn] at h1
      have hun : u ≠ n := by
        intro he
        have := inv.bound c u (Or.inr (Or.inr (Or.inr h1)))
        omega
      rw [hcell u] at h2 h4
      rw [if_neg hun] at h2 h4
      by_cases htn : t = n
      · -- the new seat has row = rowIndex; u would be an old cell of the same row,
        -- impossible since old rows in the strip are bounded... u old with row rowIndex means u ≥ s0
        rw [if_pos htn] at h3 h5
        simp [hnew] at h3 h5
        -- h3 : r = b.rowIndex?? careful direction
        -- u is old (u ≠ n, and bounded), row u = some r = some rowIndex
        -- but old cells with some row... s0 = len means NO strip cells; rowOld: u < s0 → row < rowIndex
        have hu_lt : u < n := by
          by_cases h : u < n
          · exact h
          · exfalso
            have := hoor u (by omega)
            rw [this] at h2
            simp at h2
        have := inv.rowOld u r (by omega) h2
        omega
      · rw [if_neg htn] at h3 h5
        have hreach := inv.upEntry c u t r cu ct h1 h2 h3 h4 h5 h6
        refine reach_mono ?_ hreach
        intro a b hab
        unfold nextUp at hab ⊢
        simp only [addCell]
        rw [hcell a]
        have han : a ≠ n := by
          intro he
          rw [he, hoor n (Nat.le_refl n)] at hab
          simp at hab
        rw [if_neg han]
        exact hab
  case downEntry =>
    intro c d t r cd ct h1 h2 h3 h4 h5 h6
    simp only [addCell] at h1 h2 h3 h4 h5
    rw [hcell c] at h1
    rw [hcell t] at h3
    rw [hcell t] at h5
    by_cases hcn : c = n
    · rw [if_pos hcn] at h1
      simp [hnew] at h1
    · rw [if_neg hcn] at h1
      have hdn : d ≠ n := by
        intro he
        have := inv.bound c d (Or.inr (Or.inr (Or.inl h1)))
        omega
      rw [hcell d] at h2 h4
      rw [if_neg hdn] at h2 h4
      by_cases htn : t = n
      · rw [if_pos htn] at h3 h5
        simp [hnew] at h3 h5
        have hd_lt : d < n := by
          by_cases h : d < n
          · exact h
          · exfalso
            have := hoor d (by omega)
            rw [this] at h2
            simp at h2
        have := inv.rowOld d r (by omega) h2
        omega
      · rw [if_neg htn] at h3 h5
        have hreach := inv.downEntry c d t r cd ct h1 h2 h3 h4 h5 h6
        refine reach_mono ?_ hreach
        intro a b hab
        unfold nextDown at hab ⊢
        simp only [addCell]
        rw [hcell a]
        have han : a ≠ n := by
          intro he
          rw [he, hoor n (Nat.le_refl n)] at hab
          simp at hab
        rw [if_neg han]
        exact hab
  case paLt =>
    simp only [addCell, hlen]
    have := inv.paLt
    omega
  case paRight =>
    simp only [addCell]
    rw [hcell b.prevAisle]
    have : b.prevAisle ≠ n := by
      have := inv.paLt
      omega
    rw [if_neg this]
    exact inv.paRight
  case pcNone =>
    intro h
    simp at h
  case pcLast =>
    intro p hp
    simp only [Option.some.injEq] at hp
    subst hp
    simp only [addCell, hlen]
    refine ⟨trivial, by omega, ?_⟩
    rw [hcell n, if_pos rfl]
  case pcUp =>
    intro p hp c h1 h2
    simp only [Option.some.injEq] at hp
    subst hp
    simp only [addCell, hlen] at h2
    left
    omega
  case pcDown =>
    intro p hp c h1 h2
    simp only [Option.some.injEq] at hp
    subst hp
    simp only [addCell, hlen] at h2
    left
    omega

theorem buildInv_seat_some (b : BState) (p s0 si j : Nat)
    (inv : BuildInv b (some p) s0 si) :
    BuildInv
      { b with ac := (addCell
          { b.ac with seats := b.ac.seats ++ [b.ac.cells.length],
                      cells := setAt b.ac.cells p (cellUpdDown b.ac.cells.length) }
          { x := b.x, y := (j : Int) * 64, row := some b.rowIndex, col := some (65 + si), up := some p }) }
      (some b.ac.cells.length) s0 (si + 1) := by
  set n := b.ac.cells.length with hn
  obtain ⟨hp1, hp2, hp3⟩ := inv.pcLast p rfl
  have hpn : p < n := by omega
  set newCell : Cell := { x := b.x, y := (j : Int) * 64, row := some b.rowIndex, col := some (65 + si), up := some p } with hnew
  have hsl : (setAt b.ac.cells p (cellUpdDown n)).length = n := setAt_length _ _ _
  have hlen : (setAt b.ac.cells p (cellUpdDown n) ++ [newCell]).length = n + 1 := by
    simp [hsl]
  have hoor : ∀ i, n ≤ i → cellAt b.ac.cells i = default := by
    intro i hi
    unfold cellAt
    rw [List.getElem?_eq_none_iff.mpr (by omega)]
    rfl
  have hcell : ∀ i, cellAt (setAt b.ac.cells p (cellUpdDown n) ++ [newCell]) i
      = if i = n then newCell
        else if i = p then cellUpdDown n (cellAt b.ac.cells p)
        else cellAt b.ac.cells i := by
    intro i
    rw [cellAt_append, hsl]
    by_cases hin : i = n
    · rw [if_pos hin, if_pos hin]
    · rw [if_neg hin, if_neg hin, cellAt_setAt _ _ _ _ (by omega)]
      by_cases hip : i = p
      · rw [if_pos hip, if_pos hip, hip]
      · rw [if_neg hip, if_neg hip]
  have hup : ∀ k, k ≠ n →
      (cellAt (setAt b.ac.cells p (cellUpdDown n) ++ [newCell]) k).up = (cellAt b.ac.cells k).up := by
    intro k hk
    rw [hcell k, if_neg hk]
    by_cases hkp : k = p
    · rw [if_pos hkp, hkp]
      rfl
    · rw [if_neg hkp]
  have hleft : ∀ k, k ≠ n →
      (cellAt (setAt b.ac.cells p (cellUpdDown n) ++ [newCell]) k).left = (cellAt b.ac.cells k).left := by
    intro k hk
    rw [hcell k, if_neg hk]
    by_cases hkp : k = p
    · rw [if_pos hkp, hkp]
      rfl
    · rw [if_neg hkp]
  have hright : ∀ k, k ≠ n →
      (cellAt (setAt b.ac.cells p (cellUpdDown n) ++ [newCell]) k).right = (cellAt b.ac.cells k).right := by
    intro k hk
    rw [hcell k, if_neg hk]
    by_cases hkp : k = p
    · rw [if_pos hkp, hkp]
      rfl
    · rw [if_neg hkp]
  have hrow : ∀ k, k ≠ n →
      (cellAt (setAt b.ac.cells p (cellUpdDown n) ++ [newCell]) k).row = (cellAt b.ac.cells k).row := by
    intro k hk
    rw [hcell k, if_neg hk]
    by_cases hkp : k = p
    · rw [if_pos hkp, hkp]
      rfl
    · rw [if_neg hkp]
  have hcol : ∀ k, k ≠ n →
      (cellAt (setAt b.ac.cells p (cellUpdDown n) ++ [newCell]) k).col = (cellAt b.ac.cells k).col := by
    intro k hk
    rw [hcell k, if_neg hk]
    by_cases hkp : k = p
    · rw [if_pos hkp, hkp]
      rfl
    · rw [if_neg hkp]
  have hcont : ∀ k, k ≠ n →
      (cellAt (setAt b.ac.cells p (cellUpdDown n) ++ [newCell]) k).contents = (cellAt b.ac.cells k).contents := by
    intro k hk
    rw [hcell k, if_neg hk]
    by_cases hkp : k = p
    · rw [if_pos hkp, hkp]
      rfl
    · rw [if_neg hkp]
  have hdown : ∀ k, k ≠ n → k ≠ p →
      (cellAt (setAt b.ac.cells p (cellUpdDown n) ++ [newCell]) k).down = (cellAt b.ac.cells k).down := by
    intro k hk hkp
    rw [hcell k, if_neg hk, if_neg hkp]
  have hdp : (cellAt (setAt b.ac.cells p (cellUpdDown n) ++ [newCell]) p).down = some n := by
    rw [hcell p, if_neg (by omega), if_pos rfl]
    rfl
  have hnCell : cellAt (setAt b.ac.cells p (cellUpdDown n) ++ [newCell]) n = newCell := by
    rw [hcell n, if_pos rfl]
  have hmonoU : ∀ a c, nextUp b.ac.cells a = some c →
      nextUp (setAt b.ac.cells p (cellUpdDown n) ++ [newCell]) a = some c := by
    intro a c h
    unfold nextUp at h ⊢
    by_cases han : a = n
    · rw [han, hoor n (Nat.le_refl n)] at h
      simp at h
    · rw [hup a han]
      exact h
  have hmonoD : ∀ a c, nextDown b.ac.cells a = some c →
      nextDown (setAt b.ac.cells p (cellUpdDown n) ++ [newCell]) a = some c := by
    intro a c h
    unfold nextDown at h ⊢
    by_cases han : a = n
    · rw [han, hoor n (Nat.le_refl n)] at h
      simp at h
    · by_cases hap : a = p
      · rw [hap, hp3] at h
        simp at h
      · rw [hdown a han hap]
        exact h
  constructor
  case s0_pos => exact inv.s0_pos
  case s0_le =>
    simp only [addCell, hlen]
    omega
  case sym =>
    intro i k
    simp only [addCell]
    refine ⟨?_, ?_, ?_, ?_⟩ <;> intro hlink
    · -- right → left
      by_cases hin : i = n
      · rw [hin, hnCell] at hlink
        simp [hnew] at hlink
      · rw [hright i hin] at hlink
        have hkn : k ≠ n := by
          intro he
          have := inv.bound i k (Or.inl hlink)
          omega
        rw [hleft k hkn]
        exact (inv.sym i k).1 hlink
    · -- left → right
      by_cases hin : i = n
      · rw [hin, hnCell] at hlink
        simp [hnew] at hlink
      · rw [hleft i hin] at hlink
        have hkn : k ≠ n := by
          intro he
          have := inv.bound i k (Or.inr (Or.inl hlink))
          omega
        rw [hright k hkn]
        exact (inv.sym i k).2.1 hlink
    · -- down → up
      by_cases hin : i = n
      · rw [hin, hnCell] at hlink
        simp [hnew] at hlink
      · by_cases hip : i = p
        · rw [hip, hdp] at hlink
          have hk : k = n := Eq.symm (by simpa using hlink)
          rw [hk, hnCell, hip]
        · rw [hdown i hin hip] at hlink
          have hkn : k ≠ n := by
            intro he
            have := inv.bound i k (Or.inr (Or.inr (Or.inl hlink)))
            omega
          rw [hup k hkn]
          exact (inv.sym i k).2.2.1 hlink
    · -- up → down
      by_cases hin : i = n
      · rw [hin, hnCell] at hlink
        have hk : k = p := Eq.symm (by simpa [hnew] using hlink)
        rw [hk, hdp, hin]
      · rw [hup i hin] at hlink
        have hkn : k ≠ n := by
          intro he
          have := inv.bound i k (Or.inr (Or.inr (Or.inr hlink)))
          omega
        have hkp : k ≠ p := by
          intro he
          rw [he] at hlink
          have := (inv.sym i p).2.2.2 hlink
          rw [hp3] at this
          exact Option.noConfusion this
        rw [hdown k hkn hkp]
        exact (inv.sym i k).2.2.2 hlink
  case bound =>
    intro i k hlink
    simp only [addCell, hlen] at hlink ⊢
    by_cases hin : i = n
    · rw [hin, hnCell] at hlink
      simp [hnew] at hlink
      omega
    · by_cases hip : i = p
      · rcases hlink with h | h | h | h
        · rw [hright i hin] at h
          have := inv.bound i k (Or.inl h)
          omega
        · rw [hleft i hin] at h
          have := inv.bound i k (Or.inr (Or.inl h))
          omega
        · rw [hip, hdp] at h
          have : n = k := by simpa using h
          omega
        · rw [hup i hin] at h
          have := inv.bound i k (Or.inr (Or.inr (Or.inr h)))
          omega
      · rcases hlink with h | h | h | h
        · rw [hright i hin] at h
          have := inv.bound i k (Or.inl h)
          omega
        · rw [hleft i hin] at h
          have := inv.bound i k (Or.inr (Or.inl h))
          omega
        · rw [hdown i hin hip] at h
          have := inv.bound i k (Or.inr (Or.inr (Or.inl h)))
          omega
        · rw [hup i hin] at h
          have := inv.bound i k (Or.inr (Or.inr (Or.inr h)))
          omega
  case order =>
    intro i k
    simp only [addCell]
    refine ⟨?_, ?_, ?_, ?_⟩ <;> intro hlink
    · by_cases hin : i = n
      · rw [hin, hnCell] at hlink
        simp [hnew] at hlink
      · by_cases hip : i = p
        · rw [hip, hdp] at hlink
          have : n = k := by simpa using hlink
          omega
        · rw [hdown i hin hip] at hlink
          exact (inv.order i k).1 hlink
    · by_cases hin : i = n
      · rw [hin, hnCell] at hlink
        have : p = k := by simpa [hnew] using hlink
        omega
      · rw [hup i hin] at hlink
        exact (inv.order i k).2.1 hlink
    · by_cases hin : i = n
      · rw [hin, hnCell] at hlink
        simp [hnew] at hlink
      · rw [hright i hin] at hlink
        exact (inv.order i k).2.2.1 hlink
    · by_cases hin : i = n
      · rw [hin, hnCell] at hlink
        simp [hnew] at hlink
      · rw [hleft i hin] at hlink
        exact (inv.order i k).2.2.2 hlink
  case noEntry =>
    intro i
    simp only [addCell]
    have hs1 := inv.s0_pos
    by_cases hin : i = n
    · rw [hin, hnCell]
      refine ⟨by simp [hnew], by simp [hnew], ?_⟩
      simp only [hnew]
      intro h
      have : p = 0 := by simpa using h
      omega
    · by_cases hip : i = p
      · refine ⟨?_, ?_, ?_⟩
        · rw [hright i hin]
          exact (inv.noEntry i).1
        · rw [hip, hdp]
          intro h
          have : n = 0 := by simpa using h
          omega
        · rw [hup i hin]
          exact (inv.noEntry i).2.2
      · refine ⟨?_, ?_, ?_⟩
        · rw [hright i hin]
          exact (inv.noEntry i).1
        · rw [hdown i hin hip]
          exact (inv.noEntry i).2.1
        · rw [hup i hin]
          exact (inv.noEntry i).2.2
  case empty =>
    intro i
    simp only [addCell]
    by_cases hin : i = n
    · rw [hin, hnCell]
    · rw [hcont i hin]
      exact inv.empty i
  case seatsOk =>
    intro m hm
    simp only [addCell, hlen] at hm ⊢
    simp only [List.mem_append, List.mem_singleton] at hm
    rcases hm with hm | hm
    · have h1 := inv.seatsOk m hm
      have hmn : m ≠ n := by omega
      rw [hrow m hmn, hcol m hmn]
      exact ⟨by omega, h1.2⟩
    · subst hm
      rw [hnCell]
      simp [hnew]
  case rowColIff =>
    intro i
    simp only [addCell]
    by_cases hin : i = n
    · rw [hin, hnCell]
      simp [hnew]
    · rw [hrow i hin, hcol i hin]
      exact inv.rowColIff i
  case rowLe =>
    intro i r
    simp only [addCell]
    by_cases hin : i = n
    · rw [hin, hnCell]
      intro h
      have : b.rowIndex = r := by simpa [hnew] using h
      omega
    · rw [hrow i hin]
      exact inv.rowLe i r
  case rowStrip =>
    intro i h1 h2
    simp only [addCell, hlen] at h2 ⊢
    by_cases hin : i = n
    · rw [hin, hnCell]
      right
      rfl
    · rw [hrow i hin]
      exact inv.rowStrip i h1 (by omega)
  case rowOld =>
    intro i r h1
    simp only [addCell]
    have hin : i ≠ n := by omega
    rw [hrow i hin]
    exact inv.rowOld i r h1
  case colStrip =>
    intro i k h1
    simp only [addCell]
    by_cases hin : i = n
    · rw [hin, hnCell]
      intro h
      have : 65 + si = k := by simpa [hnew] using h
      omega
    · rw [hcol i hin]
      intro h
      have := inv.colStrip i k h1 h
      omega
  case vertStrip =>
    intro c d hlink
    simp only [addCell] at hlink
    by_cases hcn : c = n
    · rw [hcn, hnCell] at hlink
      rcases hlink with h | h
      · simp [hnew] at h
      · have hd2 : d = p := Eq.symm (by simpa [hnew] using h)
        rw [hcn, hd2]
        omega
    · by_cases hcp : c = p
      · rcases hlink with h | h
        · rw [hcp, hdp] at h
          have hd2 : d = n := Eq.symm (by simpa using h)
          rw [hcp, hd2]
          omega
        · rw [hup c hcn] at h
          exact inv.vertStrip c d (Or.inr h)
      · rcases hlink with h | h
        · rw [hdown c hcn hcp] at h
          exact inv.vertStrip c d (Or.inl h)
        · rw [hup c hcn] at h
          exact inv.vertStrip c d (Or.inr h)
  case upEntry =>
    intro c u t r cu ct h1 h2 h3 h4 h5 h6
    simp only [addCell] at h1 h2 h3 h4 h5 ⊢
    by_cases hcn : c = n
    · -- the new seat: u = p
      rw [hcn, hnCell] at h1
      have hup' : u = p := Eq.symm (by simpa [hnew] using h1)
      subst hup'
      have hun : u ≠ n := by omega
      rw [hrow u hun] at h2
      rw [hcol u hun] at h4
      -- u is a strip cell: its row is the current row and its col < 65 + si
      have hcu : cu < 65 + si := inv.colStrip u cu hp2 h4
      have hrr : r = b.rowIndex := by
        rcases inv.rowStrip u hp2 (by omega) with h | h
        · rw [h] at h2
          exact Option.noConfusion h2
        · rw [h] at h2
          simpa using h2.symm
      by_cases htn : t = n
      · -- the new seat's col is 65 + si > cu: vacuous
        rw [htn, hnCell] at h5
        have : 65 + si = ct := by simpa [hnew] using h5
        omega
      · rw [hrow t htn] at h3
        rw [hcol t htn] at h5
        have htlt : t < n := by
          by_cases h : t < n
          · exact h
          · exfalso
            rw [hoor t (by omega)] at h3
            exact Option.noConfusion h3
        have hts0 : s0 ≤ t := by
          by_cases h : s0 ≤ t
          · exact h
          · exfalso
            have := inv.rowOld t r (by omega) h3
            omega
        have hstep : nextUp (setAt b.ac.cells u (cellUpdDown n) ++ [newCell]) n = some u := by
          unfold nextUp
          rw [hnCell]
        rcases inv.pcUp u rfl t hts0 htlt with h | h
        · rw [hcn, h]
          exact Reach.single hstep
        · rw [hcn]
          exact Reach.step hstep (reach_mono hmonoU h)
    · rw [hup c hcn] at h1
      have hun : u ≠ n := by
        intro he
        have := inv.bound c u (Or.inr (Or.inr (Or.inr h1)))
        omega
      have hupn : u ≠ p := by
        intro he
        rw [he] at h1
        have := (inv.sym c p).2.2.2 h1
        rw [hp3] at this
        exact Option.noConfusion this
      rw [hrow u hun] at h2
      rw [hcol u hun] at h4
      by_cases htn : t = n
      · -- u is an old cell with the current row: it is in the strip, so cu < 65 + si = ct
        rw [htn, hnCell] at h3 h5
        have hrr : r = b.rowIndex := by simpa [hnew] using h3.symm
        have hct : 65 + si = ct := by simpa [hnew] using h5
        have hu_lt : u < n := by
          by_cases h : u < n
          · exact h
          · exfalso
            rw [hoor u (by omega)] at h2
            exact Option.noConfusion h2
        have hus0 : s0 ≤ u := by
          by_cases h : s0 ≤ u
          · exact h
          · exfalso
            have := inv.rowOld u r (by omega) h2
            omega
        have := inv.colStrip u cu hus0 h4
        omega
      · rw [hrow t htn] at h3
        rw [hcol t htn] at h5
        exact reach_mono hmonoU (inv.upEntry c u t r cu ct h1 h2 h3 h4 h5 h6)
  case downEntry =>
    intro c d t r cd ct h1 h2 h3 h4 h5 h6
    simp only [addCell] at h1 h2 h3 h4 h5 ⊢
    by_cases hcn : c = n
    · rw [hcn, hnCell] at h1
      simp [hnew] at h1
    · by_cases hcp : c = p
      · -- the new link p -> n; the target row is the current row
        rw [hcp, hdp] at h1
        have hdn : d = n := Eq.symm (by simpa using h1)
        subst hdn
        rw [hnCell] at h2 h4
        have hrr : r = b.rowIndex := by simpa [hnew] using h2.symm
        have hcd : 65 + si = cd := by simpa [hnew] using h4
        by_cases htn : t = n
        · rw [hcp, htn]
          refine Reach.single ?_
          unfold nextDown
          exact hdp
        · -- an old cell of the current row is a strip cell with col < 65 + si: vacuous
          rw [hrow t htn] at h3
          rw [hcol t htn] at h5
          have htlt : t < n := by
            by_cases h : t < n
            · exact h
            · exfalso
              rw [hoor t (by omega)] at h3
              exact Option.noConfusion h3
          have hts0 : s0 ≤ t := by
            by_cases h : s0 ≤ t
            · exact h
            · exfalso
              have := inv.rowOld t r (by omega) h3
              omega
          have := inv.colStrip t ct hts0 h5
          omega
      · rw [hdown c hcn hcp] at h1
        have hdn : d ≠ n := by
          intro he
          have := inv.bound c d (Or.inr (Or.inr (Or.inl h1)))
          omega
        rw [hrow d hdn] at h2
        rw [hcol d hdn] at h4
        by_cases htn : t = n
        · -- d is a strip cell, the chain c -> d ⇒ p -> n reaches the new seat
          rw [htn, hnCell] at h3 h5
          have hrr : r = b.rowIndex := by simpa [hnew] using h3.symm
          have hd_lt : d < n := by
            by_cases h : d < n
            · exact h
            · exfalso
              rw [hoor d (by omega)] at h2
              exact Option.noConfusion h2
          have hds0 : s0 ≤ d := by
            by_cases h : s0 ≤ d
            · exact h
            · exfalso
              have := inv.rowOld d r (by omega) h2
              omega
          have hstep1 : nextDown (setAt b.ac.cells p (cellUpdDown n) ++ [newCell]) c = some d := by
            unfold nextDown
            rw [hdown c hcn hcp]
            exact h1
          have hstep2 : nextDown (setAt b.ac.cells p (cellUpdDown n) ++ [newCell]) p = some n := by
            unfold nextDown
            exact hdp
          rw [htn]
          rcases inv.pcDown p rfl d hds0 hd_lt with h | h
          · rw [h] at hstep1
            exact Reach.step hstep1 (Reach.single hstep2)
          · exact Reach.step hstep1 (reach_trans (reach_mono hmonoD h) (Reach.single hstep2))
        · rw [hrow t htn] at h3
          rw [hcol t htn] at h5
          exact reach_mono hmonoD (inv.downEntry c d t r cd ct h1 h2 h3 h4 h5 h6)
  case paLt =>
    simp only [addCell, hlen]
    have := inv.paLt
    omega
  case paRight =>
    simp only [addCell]
    have hpa : b.prevAisle ≠ n := by
      have := inv.paLt
      omega
    rw [hright b.prevAisle hpa]
    exact inv.paRight
  case pcNone =>
    intro h
    simp at h
  case pcLast =>
    intro q hq
    simp only [Option.some.injEq] at hq
    subst hq
    simp only [addCell, hlen]
    refine ⟨trivial, by omega, ?_⟩
    rw [hnCell]
  case pcUp =>
    intro q hq c hc1 hc2
    simp only [Option.some.injEq] at hq
    subst hq
    simp only [addCell, hlen] at hc2
    by_cases hcn : c = n
    · left
      exact hcn
    · right
      have hstep : nextUp (setAt b.ac.cells p (cellUpdDown n) ++ [newCell]) n = some p := by
        unfold nextUp
        rw [hnCell]
      rcases inv.pcUp p rfl c hc1 (by omega) with h | h
      · rw [h]
        exact Reach.single hstep
      · exact Reach.step hstep (reach_mono hmonoU h)
  case pcDown =>
    intro q hq c hc1 hc2
    simp only [Option.some.injEq] at hq
    subst hq
    simp only [addCell, hlen] at hc2
    by_cases hcn : c = n
    · left
      exact hcn
    · right
      have hstep2 : nextDown (setAt b.ac.cells p (cellUpdDown n) ++ [newCell]) p = some n := by
        unfold nextDown
        exact hdp
      rcases inv.pcDown p rfl c hc1 (by omega) with h | h
      · rw [h]
        exact Reach.single hstep2
      · exact reach_trans (reach_mono hmonoD h) (Reach.single hstep2)

theorem buildInv_aisle_none (b : BState) (s0 si j : Nat)
    (inv : BuildInv b none s0 si) :
    BuildInv
      { b with
        ac := (addCell
          { b.ac with cells := setAt b.ac.cells b.prevAisle (cellUpdRight b.ac.cells.length ((j : Int) * 64)) }
          { x := b.x, y := (j : Int) * 64, left := some b.prevAisle, up := none }),
        prevAisle := b.ac.cells.length }
      (some b.ac.cells.length) s0 si := by
  set n := b.ac.cells.length with hn
  set pa := b.prevAisle with hpa
  have hs0 : b.ac.cells.length = s0 := inv.pcNone rfl
  have hpan : pa < n := inv.paLt
  have hparn : (cellAt b.ac.cells pa).right = none := inv.paRight
  set newCell : Cell := { x := b.x, y := (j : Int) * 64, left := some pa, up := none } with hnew
  have hsl : (setAt b.ac.cells pa (cellUpdRight n ((j : Int) * 64))).length = n := setAt_length _ _ _
  have hlen : (setAt b.ac.cells pa (cellUpdRight n ((j : Int) * 64)) ++ [newCell]).length = n + 1 := by
    simp [hsl]
  have hoor : ∀ i, n ≤ i → cellAt b.ac.cells i = default := by
    intro i hi
    unfold cellAt
    rw [List.getElem?_eq_none_iff.mpr (by omega)]
    rfl
  have hcell : ∀ i, cellAt (setAt b.ac.cells pa (cellUpdRight n ((j : Int) * 64)) ++ [newCell]) i
      = if i = n then newCell
        else if i = pa then cellUpdRight n ((j : Int) * 64) (cellAt b.ac.cells pa)
        else cellAt b.ac.cells i := by
    intro i
    rw [cellAt_append, hsl]
    by_cases hin : i = n
    · rw [if_pos hin, if_pos hin]
    · rw [if_neg hin, if_neg hin, cellAt_setAt _ _ _ _ (by omega)]
      by_cases hip : i = pa
      · rw [if_pos hip, if_pos hip, hip]
      · rw [if_neg hip, if_neg hip]
  have hup : ∀ k, k ≠ n →
      (cellAt (setAt b.ac.cells pa (cellUpdRight n ((j : Int) * 64)) ++ [newCell]) k).up = (cellAt b.ac.cells k).up := by
    intro k hk
    rw [hcell k, if_neg hk]
    by_cases hkp : k = pa
    · rw [if_pos hkp, hkp]
      rfl
    · rw [if_neg hkp]
  have hdown : ∀ k, k ≠ n →
      (cellAt (setAt b.ac.cells pa (cellUpdRight n ((j : Int) * 64)) ++ [newCell]) k).down = (cellAt b.ac.cells k).down := by
    intro k hk
    rw [hcell k, if_neg hk]
    by_cases hkp : k = pa
    · rw [if_pos hkp, hkp]
      rfl
    · rw [if_neg hkp]
  have hleft : ∀ k, k ≠ n →
      (cellAt (setAt b.ac.cells pa (cellUpdRight n ((j : Int) * 64)) ++ [newCell]) k).left = (cellAt b.ac.cells k).left := by
    intro k hk
    rw [hcell k, if_neg hk]
    by_cases hkp : k = pa
    · rw [if_pos hkp, hkp]
      rfl
    · rw [if_neg hkp]
  have hrow : ∀ k, k ≠ n →
      (cellAt (setAt b.ac.cells pa (cellUpdRight n ((j : Int) * 64)) ++ [newCell]) k).row = (cellAt b.ac.cells k).row := by
    intro k hk
    rw [hcell k, if_neg hk]
    by_cases hkp : k = pa
    · rw [if_pos hkp, hkp]
      rfl
    · rw [if_neg hkp]
  have hcol : ∀ k, k ≠ n →
      (cellAt (setAt b.ac.cells pa (cellUpdRight n ((j : Int) * 64)) ++ [newCell]) k).col = (cellAt b.ac.cells k).col := by
    intro k hk
    rw [hcell k, if_neg hk]
    by_cases hkp : k = pa
    · rw [if_pos hkp, hkp]
      rfl
    · rw [if_neg hkp]
  have hcont : ∀ k, k ≠ n →
      (cellAt (setAt b.ac.cells pa (cellUpdRight n ((j : Int) * 64)) ++ [newCell]) k).contents = (cellAt b.ac.cells k).contents := by
    intro k hk
    rw [hcell k, if_neg hk]
    by_cases hkp : k = pa
    · rw [if_pos hkp, hkp]
      rfl
    · rw [if_neg hkp]
  have hright : ∀ k, k ≠ n → k ≠ pa →
      (cellAt (setAt b.ac.cells pa (cellUpdRight n ((j : Int) * 64)) ++ [newCell]) k).right = (cellAt b.ac.cells k).right := by
    intro k hk hkp
    rw [hcell k, if_neg hk, if_neg hkp]
  have hrpa : (cellAt (setAt b.ac.cells pa (cellUpdRight n ((j : Int) * 64)) ++ [newCell]) pa).right = some n := by
    rw [hcell pa, if_neg (by omega), if_pos rfl]
    rfl
  have hnCell : cellAt (setAt b.ac.cells pa (cellUpdRight n ((j : Int) * 64)) ++ [newCell]) n = newCell := by
    rw [hcell n, if_pos rfl]
  have hmonoU : ∀ a c, nextUp b.ac.cells a = some c →
      nextUp (setAt b.ac.cells pa (cellUpdRight n ((j : Int) * 64)) ++ [newCell]) a = some c := by
    intro a c h
    unfold nextUp at h ⊢
    by_cases han : a = n
    · rw [han, hoor n (Nat.le_refl n)] at h
      simp at h
    · rw [hup a han]
      exact h
  have hmonoD : ∀ a c, nextDown b.ac.cells a = some c →
      nextDown (setAt b.ac.cells pa (cellUpdRight n ((j : Int) * 64)) ++ [newCell]) a = some c := by
    intro a c h
    unfold nextDown at h ⊢
    by_cases han : a = n
    · rw [han, hoor n (Nat.le_refl n)] at h
      simp at h
    · rw [hdown a han]
      exact h
  constructor
  case s0_pos => exact inv.s0_pos
  case s0_le =>
    simp only [addCell, hlen]
    omega
  case sym =>
    intro i k
    simp only [addCell]
    refine ⟨?_, ?_, ?_, ?_⟩ <;> intro hlink
    · -- right → left
      by_cases hin : i = n
      · rw [hin, hnCell] at hlink
        simp [hnew] at hlink
      · by_cases hip : i = pa
        · rw [hip, hrpa] at hlink
          have hk : k = n := Eq.symm (by simpa using hlink)
          rw [hk, hnCell, hip]
        · rw [hright i hin hip] at hlink
          have hkn : k ≠ n := by
            intro he
            have := inv.bound i k (Or.inl hlink)
            omega
          rw [hleft k hkn]
          exact (inv.sym i k).1 hlink
    · -- left → right
      by_cases hin : i = n
      · rw [hin, hnCell] at hlink
        have hk : k = pa := Eq.symm (by simpa [hnew] using hlink)
        rw [hk, hrpa, hin]
      · rw [hleft i hin] at hlink
        have hkn : k ≠ n := by
          intro he
          have := inv.bound i k (Or.inr (Or.inl hlink))
          omega
        have hkp : k ≠ pa := by
          intro he
          rw [he] at hlink
          have := (inv.sym i pa).2.1 hlink
          rw [hparn] at this
          exact Option.noConfusion this
        rw [hright k hkn hkp]
        exact (inv.sym i k).2.1 hlink
    · -- down → up
      by_cases hin : i = n
      · rw [hin, hnCell] at hlink
        simp [hnew] at hlink
      · rw [hdown i hin] at hlink
        have hkn : k ≠ n := by
          intro he
          have := inv.bound i k (Or.inr (Or.inr (Or.inl hlink)))
          omega
        rw [hup k hkn]
        exact (inv.sym i k).2.2.1 hlink
    · -- up → down
      by_cases hin : i = n
      · rw [hin, hnCell] at hlink
        simp [hnew] at hlink
      · rw [hup i hin] at hlink
        have hkn : k ≠ n := by
          intro he
          have := inv.bound i k (Or.inr (Or.inr (Or.inr hlink)))
          omega
        rw [hdown k hkn]
        exact (inv.sym i k).2.2.2 hlink
  case bound =>
    intro i k hlink
    simp only [addCell, hlen] at hlink ⊢
    by_cases hin : i = n
    · rw [hin, hnCell] at hlink
      have : ∀ q, newCell.left = some q → q = pa := by
        intro q hq
        simpa [hnew] using hq.symm
      rcases hlink with h | h | h | h
      · simp [hnew] at h
      · have := this k h
        omega
      · simp [hnew] at h
      · simp [hnew] at h
    · rcases hlink with h | h | h | h
      · by_cases hip : i = pa
        · rw [hip, hrpa] at h
          have : n = k := by simpa using h
          omega
        · rw [hright i hin hip] at h
          have := inv.bound i k (Or.inl h)
          omega
      · rw [hleft i hin] at h
        have := inv.bound i k (Or.inr (Or.inl h))
        omega
      · rw [hdown i hin] at h
        have := inv.bound i k (Or.inr (Or.inr (Or.inl h)))
        omega
      · rw [hup i hin] at h
        have := inv.bound i k (Or.inr (Or.inr (Or.inr h)))
        omega
  case order =>
    intro i k
    simp only [addCell]
    refine ⟨?_, ?_, ?_, ?_⟩ <;> intro hlink
    · by_cases hin : i = n
      · rw [hin, hnCell] at hlink
        simp [hnew] at hlink
      · rw [hdown i hin] at hlink
        exact (inv.order i k).1 hlink
    · by_cases hin : i = n
      · rw [hin, hnCell] at hlink
        simp [hnew] at hlink
      · rw [hup i hin] at hlink
        exact (inv.order i k).2.1 hlink
    · by_cases hin : i = n
      · rw [hin, hnCell] at hlink
        simp [hnew] at hlink
      · by_cases hip : i = pa
        · rw [hip, hrpa] at hlink
          have : n = k := by simpa using hlink
          omega
        · rw [hright i hin hip] at hlink
          exact (inv.order i k).2.2.1 hlink
    · by_cases hin : i = n
      · rw [hin, hnCell] at hlink
        have : pa = k := by simpa [hnew] using hlink
        omega
      · rw [hleft i hin] at hlink
        exact (inv.order i k).2.2.2 hlink
  case noEntry =>
    intro i
    have hs1 := inv.s0_pos
    simp only [addCell]
    by_cases hin : i = n
    · rw [hin, hnCell]
      refine ⟨by simp [hnew], by simp [hnew], by simp [hnew]⟩
    · refine ⟨?_, ?_, ?_⟩
      · by_cases hip : i = pa
        · rw [hip, hrpa]
          intro h
          have : n = 0 := by simpa using h
          omega
        · rw [hright i hin hip]
          exact (inv.noEntry i).1
      · rw [hdown i hin]
        exact (inv.noEntry i).2.1
      · rw [hup i hin]
        exact (inv.noEntry i).2.2
  case empty =>
    intro i
    simp only [addCell]
    by_cases hin : i = n
    · rw [hin, hnCell]
    · rw [hcont i hin]
      exact inv.empty i
  case seatsOk =>
    intro m hm
    simp only [addCell, hlen] at hm ⊢
    have h1 := inv.seatsOk m hm
    have hmn : m ≠ n := by omega
    rw [hrow m hmn, hcol m hmn]
    exact ⟨by omega, h1.2⟩
  case rowColIff =>
    intro i
    simp only [addCell]
    by_cases hin : i = n
    · rw [hin, hnCell]
    · rw [hrow i hin, hcol i hin]
      exact inv.rowColIff i
  case rowLe =>
    intro i r
    simp only [addCell]
    by_cases hin : i = n
    · rw [hin, hnCell]
      intro h
      simp [hnew] at h
    · rw [hrow i hin]
      exact inv.rowLe i r
  case rowStrip =>
    intro i h1 h2
    simp only [addCell, hlen] at h2 ⊢
    by_cases hin : i = n
    · rw [hin, hnCell]
      left
      rfl
    · rw [hrow i hin]
      exact inv.rowStrip i h1 (by omega)
  case rowOld =>
    intro i r h1
    simp only [addCell]
    have hin : i ≠ n := by omega
    rw [hrow i hin]
    exact inv.rowOld i r h1
  case colStrip =>
    intro i k h1
    simp only [addCell]
    by_cases hin : i = n
    · rw [hin, hnCell]
      intro h
      simp [hnew] at h
    · rw [hcol i hin]
      exact inv.colStrip i k h1
  case vertStrip =>
    intro c d hlink
    simp only [addCell] at hlink
    by_cases hcn : c = n
    · rw [hcn, hnCell] at hlink
      rcases hlink with h | h
      · simp [hnew] at h
      · simp [hnew] at h
    · rcases hlink with h | h
      · rw [hdown c hcn] at h
        exact inv.vertStrip c d (Or.inl h)
      · rw [hup c hcn] at h
        exact inv.vertStrip c d (Or.inr h)
  case upEntry =>
    intro c u t r cu ct h1 h2 h3 h4 h5 h6
    simp only [addCell] at h1 h2 h3 h4 h5 ⊢
    by_cases hcn : c = n
    · rw [hcn, hnCell] at h1
      simp [hnew] at h1
    · rw [hup c hcn] at h1
      have hun : u ≠ n := by
        intro he
        have := inv.bound c u (Or.inr (Or.inr (Or.inr h1)))
        omega
      rw [hrow u hun] at h2
      rw [hcol u hun] at h4
      by_cases htn : t = n
      · rw [htn, hnCell] at h3
        simp [hnew] at h3
      · rw [hrow t htn] at h3
        rw [hcol t htn] at h5
        exact reach_mono hmonoU (inv.upEntry c u t r cu ct h1 h2 h3 h4 h5 h6)
  case downEntry =>
    intro c d t r cd ct h1 h2 h3 h4 h5 h6
    simp only [addCell] at h1 h2 h3 h4 h5 ⊢
    by_cases hcn : c = n
    · rw [hcn, hnCell] at h1
      simp [hnew] at h1
    · rw [hdown c hcn] at h1
      have hdn : d ≠ n := by
        intro he
        have := inv.bound c d (Or.inr (Or.inr (Or.inl h1)))
        omega
      rw [hrow d hdn] at h2
      rw [hcol d hdn] at h4
      by_cases htn : t = n
      · rw [htn, hnCell] at h3
        simp [hnew] at h3
      · rw [hrow t htn] at h3
        rw [hcol t htn] at h5
        exact reach_mono hmonoD (inv.downEntry c d t r cd ct h1 h2 h3 h4 h5 h6)
  case paLt =>
    simp only [addCell, hlen]
    omega
  case paRight =>
    simp only [addCell]
    rw [hnCell]
  case pcNone =>
    intro h
    simp at h
  case pcLast =>
    intro q hq
    simp only [Option.some.injEq] at hq
    subst hq
    simp only [addCell, hlen]
    refine ⟨trivial, by omega, ?_⟩
    rw [hnCell]
  case pcUp =>
    intro q hq c hc1 hc2
    simp only [Option.some.injEq] at hq
    subst hq
    simp only [addCell, hlen] at hc2
    left
    omega
  case pcDown =>
    intro q hq c hc1 hc2
    simp only [Option.some.injEq] at hq
    subst hq
    simp only [addCell, hlen] at hc2
    left
    omega

theorem buildInv_aisle_some (b : BState) (p s0 si j : Nat)
    (inv : BuildInv b (some p) s0 si) :
    BuildInv
      { b with
        ac := (addCell
          { b.ac with cells := setAt (setAt b.ac.cells b.prevAisle (cellUpdRight b.ac.cells.length ((j : Int) * 64))) p (cellUpdDown b.ac.cells.length) }
          { x := b.x, y := (j : Int) * 64, left := some b.prevAisle, up := some p }),
        prevAisle := b.ac.cells.length }
      (some b.ac.cells.length) s0 si := by
  set n := b.ac.cells.length with hn
  set pa := b.prevAisle with hpa
  obtain ⟨hp1, hp2, hp3⟩ := inv.pcLast p rfl
  have hpn : p < n := by omega
  have hpan : pa < n := inv.paLt
  have hparn : (cellAt b.ac.cells pa).right = none := inv.paRight
  set newCell : Cell := { x := b.x, y := (j : Int) * 64, left := some pa, up := some p } with hnew
  set mid := setAt b.ac.cells pa (cellUpdRight n ((j : Int) * 64)) with hmiddef
  have hslm : mid.length = n := setAt_length _ _ _
  have hsl : (setAt mid p (cellUpdDown n)).length = n := by
    rw [setAt_length, hslm]
  have hlen : (setAt mid p (cellUpdDown n) ++ [newCell]).length = n + 1 := by
    simp [hsl]
  have hoor : ∀ i, n ≤ i → cellAt b.ac.cells i = default := by
    intro i hi
    unfold cellAt
    rw [List.getElem?_eq_none_iff.mpr (by omega)]
    rfl
  have hmid : ∀ i, cellAt mid i
      = if i = pa then cellUpdRight n ((j : Int) * 64) (cellAt b.ac.cells pa) else cellAt b.ac.cells i := by
    intro i
    rw [hmiddef, cellAt_setAt _ _ _ _ (by omega)]
    by_cases hip : i = pa
    · rw [if_pos hip, if_pos hip, hip]
    · rw [if_neg hip, if_neg hip]
  have hcell : ∀ i, cellAt (setAt mid p (cellUpdDown n) ++ [newCell]) i
      = if i = n then newCell
        else if i = p then cellUpdDown n (cellAt mid i)
        else cellAt mid i := by
    intro i
    rw [cellAt_append, hsl]
    by_cases hin : i = n
    · rw [if_pos hin, if_pos hin]
    · rw [if_neg hin, if_neg hin, cellAt_setAt _ _ _ _ (by omega)]
  have hupMid : ∀ k, (cellAt mid k).up = (cellAt b.ac.cells k).up := by
    intro k
    rw [hmid k]
    by_cases hkp : k = pa
    · rw [if_pos hkp, hkp]
      rfl
    · rw [if_neg hkp]
  have hdownMid : ∀ k, (cellAt mid k).down = (cellAt b.ac.cells k).down := by
    intro k
    rw [hmid k]
    by_cases hkp : k = pa
    · rw [if_pos hkp, hkp]
      rfl
    · rw [if_neg hkp]
  have hleftMid : ∀ k, (cellAt mid k).left = (cellAt b.ac.cells k).left := by
    intro k
    rw [hmid k]
    by_cases hkp : k = pa
    · rw [if_pos hkp, hkp]
      rfl
    · rw [if_neg hkp]
  have hrowMid : ∀ k, (cellAt mid k).row = (cellAt b.ac.cells k).row := by
    intro k
    rw [hmid k]
    by_cases hkp : k = pa
    · rw [if_pos hkp, hkp]
      rfl
    · rw [if_neg hkp]
  have hcolMid : ∀ k, (cellAt mid k).col = (cellAt b.ac.cells k).col := by
    intro k
    rw [hmid k]
    by_cases hkp : k = pa
    · rw [if_pos hkp, hkp]
      rfl
    · rw [if_neg hkp]
  have hcontMid : ∀ k, (cellAt mid k).contents = (cellAt b.ac.cells k).contents := by
    intro k
    rw [hmid k]
    by_cases hkp : k = pa
    · rw [if_pos hkp, hkp]
      rfl
    · rw [if_neg hkp]
  have hrightMid : ∀ k, k ≠ pa → (cellAt mid k).right = (cellAt b.ac.cells k).right := by
    intro k hk
    rw [hmid k, if_neg hk]
  have hup : ∀ k, k ≠ n →
      (cellAt (setAt mid p (cellUpdDown n) ++ [newCell]) k).up = (cellAt b.ac.cells k).up := by
    intro k hk
    rw [hcell k, if_neg hk]
    by_cases hkp : k = p
    · rw [if_pos hkp]
      exact hupMid k
    · rw [if_neg hkp]
      exact hupMid k
  have hleft : ∀ k, k ≠ n →
      (cellAt (setAt mid p (cellUpdDown n) ++ [newCell]) k).left = (cellAt b.ac.cells k).left := by
    intro k hk
    rw [hcell k, if_neg hk]
    by_cases hkp : k = p
    · rw [if_pos hkp]
      exact hleftMid k
    · rw [if_neg hkp]
      exact hleftMid k
  have hrow : ∀ k, k ≠ n →
      (cellAt (setAt mid p (cellUpdDown n) ++ [newCell]) k).row = (cellAt b.ac.cells k).row := by
    intro k hk
    rw [hcell k, if_neg hk]
    by_cases hkp : k = p
    · rw [if_pos hkp]
      exact hrowMid k
    · rw [if_neg hkp]
      exact hrowMid k
  have hcol : ∀ k, k ≠ n →
      (cellAt (setAt mid p (cellUpdDown n) ++ [newCell]) k).col = (cellAt b.ac.cells k).col := by
    intro k hk
    rw [hcell k, if_neg hk]
    by_cases hkp : k = p
    · rw [if_pos hkp]
      exact hcolMid k
    · rw [if_neg hkp]
      exact hcolMid k
  have hcont : ∀ k, k ≠ n →
      (cellAt (setAt mid p (cellUpdDown n) ++ [newCell]) k).contents = (cellAt b.ac.cells k).contents := by
    intro k hk
    rw [hcell k, if_neg hk]
    by_cases hkp : k = p
    · rw [if_pos hkp]
      exact hcontMid k
    · rw [if_neg hkp]
      exact hcontMid k
  have hdown : ∀ k, k ≠ n → k ≠ p →
      (cellAt (setAt mid p (cellUpdDown n) ++ [newCell]) k).down = (cellAt b.ac.cells k).down := by
    intro k hk hkp
    rw [hcell k, if_neg hk, if_neg hkp]
    exact hdownMid k
  have hright : ∀ k, k ≠ n → k ≠ pa →
      (cellAt (setAt mid p (cellUpdDown n) ++ [newCell]) k).right = (cellAt b.ac.cells k).right := by
    intro k hk hkpa
    rw [hcell k, if_neg hk]
    by_cases hkp : k = p
    · rw [if_pos hkp]
      exact hrightMid k hkpa
    · rw [if_neg hkp]
      exact hrightMid k hkpa
  have hdp : (cellAt (setAt mid p (cellUpdDown n) ++ [newCell]) p).down = some n := by
    rw [hcell p, if_neg (by omega), if_pos rfl]
    rfl
  have hrpa : (cellAt (setAt mid p (cellUpdDown n) ++ [newCell]) pa).right = some n := by
    rw [hcell pa, if_neg (by omega)]
    by_cases hpap : pa = p
    · rw [if_pos hpap]
      show (cellAt mid pa).right = some n
      rw [hmid pa, if_pos rfl]
      rfl
    · rw [if_neg hpap, hmid pa, if_pos rfl]
      rfl
  have hnCell : cellAt (setAt mid p (cellUpdDown n) ++ [newCell]) n = newCell := by
    rw [hcell n, if_pos rfl]
  have hmonoU : ∀ a c, nextUp b.ac.cells a = some c →
      nextUp (setAt mid p (cellUpdDown n) ++ [newCell]) a = some c := by
    intro a c h
    unfold nextUp at h ⊢
    by_cases han : a = n
    · rw [han, hoor n (Nat.le_refl n)] at h
      simp at h
    · rw [hup a han]
      exact h
  have hmonoD : ∀ a c, nextDown b.ac.cells a = some c →
      nextDown (setAt mid p (cellUpdDown n) ++ [newCell]) a = some c := by
    intro a c h
    unfold nextDown at h ⊢
    by_cases han : a = n
    · rw [han, hoor n (Nat.le_refl n)] at h
      simp at h
    · by_cases hap : a = p
      · rw [hap, hp3] at h
        simp at h
      · rw [hdown a han hap]
        exact h
  constructor
  case s0_pos => exact inv.s0_pos
  case s0_le =>
    simp only [addCell, hlen]
    omega
  case sym =>
    intro i k
    simp only [addCell]
    refine ⟨?_, ?_, ?_, ?_⟩ <;> intro hlink
    · -- right → left
      by_cases hin : i = n
      · rw [hin, hnCell] at hlink
        simp [hnew] at hlink
      · by_cases hip : i = pa
        · rw [hip, hrpa] at hlink
          have hk : k = n := Eq.symm (by simpa using hlink)
          rw [hk, hnCell, hip]
        · rw [hright i hin hip] at hlink
          have hkn : k ≠ n := by
            intro he
            have := inv.bound i k (Or.inl hlink)
            omega
          rw [hleft k hkn]
          exact (inv.sym i k).1 hlink
    · -- left → right
      by_cases hin : i = n
      · rw [hin, hnCell] at hlink
        have hk : k = pa := Eq.symm (by simpa [hnew] using hlink)
        rw [hk, hrpa, hin]
      · rw [hleft i hin] at hlink
        have hkn : k ≠ n := by
          intro he
          have := inv.bound i k (Or.inr (Or.inl hlink))
          omega
        have hkp : k ≠ pa := by
          intro he
          rw [he] at hlink
          have := (inv.sym i pa).2.1 hlink
          rw [hparn] at this
          exact Option.noConfusion this
        rw [hright k hkn hkp]
        exact (inv.sym i k).2.1 hlink
    · -- down → up
      by_cases hin : i = n
      · rw [hin, hnCell] at hlink
        simp [hnew] at hlink
      · by_cases hip : i = p
        · rw [hip, hdp] at hlink
          have hk : k = n := Eq.symm (by simpa using hlink)
          rw [hk, hnCell, hip]
        · rw [hdown i hin hip] at hlink
          have hkn : k ≠ n := by
            intro he
            have := inv.bound i k (Or.inr (Or.inr (Or.inl hlink)))
            omega
          rw [hup k hkn]
          exact (inv.sym i k).2.2.1 hlink
    · -- up → down
      by_cases hin : i = n
      · rw [hin, hnCell] at hlink
        have hk : k = p := Eq.symm (by simpa [hnew] using hlink)
        rw [hk, hdp, hin]
      · rw [hup i hin] at hlink
        have hkn : k ≠ n := by
          intro he
          have := inv.bound i k (Or.inr (Or.inr (Or.inr hlink)))
          omega
        have hkp : k ≠ p := by
          intro he
          rw [he] at hlink
          have := (inv.sym i p).2.2.2 hlink
          rw [hp3] at this
          exact Option.noConfusion this
        rw [hdown k hkn hkp]
        exact (inv.sym i k).2.2.2 hlink
  case bound =>
    intro i k hlink
    simp only [addCell, hlen] at hlink ⊢
    by_cases hin : i = n
    · rw [hin, hnCell] at hlink
      rcases hlink with h | h | h | h
      · simp [hnew] at h
      · have : pa = k := by simpa [hnew] using h
        omega
      · simp [hnew] at h
      · have : p = k := by simpa [hnew] using h
        omega
    · rcases hlink with h | h | h | h
      · by_cases hip : i = pa
        · rw [hip, hrpa] at h
          have : n = k := by simpa using h
          omega
        · rw [hright i hin hip] at h
          have := inv.bound i k (Or.inl h)
          omega
      · rw [hleft i hin] at h
        have := inv.bound i k (Or.inr (Or.inl h))
        omega
      · by_cases hip : i = p
        · rw [hip, hdp] at h
          have : n = k := by simpa using h
          omega
        · rw [hdown i hin hip] at h
          have := inv.bound i k (Or.inr (Or.inr (Or.inl h)))
          omega
      · rw [hup i hin] at h
        have := inv.bound i k (Or.inr (Or.inr (Or.inr h)))
        omega
  case order =>
    intro i k
    simp only [addCell]
    refine ⟨?_, ?_, ?_, ?_⟩ <;> intro hlink
    · by_cases hin : i = n
      · rw [hin, hnCell] at hlink
        simp [hnew] at hlink
      · by_cases hip : i = p
        · rw [hip, hdp] at hlink
          have : n = k := by simpa using hlink
          omega
        · rw [hdown i hin hip] at hlink
          exact (inv.order i k).1 hlink
    · by_cases hin : i = n
      · rw [hin, hnCell] at hlink
        have : p = k := by simpa [hnew] using hlink
        omega
      · rw [hup i hin] at hlink
        exact (inv.order i k).2.1 hlink
    · by_cases hin : i = n
      · rw [hin, hnCell] at hlink
        simp [hnew] at hlink
      · by_cases hip : i = pa
        · rw [hip, hrpa] at hlink
          have : n = k := by simpa using hlink
          omega
        · rw [hright i hin hip] at hlink
          exact (inv.order i k).2.2.1 hlink
    · by_cases hin : i = n
      · rw [hin, hnCell] at hlink
        have : pa = k := by simpa [hnew] using hlink
        omega
      · rw [hleft i hin] at hlink
        exact (inv.order i k).2.2.2 hlink
  case noEntry =>
    intro i
    have hs1 := inv.s0_pos
    simp only [addCell]
    by_cases hin : i = n
    · rw [hin, hnCell]
      refine ⟨by simp [hnew], by simp [hnew], ?_⟩
      simp only [hnew]
      intro h
      have : p = 0 := by simpa using h
      omega
    · refine ⟨?_, ?_, ?_⟩
      · by_cases hip : i = pa
        · rw [hip, hrpa]
          intro h
          have : n = 0 := by simpa using h
          omega
        · rw [hright i hin hip]
          exact (inv.noEntry i).1
      · by_cases hip : i = p
        · rw [hip, hdp]
          intro h
          have : n = 0 := by simpa using h
          omega
        · rw [hdown i hin hip]
          exact (inv.noEntry i).2.1
      · rw [hup i hin]
        exact (inv.noEntry i).2.2
  case empty =>
    intro i
    simp only [addCell]
    by_cases hin : i = n
    · rw [hin, hnCell]
    · rw [hcont i hin]
      exact inv.empty i
  case seatsOk =>
    intro m hm
    simp only [addCell, hlen] at hm ⊢
    have h1 := inv.seatsOk m hm
    have hmn : m ≠ n := by omega
    rw [hrow m hmn, hcol m hmn]
    exact ⟨by omega, h1.2⟩
  case rowColIff =>
    intro i
    simp only [addCell]
    by_cases hin : i = n
    · rw [hin, hnCell]
    · rw [hrow i hin, hcol i hin]
      exact inv.rowColIff i
  case rowLe =>
    intro i r
    simp only [addCell]
    by_cases hin : i = n
    · rw [hin, hnCell]
      intro h
      simp [hnew] at h
    · rw [hrow i hin]
      exact inv.rowLe i r
  case rowStrip =>
    intro i h1 h2
    simp only [addCell, hlen] at h2 ⊢
    by_cases hin : i = n
    · rw [hin, hnCell]
      left
      rfl
    · rw [hrow i hin]
      exact inv.rowStrip i h1 (by omega)
  case rowOld =>
    intro i r h1
    simp only [addCell]
    have hin : i ≠ n := by omega
    rw [hrow i hin]
    exact inv.rowOld i r h1
  case colStrip =>
    intro i k h1
    simp only [addCell]
    by_cases hin : i = n
    · rw [hin, hnCell]
      intro h
      simp [hnew] at h
    · rw [hcol i hin]
      exact inv.colStrip i k h1
  case vertStrip =>
    intro c d hlink
    simp only [addCell] at hlink
    by_cases hcn : c = n
    · rw [hcn, hnCell] at hlink
      rcases hlink with h | h
      · simp [hnew] at h
      · have hd2 : d = p := Eq.symm (by simpa [hnew] using h)
        rw [hcn, hd2]
        omega
    · by_cases hcp : c = p
      · rcases hlink with h | h
        · rw [hcp, hdp] at h
          have hd2 : d = n := Eq.symm (by simpa using h)
          rw [hcp, hd2]
          omega
        · rw [hup c hcn] at h
          exact inv.vertStrip c d (Or.inr h)
      · rcases hlink with h | h
        · rw [hdown c hcn hcp] at h
          exact inv.vertStrip c d (Or.inl h)
        · rw [hup c hcn] at h
          exact inv.vertStrip c d (Or.inr h)
  case upEntry =>
    intro c u t r cu ct h1 h2 h3 h4 h5 h6
    simp only [addCell] at h1 h2 h3 h4 h5 ⊢
    by_cases hcn : c = n
    · -- the new aisle cell: u = p, a strip cell
      rw [hcn, hnCell] at h1
      have hup' : u = p := Eq.symm (by simpa [hnew] using h1)
      subst hup'
      have hun : u ≠ n := by omega
      rw [hrow u hun] at h2
      rw [hcol u hun] at h4
      have hcu : cu < 65 + si := inv.colStrip u cu hp2 h4
      have hrr : r = b.rowIndex := by
        rcases inv.rowStrip u hp2 (by omega) with h | h
        · rw [h] at h2
          exact Option.noConfusion h2
        · rw [h] at h2
          simpa using h2.symm
      by_cases htn : t = n
      · rw [htn, hnCell] at h3
        simp [hnew] at h3
      · rw [hrow t htn] at h3
        rw [hcol t htn] at h5
        have htlt : t < n := by
          by_cases h : t < n
          · exact h
          · exfalso
            rw [hoor t (by omega)] at h3
            exact Option.noConfusion h3
        have hts0 : s0 ≤ t := by
          by_cases h : s0 ≤ t
          · exact h
          · exfalso
            have := inv.rowOld t r (by omega) h3
            omega
        have hstep : nextUp (setAt mid u (cellUpdDown n) ++ [newCell]) n = some u := by
          unfold nextUp
          rw [hnCell]
        rcases inv.pcUp u rfl t hts0 htlt with h | h
        · rw [hcn, h]
          exact Reach.single hstep
        · rw [hcn]
          exact Reach.step hstep (reach_mono hmonoU h)
    · rw [hup c hcn] at h1
      have hun : u ≠ n := by
        intro he
        have := inv.bound c u (Or.inr (Or.inr (Or.inr h1)))
        omega
      rw [hrow u hun] at h2
      rw [hcol u hun] at h4
      by_cases htn : t = n
      · rw [htn, hnCell] at h3
        simp [hnew] at h3
      · rw [hrow t htn] at h3
        rw [hcol t htn] at h5
        exact reach_mono hmonoU (inv.upEntry c u t r cu ct h1 h2 h3 h4 h5 h6)
  case downEntry =>
    intro c d t r cd ct h1 h2 h3 h4 h5 h6
    simp only [addCell] at h1 h2 h3 h4 h5 ⊢
    by_cases hcn : c = n
    · rw [hcn, hnCell] at h1
      simp [hnew] at h1
    · by_cases hcp : c = p
      · rw [hcp, hdp] at h1
        have hdn : d = n := Eq.symm (by simpa using h1)
        subst hdn
        rw [hnCell] at h2
        simp [hnew] at h2
      · rw [hdown c hcn hcp] at h1
        have hdn : d ≠ n := by
          intro he
          have := inv.bound c d (Or.inr (Or.inr (Or.inl h1)))
          omega
        rw [hrow d hdn] at h2
        rw [hcol d hdn] at h4
        by_cases htn : t = n
        · rw [htn, hnCell] at h3
          simp [hnew] at h3
        · rw [hrow t htn] at h3
          rw [hcol t htn] at h5
          exact reach_mono hmonoD (inv.downEntry c d t r cd ct h1 h2 h3 h4 h5 h6)
  case paLt =>
    simp only [addCell, hlen]
    omega
  case paRight =>
    simp only [addCell]
    rw [hnCell]
  case pcNone =>
    intro h
    simp at h
  case pcLast =>
    intro q hq
    simp only [Option.some.injEq] at hq
    subst hq
    simp only [addCell, hlen]
    refine ⟨trivial, by omega, ?_⟩
    rw [hnCell]
  case pcUp =>
    intro q hq c hc1 hc2
    simp only [Option.some.injEq] at hq
    subst hq
    simp only [addCell, hlen] at hc2
    by_cases hcn : c = n
    · left
      exact hcn
    · right
      have hstep : nextUp (setAt mid p (cellUpdDown n) ++ [newCell]) n = some p := by
        unfold nextUp
        rw [hnCell]
      rcases inv.pcUp p rfl c hc1 (by omega) with h | h
      · rw [h]
        exact Reach.single hstep
      · exact Reach.step hstep (reach_mono hmonoU h)
  case pcDown =>
    intro q hq c hc1 hc2
    simp only [Option.some.injEq] at hq
    subst hq
    simp only [addCell, hlen] at hc2
    by_cases hcn : c = n
    · left
      exact hcn
    · right
      have hstep2 : nextDown (setAt mid p (cellUpdDown n) ++ [newCell]) p = some n := by
        unfold nextDown
        exact hdp
      rcases inv.pcDown p rfl c hc1 (by omega) with h | h
      · rw [h]
        exact Reach.single hstep2
      · exact reach_trans (reach_mono hmonoD h) (Reach.single hstep2)

theorem buildInv_si_mono (b : BState) (pc : Option Nat) (s0 si : Nat)
    (inv : BuildInv b pc s0 si) : BuildInv b pc s0 (si + 1) := by
  refine { inv with colStrip := ?_ }
  intro i k h1 h2
  have := inv.colStrip i k h1 h2
  omega

theorem stepChar_inv (b : BState) (pc : Option Nat) (s0 si j : Nat) (ch : Char)
    (inv : BuildInv b pc s0 si) :
    BuildInv (stepChar b pc si j ch).1 (stepChar b pc si j ch).2.1 s0
      (stepChar b pc si j ch).2.2 := by
  by_cases hS : ch = 'S'
  · cases pc with
    | none =>
      simp only [stepChar, if_pos hS]
      exact buildInv_seat_none b s0 si j inv
    | some p =>
      simp only [stepChar, if_pos hS]
      exact buildInv_seat_some b p s0 si j inv
  · by_cases hA : ch = 'A'
    · cases pc with
      | none =>
        simp only [stepChar, if_neg hS, if_pos hA]
        exact buildInv_aisle_none b s0 si j inv
      | some p =>
        simp only [stepChar, if_neg hS, if_pos hA]
        exact buildInv_aisle_some b p s0 si j inv
    · by_cases hP : ch = '+'
      · simp only [stepChar, if_neg hS, if_neg hA, if_pos hP]
        exact buildInv_si_mono b pc s0 si inv
      · simp only [stepChar, if_neg hS, if_neg hA, if_neg hP]
        exact inv

theorem buildInv_x (b : BState) (pc : Option Nat) (s0 si : Nat)
    (inv : BuildInv b pc s0 si) : BuildInv { b with x := b.x + 64 } pc s0 si :=
  { s0_pos := inv.s0_pos, s0_le := inv.s0_le, sym := inv.sym, bound := inv.bound,
    order := inv.order, noEntry := inv.noEntry, empty := inv.empty,
    seatsOk := inv.seatsOk, rowColIff := inv.rowColIff, rowLe := inv.rowLe,
    rowStrip := inv.rowStrip, rowOld := inv.rowOld, colStrip := inv.colStrip,
    vertStrip := inv.vertStrip, upEntry := inv.upEntry, downEntry := inv.downEntry,
    paLt := inv.paLt, paRight := inv.paRight, pcNone := inv.pcNone,
    pcLast := inv.pcLast, pcUp := inv.pcUp, pcDown := inv.pcDown }

theorem buildInv_rebase (b : BState) (pc : Option Nat) (s0 si : Nat)
    (inv : BuildInv b pc s0 si) :
    BuildInv { b with rowIndex := b.rowIndex + 1 } none b.ac.cells.length 0 := by
  have hoor : ∀ i, b.ac.cells.length ≤ i → cellAt b.ac.cells i = default := by
    intro i hi
    unfold cellAt
    rw [List.getElem?_eq_none_iff.mpr (by omega)]
    rfl
  have hs := inv.s0_pos
  have hsl := inv.s0_le
  constructor
  case s0_pos => omega
  case s0_le => exact Nat.le_refl _
  case sym => exact inv.sym
  case bound => exact inv.bound
  case order => exact inv.order
  case noEntry => exact inv.noEntry
  case empty => exact inv.empty
  case seatsOk => exact inv.seatsOk
  case rowColIff => exact inv.rowColIff
  case rowLe =>
    intro i r h
    have := inv.rowLe i r h
    show r ≤ b.rowIndex + 1
    omega
  case rowStrip =>
    intro i h1 h2
    have h2' : i < b.ac.cells.length := h2
    exact absurd h2' (by omega)
  case rowOld =>
    intro i r h1 h2
    have := inv.rowLe i r h2
    show r < b.rowIndex + 1
    omega
  case colStrip =>
    intro i k h1 h2
    rw [hoor i h1] at h2
    exact Option.noConfusion h2
  case vertStrip =>
    intro c d hlink
    constructor
    · intro hc
      rw [hoor c hc] at hlink
      rcases hlink with h | h <;> exact Option.noConfusion h
    · intro hd
      have : d < b.ac.cells.length := by
        rcases hlink with h | h
        · exact inv.bound c d (Or.inr (Or.inr (Or.inl h)))
        · exact inv.bound c d (Or.inr (Or.inr (Or.inr h)))
      omega
  case upEntry => exact inv.upEntry
  case downEntry => exact inv.downEntry
  case paLt => exact inv.paLt
  case paRight => exact inv.paRight
  case pcNone =>
    intro _
    rfl
  case pcLast =>
    intro p hp
    exact Option.noConfusion hp
  case pcUp =>
    intro p hp
    exact Option.noConfusion hp
  case pcDown =>
    intro p hp
    exact Option.noConfusion hp

theorem stepChars_inv (pattern : List Char) : ∀ (b : BState) (pc : Option Nat) (s0 si j : Nat),
    BuildInv b pc s0 si →
    ∃ pc' si', BuildInv (stepChars b pc si j pattern) pc' s0 si' := by
  induction pattern with
  | nil =>
    intro b pc s0 si j inv
    exact ⟨pc, si, inv⟩
  | cons ch rest ih =>
    intro b pc s0 si j inv
    exact ih _ _ s0 _ (j + 1) (stepChar_inv b pc s0 si j ch inv)

theorem stepRep_inv (b : BState) (pattern : List Char)
    (inv : BuildInv b none b.ac.cells.length 0) :
    BuildInv (stepRep b pattern) none (stepRep b pattern).ac.cells.length 0 := by
  obtain ⟨pc', si', inv2⟩ := stepChars_inv pattern { b with x := b.x + 64 } none
    b.ac.cells.length 0 0 (buildInv_x b none b.ac.cells.length 0 inv)
  exact buildInv_rebase _ pc' _ si' inv2

theorem repIter_inv : ∀ (k : Nat) (b : BState) (pattern : List Char),
    BuildInv b none b.ac.cells.length 0 →
    BuildInv (repIter b k pattern) none (repIter b k pattern).ac.cells.length 0 := by
  intro k
  induction k with
  | zero =>
    intro b pattern inv
    exact inv
  | succ m ih =>
    intro b pattern inv
    exact ih (stepRep b pattern) pattern (stepRep_inv b pattern inv)

theorem layoutFold_inv : ∀ (layout : List RowSpec) (b : BState),
    BuildInv b none b.ac.cells.length 0 →
    BuildInv (layout.foldl (fun b rs => repIter b rs.rep rs.layout) b) none
      (layout.foldl (fun b rs => repIter b rs.rep rs.layout) b).ac.cells.length 0 := by
  intro layout
  induction layout with
  | nil =>
    intro b inv
    exact inv
  | cons rs rest ih =>
    intro b inv
    exact ih _ (repIter_inv rs.rep b rs.layout inv)

theorem b0_inv : BuildInv
    { ac := addCell {} { x := 0, y := 0 }, prevAisle := 0, x := 0, rowIndex := 1 }
    none 1 0 := by
  have hc : ∀ i, cellAt (addCell ({} : Aircraft) { x := 0, y := 0 }).cells i = default := by
    intro i
    cases i with
    | zero => rfl
    | succ k => simp [cellAt, addCell]
  constructor
  case s0_pos => exact Nat.le_refl 1
  case s0_le => exact Nat.le_refl 1
  case sym =>
    intro i k
    refine ⟨?_, ?_, ?_, ?_⟩ <;> intro h <;> rw [hc i] at h <;> exact Option.noConfusion h
  case bound =>
    intro i k h
    rw [hc i] at h
    rcases h with h | h | h | h <;> exact Option.noConfusion h
  case order =>
    intro i k
    refine ⟨?_, ?_, ?_, ?_⟩ <;> intro h <;> rw [hc i] at h <;> exact Option.noConfusion h
  case noEntry =>
    intro i
    rw [hc i]
    exact ⟨fun h => Option.noConfusion h, fun h => Option.noConfusion h,
      fun h => Option.noConfusion h⟩
  case empty =>
    intro i
    rw [hc i]
    rfl
  case seatsOk =>
    intro m hm
    simp [addCell] at hm
  case rowColIff =>
    intro i
    rw [hc i]
    rfl
  case rowLe =>
    intro i r h
    rw [hc i] at h
    exact Option.noConfusion h
  case rowStrip =>
    intro i h1 h2
    left
    rw [hc i]
    rfl
  case rowOld =>
    intro i r h1 h2
    rw [hc i] at h2
    exact Option.noConfusion h2
  case colStrip =>
    intro i k h1 h2
    rw [hc i] at h2
    exact Option.noConfusion h2
  case vertStrip =>
    intro c d hlink
    rw [hc c] at hlink
    rcases hlink with h | h <;> exact Option.noConfusion h
  case upEntry =>
    intro c u t r cu ct h1 h2 h3 h4 h5 h6
    rw [hc c] at h1
    exact Option.noConfusion h1
  case downEntry =>
    intro c d t r cd ct h1 h2 h3 h4 h5 h6
    rw [hc c] at h1
    exact Option.noConfusion h1
  case paLt => exact Nat.zero_lt_one
  case paRight =>
    rw [hc 0]
    rfl
  case pcNone =>
    intro _
    rfl
  case pcLast =>
    intro p hp
    exact Option.noConfusion hp
  case pcUp =>
    intro p hp
    exact Option.noConfusion hp
  case pcDown =>
    intro p hp
    exact Option.noConfusion hp

/-- The compiled grid, as the final state of `generateAircraft`'s fold,
carries the full construction invariant. -/
theorem generateAircraft_buildInv (layout : List RowSpec) :
    ∃ bf : BState, generateAircraft layout = bf.ac ∧
      BuildInv bf none bf.ac.cells.length 0 := by
  have h := layoutFold_inv layout
    { ac := addCell {} { x := 0, y := 0 }, prevAisle := 0, x := 0, rowIndex := 1 } b0_inv
  exact ⟨_, rfl, h⟩

/-- **C6**: for every grid produced by `generateAircraft` from any layout
specification, neighbor links are symmetric: for all cells `A` and `B`, if
`A.right = B` then `B.left = A`, if `A.left = B` then `B.right = A`, if
`A.up = B` then `B.down = A`, and if `A.down = B` then `B.up = A`. -/
theorem neighbor_symmetry (layout : List RowSpec) :
    SymLinks (generateAircraft layout).cells := by
  obtain ⟨bf, heq, inv⟩ := generateAircraft_buildInv layout
  rw [heq]
  exact inv.sym

/-! ### The simulation never follows an absent loading pointer -/

theorem getDPax_setAt (l : List Pax) (i j : Nat) (fn : Pax → Pax) :
    ((setAt l i fn)[j]?).getD default
      = if j = i ∧ j < l.length then fn ((l[j]?).getD default)
        else (l[j]?).getD default := by
  by_cases hj : j = i
  · subst hj
    rw [getElem?_setAt_self]
    by_cases hl : j < l.length
    · rw [if_pos ⟨rfl, hl⟩, List.getElem?_eq_getElem hl]
      rfl
    · rw [if_neg (by tauto), List.getElem?_eq_none (by omega)]
      rfl
  · rw [getElem?_setAt_ne _ _ _ _ hj, if_neg (by tauto)]

theorem linksEq_refl (c : List Cell) : LinksEq c c := fun _ => ⟨rfl, rfl, rfl, rfl⟩

theorem linksEq_setAt (cells : List Cell) (k : Nat) (f : Cell → Cell)
    (hf : ∀ c, (f c).up = c.up ∧ (f c).down = c.down ∧ (f c).row = c.row ∧ (f c).col = c.col) :
    LinksEq (setAt cells k f) cells := by
  intro m
  by_cases hmk : m = k
  · subst hmk
    unfold cellAt
    rw [getElem?_setAt_self]
    cases hc : cells[m]? with
    | none => exact ⟨rfl, rfl, rfl, rfl⟩
    | some c =>
      simp only [Option.map_some', Option.getD_some]
      exact hf c
  · unfold cellAt
    rw [getElem?_setAt_ne _ _ _ _ hmk]
    exact ⟨rfl, rfl, rfl, rfl⟩

theorem linksEq_trans {a b c : List Cell} (h1 : LinksEq a b) (h2 : LinksEq b c) :
    LinksEq a c := by
  intro k
  obtain ⟨u1, d1, r1, c1⟩ := h1 k
  obtain ⟨u2, d2, r2, c2⟩ := h2 k
  exact ⟨u1.trans u2, d1.trans d2, r1.trans r2, c1.trans c2⟩

theorem movePax_links (st : SimSt) (i fromC toC : Nat) (c2 : List Cell)
    (h : LinksEq st.cells c2) : LinksEq (movePax st i fromC toC).cells c2 := by
  unfold movePax
  dsimp only
  exact linksEq_trans (linksEq_setAt _ _ _ (fun c => ⟨rfl, rfl, rfl, rfl⟩))
    (linksEq_trans (linksEq_setAt _ _ _ (fun c => ⟨rfl, rfl, rfl, rfl⟩)) h)

theorem setAt_setAt {α : Type} (l : List α) (i : Nat) (f g : α → α) :
    setAt (setAt l i f) i g = setAt l i (fun a => g (f a)) := by
  induction l generalizing i with
  | nil => rfl
  | cons a rest ih =>
    cases i with
    | zero => simp [setAt]
    | succ m => simpa [setAt] using ih m

theorem loadCond_setAt (next : Nat → Option Nat) (s : PState) (pax : List Pax)
    (i : Nat) (fn : Pax → Pax)
    (hold : ∀ j : Nat, ((pax[j]?).getD default).state = some s →
      Reach next (((pax[j]?).getD default).cell.getD 0) ((pax[j]?).getD default).target)
    (hnew : (fn ((pax[i]?).getD default)).state = some s →
      Reach next ((fn ((pax[i]?).getD default)).cell.getD 0)
        (fn ((pax[i]?).getD default)).target) :
    ∀ j : Nat, (((setAt pax i fn)[j]?).getD default).state = some s →
      Reach next ((((setAt pax i fn)[j]?).getD default).cell.getD 0)
        (((setAt pax i fn)[j]?).getD default).target := by
  intro j hj
  rw [getDPax_setAt] at hj ⊢
  by_cases hji : j = i ∧ j < pax.length
  · rw [if_pos hji] at hj ⊢
    obtain ⟨h1, _⟩ := hji
    subst h1
    exact hnew hj
  · rw [if_neg hji] at hj ⊢
    exact hold j hj

theorem paxSimulate_inv (cells0 : List Cell) (lug : Nat → Int) (d : Int) (st : SimSt)
    (i : Nat) (hUE : UpEntry cells0) (hDE : DownEntry cells0) (hRC : RowColSome cells0)
    (inv : SimInv cells0 st) : SimInv cells0 (paxSimulate lug d st i) := by
  have hlinks := inv.links
  unfold paxSimulate
  rcases hs : (paxAt st i).state with _ | s
  · simp only [hs]
    exact inv
  cases s with
  | seated =>
    simp only [hs]
    exact inv
  | searching =>
    simp only [hs]
    split
    next hu =>
      refine ⟨inv.links, inv.crash, ?_, ?_⟩
      · refine loadCond_setAt _ _ st.pax i _ inv.loadUp ?_
        intro _
        show Reach (nextUp cells0) (((st.pax[i]?).getD default).cell.getD 0)
          ((st.pax[i]?).getD default).target
        rcases hcu : (cellAt st.cells ((paxAt st i).cell.getD 0)).up with _ | u
        · rw [hcu] at hu
          exact absurd hu (by simp)
        · rw [hcu] at hu
          simp only [Bool.and_eq_true, beq_iff_eq] at hu
          obtain ⟨hrow, hcol⟩ := hu
          rcases hcolu : (cellAt st.cells u).col with _ | cu
          · rw [hcolu] at hcol
            simp [colGe] at hcol
          rcases hcolt : (cellAt st.cells (paxAt st i).target).col with _ | ct
          · rw [hcolt] at hcol
            simp [colGe] at hcol
          rw [hcolu, hcolt] at hcol
          have hle : ct ≤ cu := by simpa [colGe] using hcol
          rw [(hlinks ((paxAt st i).cell.getD 0)).1] at hcu
          rw [(hlinks u).2.2.2] at hcolu
          rw [(hlinks (paxAt st i).target).2.2.2] at hcolt
          rw [(hlinks u).2.2.1, (hlinks (paxAt st i).target).2.2.1] at hrow
          obtain ⟨r, hr⟩ : ∃ r, (cellAt cells0 u).row = some r := by
            have h2 := hRC u
            rw [hcolu] at h2
            cases hrr : (cellAt cells0 u).row with
            | none =>
              rw [hrr] at h2
              simp at h2
            | some r => exact ⟨r, rfl⟩
          have hrt : (cellAt cells0 (paxAt st i).target).row = some r := by
            rw [← hrow]
            exact hr
          exact hUE _ u _ r cu ct hcu hr hrt hcolu hcolt hle
      · refine loadCond_setAt _ _ st.pax i _ inv.loadDown ?_
        intro hcon
        simp at hcon
    next hu =>
      split
      next hd =>
        refine ⟨inv.links, inv.crash, ?_, ?_⟩
        · refine loadCond_setAt _ _ st.pax i _ inv.loadUp ?_
          intro hcon
          simp at hcon
        · refine loadCond_setAt _ _ st.pax i _ inv.loadDown ?_
          intro _
          show Reach (nextDown cells0) (((st.pax[i]?).getD default).cell.getD 0)
            ((st.pax[i]?).getD default).target
          rcases hcd : (cellAt st.cells ((paxAt st i).cell.getD 0)).down with _ | dn
          · rw [hcd] at hd
            exact absurd hd (by simp)
          · rw [hcd] at hd
            simp only [Bool.and_eq_true, beq_iff_eq] at hd
            obtain ⟨hrow, hcol⟩ := hd
            rcases hcold : (cellAt st.cells dn).col with _ | cd
            · rw [hcold] at hcol
              simp [colLe] at hcol
            rcases hcolt : (cellAt st.cells (paxAt st i).target).col with _ | ct
            · rw [hcolt] at hcol
              simp [colLe] at hcol
            rw [hcold, hcolt] at hcol
            have hle : cd ≤ ct := by simpa [colLe] using hcol
            rw [(hlinks ((paxAt st i).cell.getD 0)).2.1] at hcd
            rw [(hlinks dn).2.2.2] at hcold
            rw [(hlinks (paxAt st i).target).2.2.2] at hcolt
            rw [(hlinks dn).2.2.1, (hlinks (paxAt st i).target).2.2.1] at hrow
            obtain ⟨r, hr⟩ : ∃ r, (cellAt cells0 dn).row = some r := by
              have h2 := hRC dn
              rw [hcold] at h2
              cases hrr : (cellAt cells0 dn).row with
              | none =>
                rw [hrr] at h2
                simp at h2
              | some r => exact ⟨r, rfl⟩
            have hrt : (cellAt cells0 (paxAt st i).target).row = some r := by
              rw [← hrow]
              exact hr
            exact hDE _ dn _ r cd ct hcd hr hrt hcold hcolt hle
      next hd =>
        split
        next r hr =>
          split
          next hemp =>
            refine ⟨movePax_links st i _ _ cells0 inv.links, inv.crash, ?_, ?_⟩
            · refine loadCond_setAt _ _ st.pax i _ inv.loadUp ?_
              intro hcon
              have h2 : (paxAt st i).state = some PState.loadingUp := hcon
              rw [hs] at h2
              exact absurd h2 (by decide)
            · refine loadCond_setAt _ _ st.pax i _ inv.loadDown ?_
              intro hcon
              have h2 : (paxAt st i).state = some PState.loadingDown := hcon
              rw [hs] at h2
              exact absurd h2 (by decide)
          next hemp =>
            exact inv
        next hr =>
          exact inv
  | loadingUp =>
    simp only [hs]
    have hreach := inv.loadUp i hs
    split
    next hexp =>
      obtain ⟨u0, hu0⟩ : ∃ u, nextUp cells0 ((paxAt st i).cell.getD 0) = some u := by
        cases hreach with
        | single h1 => exact ⟨_, h1⟩
        | step h1 _ => exact ⟨_, h1⟩
      have hcu : (cellAt st.cells ((paxAt st i).cell.getD 0)).up = some u0 := by
        rw [(hlinks ((paxAt st i).cell.getD 0)).1]
        exact hu0
      split
      next u heq =>
        have hu0u : u = u0 := by
          rw [heq] at hcu
          exact Option.some.inj hcu
        subst hu0u
        by_cases htgt : u = (paxAt st i).target
        · rw [if_pos htgt]
          simp only [movePax]
          rw [setAt_setAt, setAt_setAt]
          refine ⟨?_, inv.crash, ?_, ?_⟩
          · exact linksEq_trans (linksEq_setAt _ _ _ (fun c => ⟨rfl, rfl, rfl, rfl⟩))
              (linksEq_trans (linksEq_setAt _ _ _ (fun c => ⟨rfl, rfl, rfl, rfl⟩)) inv.links)
          · refine loadCond_setAt _ _ st.pax i _ inv.loadUp ?_
            intro hcon
            simp at hcon
          · refine loadCond_setAt _ _ st.pax i _ inv.loadDown ?_
            intro hcon
            simp at hcon
        · rw [if_neg htgt]
          simp only [movePax]
          rw [setAt_setAt]
          refine ⟨?_, inv.crash, ?_, ?_⟩
          · exact linksEq_trans (linksEq_setAt _ _ _ (fun c => ⟨rfl, rfl, rfl, rfl⟩))
              (linksEq_trans (linksEq_setAt _ _ _ (fun c => ⟨rfl, rfl, rfl, rfl⟩)) inv.links)
          · refine loadCond_setAt _ _ st.pax i _ inv.loadUp ?_
            intro _
            show Reach (nextUp cells0) u (paxAt st i).target
            cases hreach with
            | single h1 =>
              rw [hu0] at h1
              exact absurd (Option.some.inj h1) htgt
            | step h1 hrest =>
              rw [hu0] at h1
              rw [← Option.some.inj h1] at hrest
              exact hrest
          · refine loadCond_setAt _ _ st.pax i _ inv.loadDown ?_
            intro hcon
            have h2 : (paxAt st i).state = some PState.loadingDown := hcon
            rw [hs] at h2
            exact absurd h2 (by decide)
      next heq =>
        rw [heq] at hcu
        exact absurd hcu (by simp)
    next hexp =>
      refine ⟨inv.links, inv.crash, ?_, ?_⟩
      · refine loadCond_setAt _ _ st.pax i _ inv.loadUp ?_
        intro _
        show Reach (nextUp cells0) (((st.pax[i]?).getD default).cell.getD 0)
          ((st.pax[i]?).getD default).target
        exact hreach
      · refine loadCond_setAt _ _ st.pax i _ inv.loadDown ?_
        intro hcon
        have h2 : (paxAt st i).state = some PState.loadingDown := hcon
        rw [hs] at h2
        exact absurd h2 (by decide)
  | loadingDown =>
    simp only [hs]
    have hreach := inv.loadDown i hs
    split
    next hexp =>
      obtain ⟨u0, hu0⟩ : ∃ u, nextDown cells0 ((paxAt st i).cell.getD 0) = some u := by
        cases hreach with
        | single h1 => exact ⟨_, h1⟩
        | step h1 _ => exact ⟨_, h1⟩
      have hcu : (cellAt st.cells ((paxAt st i).cell.getD 0)).down = some u0 := by
        rw [(hlinks ((paxAt st i).cell.getD 0)).2.1]
        exact hu0
      split
      next u heq =>
        have hu0u : u = u0 := by
          rw [heq] at hcu
          exact Option.some.inj hcu
        subst hu0u
        by_cases htgt : u = (paxAt st i).target
        · rw [if_pos htgt]
          simp only [movePax]
          rw [setAt_setAt, setAt_setAt]
          refine ⟨?_, inv.crash, ?_, ?_⟩
          · exact linksEq_trans (linksEq_setAt _ _ _ (fun c => ⟨rfl, rfl, rfl, rfl⟩))
              (linksEq_trans (linksEq_setAt _ _ _ (fun c => ⟨rfl, rfl, rfl, rfl⟩)) inv.links)
          · refine loadCond_setAt _ _ st.pax i _ inv.loadUp ?_
            intro hcon
            simp at hcon
          · refine loadCond_setAt _ _ st.pax i _ inv.loadDown ?_
            intro hcon
            simp at hcon
        · rw [if_neg htgt]
          simp only [movePax]
          rw [setAt_setAt]
          refine ⟨?_, inv.crash, ?_, ?_⟩
          · exact linksEq_trans (linksEq_setAt _ _ _ (fun c => ⟨rfl, rfl, rfl, rfl⟩))
              (linksEq_trans (linksEq_setAt _ _ _ (fun c => ⟨rfl, rfl, rfl, rfl⟩)) inv.links)
          · refine loadCond_setAt _ _ st.pax i _ inv.loadUp ?_
            intro hcon
            have h2 : (paxAt st i).state = some PState.loadingUp := hcon
            rw [hs] at h2
            exact absurd h2 (by decide)
          · refine loadCond_setAt _ _ st.pax i _ inv.loadDown ?_
            intro _
            show Reach (nextDown cells0) u (paxAt st i).target
            cases hreach with
            | single h1 =>
              rw [hu0] at h1
              exact absurd (Option.some.inj h1) htgt
            | step h1 hrest =>
              rw [hu0] at h1
              rw [← Option.some.inj h1] at hrest
              exact hrest
      next heq =>
        rw [heq] at hcu
        exact absurd hcu (by simp)
    next hexp =>
      refine ⟨inv.links, inv.crash, ?_, ?_⟩
      · refine loadCond_setAt _ _ st.pax i _ inv.loadUp ?_
        intro hcon
        have h2 : (paxAt st i).state = some PState.loadingUp := hcon
        rw [hs] at h2
        exact absurd h2 (by decide)
      · refine loadCond_setAt _ _ st.pax i _ inv.loadDown ?_
        intro _
        show Reach (nextDown cells0) (((st.pax[i]?).getD default).cell.getD 0)
          ((st.pax[i]?).getD default).target
        exact hreach

theorem foldlSim_inv (cells0 : List Cell) (lug : Nat → Int) (d : Int)
    (hUE : UpEntry cells0) (hDE : DownEntry cells0) (hRC : RowColSome cells0) :
    ∀ (l : List Nat) (st : SimSt), SimInv cells0 st →
    SimInv cells0
      (List.foldl (fun s i => if s.crashed = true then s else paxSimulate lug d s i) st l) := by
  intro l
  induction l with
  | nil =>
    intro st inv
    exact inv
  | cons j rest ih =>
    intro st inv
    simp only [List.foldl_cons]
    rw [if_neg (by rw [inv.crash]; simp)]
    exact ih _ (paxSimulate_inv cells0 lug d st j hUE hDE hRC inv)

theorem simAll_inv (cells0 : List Cell) (lug : Nat → Int) (d : Int) (st : SimSt)
    (hUE : UpEntry cells0) (hDE : DownEntry cells0) (hRC : RowColSome cells0)
    (inv : SimInv cells0 st) : SimInv cells0 (simAll lug d st) := by
  unfold simAll
  exact foldlSim_inv cells0 lug d hUE hDE hRC st.active st inv

theorem board_inv (cells0 : List Cell) (st : SimSt) (i : Nat)
    (inv : SimInv cells0 st) : SimInv cells0 (board st i) := by
  unfold board
  split
  next hemp =>
    refine ⟨?_, inv.crash, ?_, ?_⟩
    · exact linksEq_trans (linksEq_setAt _ _ _ (fun c => ⟨rfl, rfl, rfl, rfl⟩)) inv.links
    · refine loadCond_setAt _ _ st.pax i _ inv.loadUp ?_
      intro hcon
      simp at hcon
    · refine loadCond_setAt _ _ st.pax i _ inv.loadDown ?_
      intro hcon
      simp at hcon
  next hemp =>
    exact ⟨inv.links, inv.crash, inv.loadUp, inv.loadDown⟩

theorem admitStep_inv (cells0 : List Cell) (st : SimSt) (inv : SimInv cells0 st) :
    SimInv cells0 (admitStep st) := by
  unfold admitStep
  dsimp only
  split
  next hc =>
    have inv1 : SimInv cells0 { st with pending := st.pending.dropLast } :=
      ⟨inv.links, inv.crash, inv.loadUp, inv.loadDown⟩
    have inv2 := board_inv cells0 _ (st.pending.getLast?.getD 0) inv1
    split
    next hbe => exact inv2
    next hbe => exact ⟨inv2.links, inv2.crash, inv2.loadUp, inv2.loadDown⟩
  next hc => exact inv

theorem tickBody_inv (cells0 : List Cell) (lug : Nat → Int) (d : Int) (st : SimSt)
    (hUE : UpEntry cells0) (hDE : DownEntry cells0) (hRC : RowColSome cells0)
    (inv : SimInv cells0 st) : SimInv cells0 (tickBody lug d st) := by
  unfold tickBody
  dsimp only
  have inv1 := admitStep_inv cells0 st inv
  split
  next => exact inv1
  next =>
    split
    next => exact inv1
    next =>
      have inv2 := simAll_inv cells0 lug d (admitStep st) hUE hDE hRC inv1
      exact ⟨inv2.links, inv2.crash, inv2.loadUp, inv2.loadDown⟩

theorem runLoop_noCrash (cells0 : List Cell) (lug : Nat → Int) (d : Int) (r : Nat → Bool)
    (hUE : UpEntry cells0) (hDE : DownEntry cells0) (hRC : RowColSome cells0) :
    ∀ (fuel : Nat) (st : SimSt), SimInv cells0 st →
    (runLoop lug d r fuel st).1.crashed = false ∧
    (runLoop lug d r fuel st).2 ≠ Outcome.crashed := by
  intro fuel
  induction fuel with
  | zero =>
    intro st inv
    by_cases hr : r st.iter = true
    · rw [runLoop_zero lug d r st hr]
      exact ⟨inv.crash, fun h => Outcome.noConfusion h⟩
    · rw [runLoop_abort lug d r 0 st (by simpa using hr)]
      exact ⟨inv.crash, fun h => Outcome.noConfusion h⟩
  | succ fuel ih =>
    intro st inv
    by_cases hr : r st.iter = true
    · by_cases hbe : (admitStep st).boardError = true
      · rw [runLoop_boardFailed_eq lug d r fuel st hr hbe]
        exact ⟨(admitStep_inv cells0 st inv).crash, fun h => Outcome.noConfusion h⟩
      · have hbe' : (admitStep st).boardError = false := by simpa using hbe
        by_cases hsea : allSeated (admitStep st) = true
        · rw [runLoop_complete_eq lug d r fuel st hr hbe' hsea]
          exact ⟨(admitStep_inv cells0 st inv).crash, fun h => Outcome.noConfusion h⟩
        · have hsea' : allSeated (admitStep st) = false := by simpa using hsea
          have invT := tickBody_inv cells0 lug d st hUE hDE hRC inv
          rw [runLoop_step_live lug d r fuel st hr hbe' hsea' invT.crash]
          exact ih _ invT
    · rw [runLoop_abort lug d r (fuel + 1) st (by simpa using hr)]
      exact ⟨inv.crash, fun h => Outcome.noConfusion h⟩

theorem simInit_inv (layout : List RowSpec) (method : Method) (rand : Nat → Nat) :
    SimInv (generateAircraft layout).cells (simInit layout method rand) := by
  have hstate : ∀ j, (paxAt (simInit layout method rand) j).state = none := by
    intro j
    unfold simInit paxAt
    dsimp only
    rw [List.getElem?_map]
    cases (generateAircraft layout).seats[j]? <;> rfl
  refine ⟨linksEq_refl _, rfl, ?_, ?_⟩
  · intro j hj
    rw [hstate j] at hj
    exact Option.noConfusion hj
  · intro j hj
    rw [hstate j] at hj
    exact Option.noConfusion hj

/-- **C10**: for every simulation run (any layout, boarding method, tick
length, luggage stream, cancellation schedule and shuffle randomness), the
loading-state moves never dereference an absent `up`/`down` neighbor: the
run never sets the crash flag and never ends with the `crashed` outcome,
because a loading state is entered only with the target seat reachable
along the seat chain and every loading move stays on that chain. -/
theorem loading_move_safe (layout : List RowSpec) (method : Method) (tickLen : Int)
    (luggage : Nat → Int) (running : Nat → Bool) (rand : Nat → Nat) :
    (simulateModel layout method tickLen luggage running rand).1.crashed = false ∧
    (simulateModel layout method tickLen luggage running rand).2 ≠ Outcome.crashed := by
  obtain ⟨bf, heq, binv⟩ := generateAircraft_buildInv layout
  have hUE : UpEntry (generateAircraft layout).cells := by
    rw [heq]
    exact binv.upEntry
  have hDE : DownEntry (generateAircraft layout).cells := by
    rw [heq]
    exact binv.downEntry
  have hRC : RowColSome (generateAircraft layout).cells := by
    rw [heq]
    exact binv.rowColIff
  unfold simulateModel
  exact runLoop_noCrash _ luggage tickLen running hUE hDE hRC maxIterations _
    (simInit_inv layout method rand)

/-! ### Seat lettering -/

theorem cellAt_setAt_col (cells : List Cell) (m k : Nat) (f : Cell → Cell)
    (hf : ∀ c, (f c).col = c.col) :
    (cellAt (setAt cells m f) k).col = (cellAt cells k).col := by
  by_cases hkm : k = m
  · subst hkm
    unfold cellAt
    rw [getElem?_setAt_self]
    cases hc : cells[k]? with
    | none => rfl
    | some c => simpa using hf c
  · unfold cellAt
    rw [getElem?_setAt_ne _ _ _ _ hkm]

theorem stepChar_grow (b : BState) (pc : Option Nat) (si j : Nat) (ch : Char) :
    b.ac.cells.length ≤ (stepChar b pc si j ch).1.ac.cells.length ∧
    ∀ k, k < b.ac.cells.length →
      (cellAt (stepChar b pc si j ch).1.ac.cells k).col = (cellAt b.ac.cells k).col := by
  by_cases hS : ch = 'S'
  · cases pc with
    | none =>
      simp only [stepChar, if_pos hS]
      constructor
      · simp [addCell]
      · intro k hk
        simp only [addCell]
        rw [cellAt_append, if_neg (by omega)]
    | some p =>
      simp only [stepChar, if_pos hS]
      constructor
      · simp [addCell, setAt_length]
      · intro k hk
        simp only [addCell]
        rw [cellAt_append]
        rw [if_neg (by rw [setAt_length]; omega)]
        exact cellAt_setAt_col _ _ _ _ (fun c => rfl)
  · by_cases hA : ch = 'A'
    · cases pc with
      | none =>
        simp only [stepChar, if_neg hS, if_pos hA]
        constructor
        · simp [addCell, setAt_length]
        · intro k hk
          simp only [addCell]
          rw [cellAt_append]
          rw [if_neg (by rw [setAt_length]; omega)]
          exact cellAt_setAt_col _ _ _ _ (fun c => rfl)
      | some p =>
        simp only [stepChar, if_neg hS, if_pos hA]
        constructor
        · simp [addCell, setAt_length]
        · intro k hk
          simp only [addCell]
          rw [cellAt_append]
          rw [if_neg (by rw [setAt_length, setAt_length]; omega)]
          exact (cellAt_setAt_col _ p k (cellUpdDown b.ac.cells.length) (fun c => rfl)).trans
            (cellAt_setAt_col _ b.prevAisle k (cellUpdRight b.ac.cells.length ((j : Int) * 64))
              (fun c => rfl))
    · by_cases hP : ch = '+'
      · simp only [stepChar, if_neg hS, if_neg hA, if_pos hP]
        exact ⟨by simp, by simp⟩
      · simp only [stepChar, if_neg hS, if_neg hA, if_neg hP]
        exact ⟨by simp, by simp⟩

theorem stepChars_grow : ∀ (pattern : List Char) (b : BState) (pc : Option Nat) (si j : Nat),
    b.ac.cells.length ≤ (stepChars b pc si j pattern).ac.cells.length ∧
    ∀ k, k < b.ac.cells.length →
      (cellAt (stepChars b pc si j pattern).ac.cells k).col = (cellAt b.ac.cells k).col := by
  intro pattern
  induction pattern with
  | nil =>
    intro b pc si j
    exact ⟨Nat.le_refl _, fun k _ => rfl⟩
  | cons ch rest ih =>
    intro b pc si j
    have h1 := stepChar_grow b pc si j ch
    have h2 := ih (stepChar b pc si j ch).1 (stepChar b pc si j ch).2.1
      (stepChar b pc si j ch).2.2 (j + 1)
    refine ⟨le_trans h1.1 h2.1, ?_⟩
    intro k hk
    have h3 := h2.2 k (by omega)
    have h4 := h1.2 k hk
    exact h3.trans h4

theorem countSP_cons (c : Char) (rest : List Char) (j : Nat) :
    countSP (c :: rest) (j + 1)
      = (if c = 'S' ∨ c = '+' then 1 else 0) + countSP rest j := by
  unfold countSP
  rw [List.take_succ_cons, List.filter_cons]
  by_cases h : c = 'S' ∨ c = '+'
  · rw [if_pos h]
    rw [if_pos (show (decide (c = 'S') || decide (c = '+')) = true by
      rcases h with h | h <;> simp [h])]
    simp only [List.length_cons]
    omega
  · rw [if_neg h]
    rw [if_neg (show ¬ (decide (c = 'S') || decide (c = '+')) = true by
      push_neg at h
      simp [h.1, h.2])]
    omega

theorem countSP_zero (p : List Char) : countSP p 0 = 0 := by
  unfold countSP
  simp

theorem rowSeatColsSpecFrom_cons (si : Nat) (c : Char) (rest : List Char) :
    rowSeatColsSpecFrom si (c :: rest)
      = (if c = 'S' then [65 + si] else [])
        ++ rowSeatColsSpecFrom (si + (if c = 'S' ∨ c = '+' then 1 else 0)) rest := by
  unfold rowSeatColsSpecFrom
  rw [show (c :: rest).length = rest.length + 1 from rfl]
  rw [List.range_succ_eq_map, List.filterMap_cons, List.filterMap_map]
  have hfun : ((fun j => if (c :: rest)[j]? = some 'S'
        then some (65 + si + countSP (c :: rest) j) else none) ∘ (fun j => j + 1))
      = fun j => if rest[j]? = some 'S'
        then some (65 + (si + (if c = 'S' ∨ c = '+' then 1 else 0)) + countSP rest j)
        else none := by
    funext j
    simp only [Function.comp]
    rw [List.getElem?_cons_succ, countSP_cons]
    split
    · congr 1
      by_cases h : c = 'S' ∨ c = '+'
      · rw [if_pos h]
        omega
      · rw [if_neg h]
        omega
    · rfl
  rw [hfun]
  by_cases hc : c = 'S'
  · rw [if_pos hc]
    have h0 : (c :: rest)[0]? = some 'S' := by simp [hc]
    rw [if_pos h0, countSP_zero]
    rfl
  · have h0 : ¬ (c :: rest)[0]? = some 'S' := by simp [hc]
    rw [if_neg hc, if_neg h0]
    rfl

theorem rowSeatColsSpecFrom_zero (p : List Char) :
    rowSeatColsSpecFrom 0 p = rowSeatColsSpec p := rfl

theorem stepChars_seatCols : ∀ (pattern : List Char) (b : BState) (pc : Option Nat) (si j : Nat),
    ∃ δ : List Nat, (stepChars b pc si j pattern).ac.seats = b.ac.seats ++ δ ∧
      δ.map (fun n => (cellAt (stepChars b pc si j pattern).ac.cells n).col)
        = (rowSeatColsSpecFrom si pattern).map some := by
  intro pattern
  induction pattern with
  | nil =>
    intro b pc si j
    refine ⟨[], by simp [stepChars], ?_⟩
    simp [rowSeatColsSpecFrom]
  | cons ch rest ih =>
    intro b pc si j
    show ∃ δ : List Nat,
      (stepChars (stepChar b pc si j ch).1 (stepChar b pc si j ch).2.1
        (stepChar b pc si j ch).2.2 (j + 1) rest).ac.seats = b.ac.seats ++ δ ∧
      δ.map (fun n => (cellAt (stepChars (stepChar b pc si j ch).1 (stepChar b pc si j ch).2.1
        (stepChar b pc si j ch).2.2 (j + 1) rest).ac.cells n).col)
        = (rowSeatColsSpecFrom si (ch :: rest)).map some
    rw [rowSeatColsSpecFrom_cons]
    by_cases hS : ch = 'S'
    · have hsi : (stepChar b pc si j ch).2.2 = si + 1 := by
        cases pc <;> simp [stepChar, if_pos hS]
      rw [hsi, if_pos hS, if_pos (Or.inl hS)]
      obtain ⟨δ, hseats, hcols⟩ := ih (stepChar b pc si j ch).1
        (stepChar b pc si j ch).2.1 (si + 1) (j + 1)
      have hse : (stepChar b pc si j ch).1.ac.seats
          = b.ac.seats ++ [b.ac.cells.length] := by
        cases pc <;> simp [stepChar, if_pos hS, addCell]
      have hlen1 : b.ac.cells.length < (stepChar b pc si j ch).1.ac.cells.length := by
        cases pc <;> simp [stepChar, if_pos hS, addCell, setAt_length]
      have hcolnew : (cellAt (stepChar b pc si j ch).1.ac.cells b.ac.cells.length).col
          = some (65 + si) := by
        cases pc with
        | none =>
          simp only [stepChar, if_pos hS, addCell]
          rw [cellAt_append, if_pos rfl]
        | some p =>
          simp only [stepChar, if_pos hS, addCell]
          rw [cellAt_append]
          rw [if_pos (by rw [setAt_length])]
      have hfinal : (cellAt (stepChars (stepChar b pc si j ch).1
          (stepChar b pc si j ch).2.1 (si + 1) (j + 1) rest).ac.cells
          b.ac.cells.length).col = some (65 + si) := by
        rw [(stepChars_grow rest ((stepChar b pc si j ch).1)
          ((stepChar b pc si j ch).2.1) (si + 1) (j + 1)).2 b.ac.cells.length hlen1]
        exact hcolnew
      refine ⟨b.ac.cells.length :: δ, ?_, ?_⟩
      · rw [hseats, hse, List.append_assoc]
        rfl
      · rw [List.map_cons, hfinal, hcols]
        simp
    · by_cases hA : ch = 'A'
      · have hsi : (stepChar b pc si j ch).2.2 = si := by
          cases pc <;> simp [stepChar, if_neg hS, if_pos hA]
        have hnsp : ¬ (ch = 'S' ∨ ch = '+') := by
          rintro (h | h)
          · exact hS h
          · rw [hA] at h
            exact absurd h (by decide)
        rw [hsi, if_neg hS, if_neg hnsp, Nat.add_zero]
        obtain ⟨δ, hseats, hcols⟩ := ih (stepChar b pc si j ch).1
          (stepChar b pc si j ch).2.1 si (j + 1)
        have hse : (stepChar b pc si j ch).1.ac.seats = b.ac.seats := by
          cases pc <;> simp [stepChar, if_neg hS, if_pos hA, addCell]
        refine ⟨δ, ?_, ?_⟩
        · rw [hseats, hse]
        · rw [hcols]
          simp
      · by_cases hP : ch = '+'
        · have hsi : (stepChar b pc si j ch).2.2 = si + 1 := by
            simp [stepChar, if_neg hS, if_neg hA, if_pos hP]
          have hsp : ch = 'S' ∨ ch = '+' := Or.inr hP
          rw [hsi, if_neg hS, if_pos hsp]
          obtain ⟨δ, hseats, hcols⟩ := ih (stepChar b pc si j ch).1
            (stepChar b pc si j ch).2.1 (si + 1) (j + 1)
          have hse : (stepChar b pc si j ch).1.ac.seats = b.ac.seats := by
            simp [stepChar, if_neg hS, if_neg hA, if_pos hP]
          refine ⟨δ, ?_, ?_⟩
          · rw [hseats, hse]
          · rw [hcols]
            simp
        · have hsi : (stepChar b pc si j ch).2.2 = si := by
            simp [stepChar, if_neg hS, if_neg hA, if_neg hP]
          have hnsp : ¬ (ch = 'S' ∨ ch = '+') := by
            rintro (h | h)
            · exact hS h
            · exact hP h
          rw [hsi, if_neg hS, if_neg hnsp, Nat.add_zero]
          obtain ⟨δ, hseats, hcols⟩ := ih (stepChar b pc si j ch).1
            (stepChar b pc si j ch).2.1 si (j + 1)
          have hse : (stepChar b pc si j ch).1.ac.seats = b.ac.seats := by
            simp [stepChar, if_neg hS, if_neg hA, if_neg hP]
          refine ⟨δ, ?_, ?_⟩
          · rw [hseats, hse]
          · rw [hcols]
            simp

/-- **C7**: within each compiled row (`stepRep` runs the pattern with the
letter counter started at 0), seats receive sequential column letters
starting at code 65 (letter `A`): the row's new seats, in creation order,
carry exactly the column codes `65 + (number of S and + symbols strictly
before the seat's S in the pattern)` (`rowSeatColsSpec`); a `+` advances
the letter counter without creating a seat or a cell, and any symbol other
than `S`, `A`, `+` changes nothing at all. -/
theorem seat_lettering (b : BState) (pattern : List Char) :
    (∃ δ : List Nat, (stepRep b pattern).ac.seats = b.ac.seats ++ δ ∧
      δ.map (fun n => (cellAt (stepRep b pattern).ac.cells n).col)
        = (rowSeatColsSpec pattern).map some) ∧
    (∀ pc si j, stepChar b pc si j '+' = (b, pc, si + 1)) ∧
    (∀ pc si j ch, ch ≠ 'S' → ch ≠ 'A' → ch ≠ '+' →
      stepChar b pc si j ch = (b, pc, si)) := by
  refine ⟨?_, ?_, ?_⟩
  · obtain ⟨δ, h1, h2⟩ := stepChars_seatCols pattern { b with x := b.x + 64 } none 0 0
    refine ⟨δ, ?_, ?_⟩
    · show (stepChars { b with x := b.x + 64 } none 0 0 pattern).ac.seats
        = b.ac.seats ++ δ
      exact h1
    · show δ.map (fun n =>
          (cellAt (stepChars { b with x := b.x + 64 } none 0 0 pattern).ac.cells n).col)
        = (rowSeatColsSpec pattern).map some
      rw [h2, rowSeatColsSpecFrom_zero]
  · intro pc si j
    simp [stepChar]
  · intro pc si j ch h1 h2 h3
    simp [stepChar, h1, h2, h3]

/-- Witness for the seat-lettering theorem: the concrete initial build
state, with the non-layout character `X` leaving everything unchanged. -/
theorem seat_lettering_witness :
    stepChar { ac := addCell {} { x := 0, y := 0 }, prevAisle := 0, x := 0, rowIndex := 1 }
        none 0 0 'X'
      = ({ ac := addCell {} { x := 0, y := 0 }, prevAisle := 0, x := 0, rowIndex := 1 },
          none, 0) :=
  (seat_lettering
    { ac := addCell {} { x := 0, y := 0 }, prevAisle := 0, x := 0, rowIndex := 1 }
    ['S']).2.2 none 0 0 'X' (by decide) (by decide) (by decide)

/-! ### The entry cell never holds two occupants -/

theorem cellAt_setAt_of_ne (cells : List Cell) (m k : Nat) (f : Cell → Cell)
    (h : k ≠ m) : cellAt (setAt cells m f) k = cellAt cells k := by
  unfold cellAt
  rw [getElem?_setAt_ne _ _ _ _ h]

theorem rightsEq_refl (c : List Cell) : RightsEq c c := fun _ => rfl

theorem rightsEq_setAt (cells : List Cell) (k : Nat) (f : Cell → Cell)
    (hf : ∀ c, (f c).right = c.right) : RightsEq (setAt cells k f) cells := by
  intro m
  by_cases hmk : m = k
  · subst hmk
    unfold cellAt
    rw [getElem?_setAt_self]
    cases hc : cells[m]? with
    | none => rfl
    | some c => simpa using hf c
  · rw [cellAt_setAt_of_ne _ _ _ _ hmk]

theorem rightsEq_trans {a b c : List Cell} (h1 : RightsEq a b) (h2 : RightsEq b c) :
    RightsEq a c := fun k => (h1 k).trans (h2 k)

theorem movePax_rights (st : SimSt) (i fromC toC : Nat) (c2 : List Cell)
    (h : RightsEq st.cells c2) : RightsEq (movePax st i fromC toC).cells c2 := by
  unfold movePax
  dsimp only
  exact rightsEq_trans (rightsEq_setAt _ _ _ (fun c => rfl))
    (rightsEq_trans (rightsEq_setAt _ _ _ (fun c => rfl)) h)

theorem movePax_entry (st : SimSt) (i fromC toC : Nat) (hto : toC ≠ 0)
    (h : (cellAt st.cells 0).contents.length ≤ 1) :
    (cellAt (movePax st i fromC toC).cells 0).contents.length ≤ 1 := by
  unfold movePax
  dsimp only
  rw [cellAt_setAt_of_ne _ _ _ _ (Ne.symm hto)]
  by_cases hf : fromC = 0
  · subst hf
    unfold cellAt
    rw [getElem?_setAt_self]
    cases hc : st.cells[0]? with
    | none => exact Nat.zero_le 1
    | some c =>
      simp only [Option.map_some', Option.getD_some]
      have h1 : (c.contents.erase i).length ≤ c.contents.length :=
        List.length_erase_le i c.contents
      have h2 : c.contents.length ≤ 1 := by
        unfold cellAt at h
        rw [hc] at h
        simpa using h
      exact le_trans h1 h2
  · rw [cellAt_setAt_of_ne _ _ _ _ (Ne.symm hf)]
    exact h

theorem paxSimulate_entry (cells0 : List Cell) (lug : Nat → Int) (d : Int) (st : SimSt)
    (i : Nat) (hNE : NoLinksToEntry cells0) (inv : EntryInv cells0 st) :
    EntryInv cells0 (paxSimulate lug d st i) := by
  unfold paxSimulate
  rcases hs : (paxAt st i).state with _ | s
  · simp only [hs]
    exact inv
  cases s with
  | seated =>
    simp only [hs]
    exact inv
  | searching =>
    simp only [hs]
    split
    next hu =>
      exact ⟨inv.links, inv.rights, inv.entry⟩
    next hu =>
      split
      next hd =>
        exact ⟨inv.links, inv.rights, inv.entry⟩
      next hd =>
        split
        next r hr =>
          split
          next hemp =>
            have hr0 : (cellAt cells0 ((paxAt st i).cell.getD 0)).right = some r := by
              rw [← inv.rights ((paxAt st i).cell.getD 0)]
              exact hr
            have hrne : r ≠ 0 := by
              intro h0
              subst h0
              exact (hNE ((paxAt st i).cell.getD 0)).1 hr0
            exact ⟨movePax_links st i _ _ cells0 inv.links,
              movePax_rights st i _ _ cells0 inv.rights,
              movePax_entry st i _ r hrne inv.entry⟩
          next hemp =>
            exact inv
        next hr =>
          exact inv
  | loadingUp =>
    simp only [hs]
    split
    next hexp =>
      split
      next u heq =>
        have hu0 : (cellAt cells0 ((paxAt st i).cell.getD 0)).up = some u := by
          rw [← (inv.links ((paxAt st i).cell.getD 0)).1]
          exact heq
        have hune : u ≠ 0 := by
          intro h0
          subst h0
          exact (hNE ((paxAt st i).cell.getD 0)).2.2 hu0
        by_cases htgt : u = (paxAt st i).target
        · rw [if_pos htgt]
          exact ⟨movePax_links _ i _ _ cells0 inv.links,
            movePax_rights _ i _ _ cells0 inv.rights,
            movePax_entry _ i _ u hune inv.entry⟩
        · rw [if_neg htgt]
          exact ⟨movePax_links _ i _ _ cells0 inv.links,
            movePax_rights _ i _ _ cells0 inv.rights,
            movePax_entry _ i _ u hune inv.entry⟩
      next heq =>
        exact ⟨inv.links, inv.rights, inv.entry⟩
    next hexp =>
      exact ⟨inv.links, inv.rights, inv.entry⟩
  | loadingDown =>
    simp only [hs]
    split
    next hexp =>
      split
      next u heq =>
        have hu0 : (cellAt cells0 ((paxAt st i).cell.getD 0)).down = some u := by
          rw [← (inv.links ((paxAt st i).cell.getD 0)).2.1]
          exact heq
        have hune : u ≠ 0 := by
          intro h0
          subst h0
          exact (hNE ((paxAt st i).cell.getD 0)).2.1 hu0
        by_cases htgt : u = (paxAt st i).target
        · rw [if_pos htgt]
          exact ⟨movePax_links _ i _ _ cells0 inv.links,
            movePax_rights _ i _ _ cells0 inv.rights,
            movePax_entry _ i _ u hune inv.entry⟩
        · rw [if_neg htgt]
          exact ⟨movePax_links _ i _ _ cells0 inv.links,
            movePax_rights _ i _ _ cells0 inv.rights,
            movePax_entry _ i _ u hune inv.entry⟩
      next heq =>
        exact ⟨inv.links, inv.rights, inv.entry⟩
    next hexp =>
      exact ⟨inv.links, inv.rights, inv.entry⟩

theorem board_entry (cells0 : List Cell) (st : SimSt) (i : Nat)
    (inv : EntryInv cells0 st) : EntryInv cells0 (board st i) := by
  unfold board
  split
  next hemp =>
    refine ⟨?_, ?_, ?_⟩
    · exact linksEq_trans (linksEq_setAt _ _ _ (fun c => ⟨rfl, rfl, rfl, rfl⟩)) inv.links
    · exact rightsEq_trans (rightsEq_setAt _ _ _ (fun c => rfl)) inv.rights
    · have hc0 : (cellAt st.cells 0).contents = [] := by
        simpa [Cell.isEmpty] using hemp
      show (cellAt (setAt st.cells 0 _) 0).contents.length ≤ 1
      unfold cellAt
      rw [getElem?_setAt_self]
      cases hc : st.cells[0]? with
      | none => exact Nat.zero_le 1
      | some c =>
        simp only [Option.map_some', Option.getD_some]
        have : c.contents = [] := by
          unfold cellAt at hc0
          rw [hc] at hc0
          simpa using hc0
        simp [addContent, this]
  next hemp =>
    exact ⟨inv.links, inv.rights, inv.entry⟩

theorem admitStep_entry (cells0 : List Cell) (st : SimSt)
    (inv : EntryInv cells0 st) : EntryInv cells0 (admitStep st) := by
  unfold admitStep
  dsimp only
  split
  next hc =>
    have inv1 : EntryInv cells0 { st with pending := st.pending.dropLast } :=
      ⟨inv.links, inv.rights, inv.entry⟩
    have inv2 := board_entry cells0 _ (st.pending.getLast?.getD 0) inv1
    split
    next hbe => exact inv2
    next hbe => exact ⟨inv2.links, inv2.rights, inv2.entry⟩
  next hc => exact inv

theorem foldlSim_entry (cells0 : List Cell) (lug : Nat → Int) (d : Int)
    (hNE : NoLinksToEntry cells0) :
    ∀ (l : List Nat) (st : SimSt), EntryInv cells0 st →
    EntryInv cells0
      (List.foldl (fun s i => if s.crashed = true then s else paxSimulate lug d s i) st l) := by
  intro l
  induction l with
  | nil =>
    intro st inv
    exact inv
  | cons j rest ih =>
    intro st inv
    simp only [List.foldl_cons]
    by_cases hc : st.crashed = true
    · rw [if_pos hc]
      exact ih st inv
    · rw [if_neg hc]
      exact ih _ (paxSimulate_entry cells0 lug d st j hNE inv)

theorem tickBody_entry (cells0 : List Cell) (lug : Nat → Int) (d : Int) (st : SimSt)
    (hNE : NoLinksToEntry cells0) (inv : EntryInv cells0 st) :
    EntryInv cells0 (tickBody lug d st) := by
  unfold tickBody
  dsimp only
  have inv1 := admitStep_entry cells0 st inv
  split
  next => exact inv1
  next =>
    split
    next => exact inv1
    next =>
      have inv2 : EntryInv cells0 (simAll lug d (admitStep st)) := by
        unfold simAll
        exact foldlSim_entry cells0 lug d hNE (admitStep st).active (admitStep st) inv1
      exact ⟨inv2.links, inv2.rights, inv2.entry⟩

theorem simTrace_entry (layout : List RowSpec) (method : Method) (tickLen : Int)
    (luggage : Nat → Int) (rand : Nat → Nat) :
    ∀ n, EntryInv (generateAircraft layout).cells
      (simTrace layout method tickLen luggage rand n) := by
  obtain ⟨bf, heq, binv⟩ := generateAircraft_buildInv layout
  have hNE : NoLinksToEntry (generateAircraft layout).cells := by
    rw [heq]
    exact binv.noEntry
  intro n
  induction n with
  | zero =>
    refine ⟨linksEq_refl _, rightsEq_refl _, ?_⟩
    show (cellAt (generateAircraft layout).cells 0).contents.length ≤ 1
    rw [heq, binv.empty 0]
    exact Nat.zero_le 1
  | succ m ih =>
    exact tickBody_entry _ luggage tickLen _ hNE ih

/-- **C2** (amended): at every tick boundary of every simulation run, the
entry cell (the starting cell, id 0) holds at most one occupant: admission
is guarded by its emptiness and no neighbor link ever points back to it.
The original claim over every traversable cell is refuted by the recorded
counterexample: seat and aisle cells can transiently hold two occupants,
because the loading-state moves do not check emptiness. -/
theorem occupancy_invariant_amended (layout : List RowSpec) (method : Method)
    (tickLen : Int) (luggage : Nat → Int) (rand : Nat → Nat) (n : Nat) :
    (cellAt (simTrace layout method tickLen luggage rand n).cells 0).contents.length ≤ 1 :=
  (simTrace_entry layout method tickLen luggage rand n).entry

end JsBoard
